import Mathlib

/-!
# Emulation thread coordinator of `android_host_interface.cpp`

A shallow embedding of the command queue, the emulation thread loop and the
vibration throttle of `AndroidHostInterface`, with the properties of the
specification stated over it.
-/

namespace AndroidHostInterface

/-- The part of an `AndroidHostInterface` the coordinator reads and writes.
`κ` names the queued `std::function<void()>` objects, `σ` is every other piece
of state a command can reach (the global `System`, settings, display). -/
structure Host (κ σ : Type) where
  /-- Member `std::deque<std::function<void()>> m_callback_queue`, front first. -/
  m_callback_queue : List κ
  /-- Member `std::atomic_bool m_callbacks_outstanding`. -/
  m_callbacks_outstanding : Bool
  /-- Member `std::atomic_bool m_emulation_thread_running`. -/
  m_emulation_thread_running : Bool
  /-- Member `std::atomic_bool m_emulation_thread_stop_request`. -/
  m_emulation_thread_stop_request : Bool
  /-- Member `bool m_throttler_enabled`. -/
  m_throttler_enabled : Bool
  /-- Member `bool m_vibration_enabled`. -/
  m_vibration_enabled : Bool
  /-- Everything else. -/
  sys : σ

/-- What a coordinator function itself does to the outside, in program order. -/
inductive Event (κ : Type) where
  /-- A call of a `std::function<void()>`: `function()` or `callback()`. -/
  | callback (c : κ)
  /-- Call of `m_sleep_cv.notify_one()`. -/
  | notify_one
  /-- Call of `m_sleep_cv.wait(lock)`. -/
  | cv_wait
  /-- Call of `onEmulationStarted` on the emulation activity. -/
  | onEmulationStarted
  /-- Call of `System::RunFrame()`. -/
  | RunFrame
  /-- Call of `System::RunFrames()`. -/
  | RunFrames
  /-- Call of `UpdateVibration()`. -/
  | UpdateVibration
  /-- Call of `ImGui::NewFrame()`. -/
  | NewFrame
  /-- Call of `DrawImGuiWindows()`. -/
  | DrawImGuiWindows
  /-- Call of `m_display->Render()`. -/
  | Render
  /-- Call of `ImGui::EndFrame()`. -/
  | EndFrame
  /-- Call of `System::UpdatePerformanceCounters()`. -/
  | UpdatePerformanceCounters
  /-- Call of `System::Throttle()`. -/
  | Throttle
  deriving DecidableEq, Repr

/-- The collaborators of the coordinator whose code is outside this file: the
bodies of the queued functions, the `System` namespace, the display, and the
other threads (which act whenever the calling thread has released `m_mutex`). -/
structure Externals (κ σ : Type) where
  /-- The body of a queued function, run on the host. -/
  call : κ → Host κ σ → Host κ σ
  /-- What the other threads do while this thread has `m_mutex` released and
  is waiting (in the spin of a blocking submission, or in `m_sleep_cv.wait`). -/
  others : Host κ σ → Host κ σ
  /-- Collaborator `System::IsPaused()`. -/
  IsPaused : σ → Bool
  /-- Collaborator `System::IsRunning()`. -/
  IsRunning : σ → Bool
  /-- Collaborator `System::RunFrame()`. -/
  RunFrame : Host κ σ → Host κ σ
  /-- Collaborator `System::RunFrames()`. -/
  RunFrames : Host κ σ → Host κ σ
  /-- Collaborator `UpdateVibration()`. -/
  UpdateVibration : Host κ σ → Host κ σ
  /-- Collaborator `DrawImGuiWindows()`. -/
  DrawImGuiWindows : Host κ σ → Host κ σ
  /-- Collaborator `m_display->Render()`. -/
  Render : Host κ σ → Host κ σ
  /-- Collaborator `System::UpdatePerformanceCounters()`. -/
  UpdatePerformanceCounters : Host κ σ → Host κ σ
  /-- Collaborator `System::Throttle()`. -/
  Throttle : Host κ σ → Host κ σ

variable {κ σ : Type}

/-- Modelled from the spec: `IsEmulationThreadRunning()` is declared in
`android_host_interface.h`, which is not among the sources; it reads the
`running` flag of the thread state. -/
def IsEmulationThreadRunning (h : Host κ σ) : Bool :=
  h.m_emulation_thread_running

/-- The spin of a blocking submission (lines 342-349): leave when
`m_callbacks_outstanding` reads false, otherwise unlock, lock and look again.
Between the unlock and the lock the other threads run. -/
def spinWait (ext : Externals κ σ) : Nat → Host κ σ → Option (Host κ σ)
  | 0, _ => none
  | n + 1, h =>
    if !h.m_callbacks_outstanding then some h
    else spinWait ext n (ext.others h)

/-- Function `AndroidHostInterface::RunOnEmulationThread(function, blocking)` (lines
326-353). The result is the host on return with the events of the call, or
`none` when the spin has not ended within the given number of rounds. -/
def RunOnEmulationThread (ext : Externals κ σ) (fuel : Nat) (function : κ) (blocking : Bool)
    (h : Host κ σ) : Option (Host κ σ × List (Event κ)) :=
  if !IsEmulationThreadRunning h then
    some (ext.call function h, [Event.callback function])
  else
    let h1 := { h with m_callback_queue := h.m_callback_queue ++ [function] }
    let h2 := { h1 with m_callbacks_outstanding := true }
    if blocking then
      (spinWait ext fuel h2).map (fun h3 => (h3, [Event.notify_one]))
    else
      some (h2, [Event.notify_one])

/-- Function `AndroidHostInterface::RunLater(func)` (lines 355-360). -/
def RunLater (func : κ) (h : Host κ σ) : Host κ σ :=
  { h with m_callback_queue := h.m_callback_queue ++ [func], m_callbacks_outstanding := true }

/-- Function `AndroidHostInterface::StopEmulationThreadLoop()` (lines 311-319). -/
def StopEmulationThreadLoop (h : Host κ σ) : Host κ σ × List (Event κ) :=
  if !IsEmulationThreadRunning h then (h, [])
  else ({ h with m_emulation_thread_stop_request := true }, [Event.notify_one])

/-- The `do ... while (!m_callback_queue.empty())` of lines 430-437: take the
front function off the queue, call it with the mutex released, look at the
queue again. The events are the calls made, in order. -/
def runCallbacks (ext : Externals κ σ) : Nat → Host κ σ → Option (Host κ σ × List (Event κ))
  | 0, _ => none
  | n + 1, h =>
    match h.m_callback_queue with
    | [] => none
    | callback :: rest =>
      let h1 := ext.call callback { h with m_callback_queue := rest }
      if h1.m_callback_queue.isEmpty then some (h1, [Event.callback callback])
      else (runCallbacks ext n h1).map (fun r => (r.1, Event.callback callback :: r.2))

/-- The drain of lines 428-439: when the queue is not empty, run the
`do ... while` and then store false to `m_callbacks_outstanding`. -/
def runEvents (ext : Externals κ σ) (fuel : Nat) (h : Host κ σ) :
    Option (Host κ σ × List (Event κ)) :=
  if !h.m_callback_queue.isEmpty then
    (runCallbacks ext fuel h).map (fun r => ({ r.1 with m_callbacks_outstanding := false }, r.2))
  else
    some (h, [])

/-- How the inner `for (;;)` of lines 426-458 is left. -/
inductive LoopExit where
  /-- The `return` of line 445. -/
  | returned
  /-- The `break` of line 456. -/
  | runFrame
  deriving DecidableEq, Repr

/-- The inner `for (;;)` of lines 426-458, entered with `m_mutex` held: drain,
then the stop check, then the pause check. After `m_sleep_cv.wait(lock)` the
loop starts over on the host as the other threads have left it. -/
def eventLoop (ext : Externals κ σ) : Nat → Host κ σ →
    Option (LoopExit × Host κ σ × List (Event κ))
  | 0, _ => none
  | n + 1, h =>
    match runEvents ext n h with
    | none => none
    | some (h1, tr) =>
      if h1.m_emulation_thread_stop_request then
        some (LoopExit.returned,
          { h1 with m_emulation_thread_running := false, m_emulation_thread_stop_request := false },
          tr)
      else if ext.IsPaused h1.sys then
        (eventLoop ext n (ext.others h1)).map
          (fun r => (r.1, r.2.1, tr ++ Event.cv_wait :: r.2.2))
      else
        some (LoopExit.runFrame, h1, tr)

/-- Lines 461-471: simulate the system when it is running. -/
def simulate (ext : Externals κ σ) (h : Host κ σ) : Host κ σ × List (Event κ) :=
  if ext.IsRunning h.sys then
    let r := if h.m_throttler_enabled then (ext.RunFrames h, [Event.RunFrames])
             else (ext.RunFrame h, [Event.RunFrame])
    if r.1.m_vibration_enabled then (ext.UpdateVibration r.1, r.2 ++ [Event.UpdateVibration])
    else r
  else (h, [])

/-- Lines 473-488: the rendering block. -/
def render (ext : Externals κ σ) (h : Host κ σ) : Host κ σ × List (Event κ) :=
  let h1 := ext.Render (ext.DrawImGuiWindows h)
  let tr := [Event.NewFrame, Event.DrawImGuiWindows, Event.Render, Event.EndFrame]
  if ext.IsRunning h1.sys then
    let h2 := ext.UpdatePerformanceCounters h1
    if h2.m_throttler_enabled then
      (ext.Throttle h2, tr ++ [Event.UpdatePerformanceCounters, Event.Throttle])
    else (h2, tr ++ [Event.UpdatePerformanceCounters])
  else (h1, tr)

/-- The outer `for (;;)` of lines 421-489. -/
def frameLoop (ext : Externals κ σ) : Nat → Host κ σ → Option (Host κ σ × List (Event κ))
  | 0, _ => none
  | n + 1, h =>
    match eventLoop ext n h with
    | none => none
    | some (LoopExit.returned, h1, tr) => some (h1, tr)
    | some (LoopExit.runFrame, h1, tr) =>
      let s := simulate ext h1
      let r := render ext s.1
      (frameLoop ext n r.1).map (fun q => (q.1, tr ++ s.2 ++ r.2 ++ q.2))

/-- Function `AndroidHostInterface::EmulationThreadLoop(env)` (lines 412-490). -/
def EmulationThreadLoop (ext : Externals κ σ) (fuel : Nat) (h : Host κ σ) :
    Option (Host κ σ × List (Event κ)) :=
  (frameLoop ext fuel { h with m_emulation_thread_running := true }).map
    (fun q => (q.1, Event.onEmulationStarted :: q.2))

/-- Submit the functions of a list one after the other, each through
`RunOnEmulationThread(function, false)`. -/
def submitAll (ext : Externals κ σ) : List κ → Host κ σ → Option (Host κ σ)
  | [], h => some h
  | c :: cs, h => (RunOnEmulationThread ext 0 c false h).bind (fun r => submitAll ext cs r.1)

/-- The budget of a queue: every entry counts for one call of its own and for
the `w` further entries its call may append. -/
def budget (w : κ → Nat) (q : List κ) : Nat :=
  (q.map (fun c => w c + 1)).sum

/-- The queued functions reach the queue only by appending to it (through
`RunOnEmulationThread` or `RunLater`), and what the call of `c` appends fits
in the budget `w c`. With `w = 0` no call appends anything. -/
def AppendsWithin (ext : Externals κ σ) (w : κ → Nat) : Prop :=
  ∀ (c : κ) (h : Host κ σ),
    ∃ extra, (ext.call c h).m_callback_queue = h.m_callback_queue ++ extra ∧ budget w extra ≤ w c

/-- No queued function clears a stop request: the only store of false to
`m_emulation_thread_stop_request` is the one of line 444. -/
def KeepsStopRequest (ext : Externals κ σ) : Prop :=
  ∀ (c : κ) (h : Host κ σ),
    h.m_emulation_thread_stop_request = true →
      (ext.call c h).m_emulation_thread_stop_request = true

/-- An event is the call of a queued function. -/
def Event.isCallback : Event κ → Bool
  | Event.callback _ => true
  | _ => false

/-- An event belongs to the frame work of lines 461-488: a simulation step,
the vibration update, the rendering block, the counters or the throttle. -/
def Event.isFrameWork : Event κ → Bool
  | Event.RunFrame => true
  | Event.RunFrames => true
  | Event.UpdateVibration => true
  | Event.NewFrame => true
  | Event.DrawImGuiWindows => true
  | Event.Render => true
  | Event.EndFrame => true
  | Event.UpdatePerformanceCounters => true
  | Event.Throttle => true
  | _ => false

/-! ## Interleaved steps of a blocking submission and the emulation loop -/

/-- The threads that can hold `m_mutex` over more than one step. -/
inductive Thread where
  | caller
  | loop
  deriving DecidableEq, Repr

/-- Where the thread is that called `RunOnEmulationThread(f, true)` and found
the emulation thread running at line 328. -/
inductive CallerPc where
  /-- Line 334: about to take `m_mutex`, then push (335-337). -/
  | lock
  /-- Line 344: holding `m_mutex`, about to load `m_callbacks_outstanding`. -/
  | test
  /-- Line 348: `m_mutex` released by line 347, about to take it again. -/
  | relock
  /-- After the unlock of line 352. -/
  | returned
  deriving DecidableEq, Repr

/-- Where the emulation thread is in the loop of lines 421-489. -/
inductive LoopPc (κ : Type) where
  /-- Line 425: about to take `m_mutex`. -/
  | lock
  /-- Line 428: holding `m_mutex`, about to test the queue. -/
  | queueTest
  /-- Line 435: `m_mutex` released by line 434, `callback` popped and not yet run. -/
  | callback (c : κ)
  /-- Line 436: the callback has returned, about to take `m_mutex` again. -/
  | relock
  /-- Line 437: holding `m_mutex`, about to test the queue again. -/
  | whileTest
  /-- Line 441: holding `m_mutex`, about to load the stop request. -/
  | stopTest
  /-- Line 451: inside `m_sleep_cv.wait`, `m_mutex` released. -/
  | waiting
  /-- Lines 461-488: `m_mutex` released at the end of the block of line 459. -/
  | frame
  /-- The `return` of line 445 has been taken. -/
  | returned
  deriving DecidableEq, Repr

/-- What the scheduler lets happen next. -/
inductive Action (κ : Type) where
  /-- The blocked caller takes its next step. -/
  | caller
  /-- The emulation thread takes its next step. -/
  | loop
  /-- Another thread goes through a critical section that pushes `c`: lines
  334-337 and 352 of a non-blocking `RunOnEmulationThread`, or `RunLater`. -/
  | push (c : κ)
  /-- Another thread that found the emulation thread not running calls `c`
  itself (line 330). -/
  | inline (c : κ)
  /-- Another thread goes through the critical section of
  `StopEmulationThreadLoop` (lines 316-318). -/
  | stop
  deriving DecidableEq, Repr

/-- The two threads, the host they share and the mutex, with a record of what
has happened. -/
structure World (κ σ : Type) where
  /-- The shared host. -/
  host : Host κ σ
  /-- The holder of `m_mutex`, `none` when it is free. -/
  mutex : Option Thread
  /-- The caller of the blocking submission. -/
  caller : CallerPc
  /-- The emulation thread. -/
  loop : LoopPc κ
  /-- Record: the queued functions whose call by the drain has returned,
  oldest first. -/
  finished : List κ
  /-- Record, written when the caller pushes `f`: how many calls had returned
  by then, and the functions queued before `f` that had not: the one the drain
  was running, if any, and the entries of the queue. -/
  pushed : Option (Nat × List κ)

/-- The functions taken off the queue or still in it whose call has not
returned: the one the drain is about to run or running, then the queue. -/
def World.pending (w : World κ σ) : List κ :=
  match w.loop with
  | LoopPc.callback c => c :: w.host.m_callback_queue
  | _ => w.host.m_callback_queue

/-- Lines 461-488 as one step on the host. -/
def frameWork (ext : Externals κ σ) (h : Host κ σ) : Host κ σ :=
  (render ext (simulate ext h).1).1

/-- The next step of the caller of `RunOnEmulationThread(f, true)`. A step that
needs `m_mutex` while it is held changes nothing. -/
def stepCaller (f : κ) (w : World κ σ) : World κ σ :=
  match w.caller with
  | CallerPc.lock =>
    if w.mutex.isNone then
      { w with
        host := { w.host with m_callback_queue := w.host.m_callback_queue ++ [f],
                              m_callbacks_outstanding := true }
        mutex := some Thread.caller
        caller := CallerPc.test
        pushed := some (w.finished.length, w.pending) }
    else w
  | CallerPc.test =>
    if !w.host.m_callbacks_outstanding then
      { w with mutex := none, caller := CallerPc.returned }
    else
      { w with mutex := none, caller := CallerPc.relock }
  | CallerPc.relock =>
    if w.mutex.isNone then { w with mutex := some Thread.caller, caller := CallerPc.test }
    else w
  | CallerPc.returned => w

/-- The next step of the emulation thread in the loop of lines 421-489. A step
that needs `m_mutex` while it is held changes nothing; a wait may end at any
time. The call of a queued function is one step, taken with `m_mutex` released
by the loop and at any time from then on, also while the caller holds the
mutex: the schedules of the program are among those of the model. -/
def stepLoop (ext : Externals κ σ) (w : World κ σ) : World κ σ :=
  match w.loop with
  | LoopPc.lock =>
    if w.mutex.isNone then { w with mutex := some Thread.loop, loop := LoopPc.queueTest }
    else w
  | LoopPc.queueTest =>
    match w.host.m_callback_queue with
    | callback :: rest =>
      { w with host := { w.host with m_callback_queue := rest }
               mutex := none
               loop := LoopPc.callback callback }
    | [] => { w with loop := LoopPc.stopTest }
  | LoopPc.callback c =>
    { w with host := ext.call c w.host
             loop := LoopPc.relock
             finished := w.finished ++ [c] }
  | LoopPc.relock =>
    if w.mutex.isNone then { w with mutex := some Thread.loop, loop := LoopPc.whileTest }
    else w
  | LoopPc.whileTest =>
    match w.host.m_callback_queue with
    | callback :: rest =>
      { w with host := { w.host with m_callback_queue := rest }
               mutex := none
               loop := LoopPc.callback callback }
    | [] =>
      { w with host := { w.host with m_callbacks_outstanding := false }
               loop := LoopPc.stopTest }
  | LoopPc.stopTest =>
    if w.host.m_emulation_thread_stop_request then
      { w with host := { w.host with m_emulation_thread_running := false,
                                     m_emulation_thread_stop_request := false }
               mutex := none
               loop := LoopPc.returned }
    else if ext.IsPaused w.host.sys then
      { w with mutex := none, loop := LoopPc.waiting }
    else
      { w with mutex := none, loop := LoopPc.frame }
  | LoopPc.waiting =>
    if w.mutex.isNone then { w with mutex := some Thread.loop, loop := LoopPc.queueTest }
    else w
  | LoopPc.frame => { w with host := frameWork ext w.host, loop := LoopPc.lock }
  | LoopPc.returned => w

/-- One step of the world. The critical sections of the other threads are
short and run whole, when `m_mutex` is free; their tests of `running` (lines
313 and 328) are made before the lock and so at any earlier time. -/
def step (ext : Externals κ σ) (f : κ) (a : Action κ) (w : World κ σ) : World κ σ :=
  match a with
  | Action.caller => stepCaller f w
  | Action.loop => stepLoop ext w
  | Action.push c =>
    if w.mutex.isNone then
      { w with host := { w.host with m_callback_queue := w.host.m_callback_queue ++ [c],
                                     m_callbacks_outstanding := true } }
    else w
  | Action.inline c => { w with host := ext.call c w.host }
  | Action.stop =>
    if w.mutex.isNone then
      { w with host := { w.host with m_emulation_thread_stop_request := true } }
    else w

/-- The world after the steps of a schedule. -/
def run (ext : Externals κ σ) (f : κ) : List (Action κ) → World κ σ → World κ σ
  | [], w => w
  | a :: acts, w => run ext f acts (step ext f a w)

/-- The world in which the caller has passed line 328 and the emulation thread
is at the top of its loop, nothing recorded yet. -/
def World.start (h : Host κ σ) : World κ σ where
  host := h
  mutex := none
  caller := CallerPc.lock
  loop := LoopPc.lock
  finished := []
  pushed := none

/-- A function on the host that reaches the queue and the pending flag only
through `RunOnEmulationThread` and `RunLater`: it appends to the queue, sets
`m_callbacks_outstanding` when it appends, and never stores false to it. -/
def Polite (g : Host κ σ → Host κ σ) : Prop :=
  ∀ s : Host κ σ,
    (∃ extra, (g s).m_callback_queue = s.m_callback_queue ++ extra ∧
      (extra ≠ [] → (g s).m_callbacks_outstanding = true)) ∧
    (s.m_callbacks_outstanding = true → (g s).m_callbacks_outstanding = true)

/-- The queued functions and the frame work are polite. -/
def PoliteExt (ext : Externals κ σ) : Prop :=
  (∀ c : κ, Polite (ext.call c)) ∧ Polite (frameWork ext)

/-- The emulation thread is inside the `do ... while` of lines 430-437, between
taking an entry off the queue and the store of line 438. -/
def World.midDrain (w : World κ σ) : Bool :=
  match w.loop with
  | LoopPc.callback _ => true
  | LoopPc.relock => true
  | LoopPc.whileTest => true
  | _ => false

/-- While `m_callbacks_outstanding` reads false the queue is empty and the
emulation thread is not inside the `do ... while`. -/
def PendingInv (w : World κ σ) : Prop :=
  w.host.m_callbacks_outstanding = false →
    w.host.m_callback_queue = [] ∧ w.midDrain = false

/-- Functions for the examples: `bump n` adds `n` to a counter; `submit n`
calls `RunOnEmulationThread(bump n, false)`. -/
inductive Cmd where
  | bump (n : Nat)
  | submit (n : Nat)
  deriving DecidableEq, Repr

/-- The bodies of the example functions. -/
def Cmd.body : Cmd → Host Cmd Nat → Host Cmd Nat
  | Cmd.bump n, h => { h with sys := h.sys + n }
  | Cmd.submit n, h =>
    if !IsEmulationThreadRunning h then { h with sys := h.sys + n }
    else { h with m_callback_queue := h.m_callback_queue ++ [Cmd.bump n],
                  m_callbacks_outstanding := true }

/-- What a call of an example function may append: `submit` one entry. -/
def Cmd.appends : Cmd → Nat
  | Cmd.bump _ => 0
  | Cmd.submit _ => 1

/-- Example collaborators: a system that is paused while its counter is zero. -/
def demoExt : Externals Cmd Nat where
  call := Cmd.body
  others := fun h => h
  IsPaused := fun s => s == 0
  IsRunning := fun s => s != 0
  RunFrame := fun h => h
  RunFrames := fun h => h
  UpdateVibration := fun h => h
  DrawImGuiWindows := fun h => h
  Render := fun h => h
  UpdatePerformanceCounters := fun h => h
  Throttle := fun h => h

/-- Example collaborators whose every function submits itself again without
blocking while the emulation thread runs. -/
def againExt : Externals Cmd Nat :=
  { demoExt with
    call := fun c h =>
      if !IsEmulationThreadRunning h then h
      else { h with m_callback_queue := h.m_callback_queue ++ [c],
                    m_callbacks_outstanding := true } }

/-- Example collaborators whose other threads resume the system (raise the
counter) while the loop waits. -/
def resumeExt : Externals Cmd Nat :=
  { demoExt with others := fun h => { h with sys := h.sys + 1 } }

/-- A schedule in which the caller pushes `f` while the drain is running an
earlier function, spins once, and returns after the drain has ended. -/
def demoSchedule : List (Action Cmd) :=
  [Action.loop, Action.loop, Action.caller, Action.caller, Action.loop, Action.loop,
   Action.loop, Action.loop, Action.loop, Action.loop, Action.loop, Action.caller,
   Action.caller]

/-- An example host with the given queue, pending flag, running flag, stop
request and counter. -/
def demoHost (q : List Cmd) (pending running stop : Bool) (n : Nat) : Host Cmd Nat where
  m_callback_queue := q
  m_callbacks_outstanding := pending
  m_emulation_thread_running := running
  m_emulation_thread_stop_request := stop
  m_throttler_enabled := false
  m_vibration_enabled := false
  sys := n

/-! ## Vibration throttle -/

/-- A call made on the Java side through `env->CallVoidMethod`. -/
inductive HostCall (α : Type) where
  /-- Call of `setVibration(enabled)` on an emulation activity. -/
  | setVibration (activity : α) (enabled : Bool)
  deriving DecidableEq, Repr

/-- The members `SetVibration` reads and writes, with the calls made on the
host so far. `α` is the type of the emulation activity reference. -/
structure VibrationState (α : Type) where
  /-- Member `bool m_last_vibration_state`. -/
  m_last_vibration_state : Bool
  /-- Member `u64 m_last_vibration_update_time`, in timer ticks. -/
  m_last_vibration_update_time : Nat
  /-- Member `jobject m_emulation_activity_object`, `none` when null. -/
  m_emulation_activity_object : Option α
  /-- The host calls made, oldest first. -/
  host_calls : List (HostCall α)
  deriving DecidableEq, Repr

/-- Modelled from the spec: `Common::Timer::ConvertValueToSeconds` is defined in
`common/timer.h`, which is not among the sources. Timer values count ticks of
a clock with `ticksPerSecond` ticks to the second, and the conversion is the
exact quotient. -/
def Timer.ConvertValueToSeconds (ticksPerSecond value : Nat) : ℚ :=
  (value : ℚ) / (ticksPerSecond : ℚ)

/-- The difference of two `u64` timer values, as the subtraction of line 802
computes it. -/
def Timer.elapsed (current_time last : Nat) : Nat :=
  (current_time + 2 ^ 64 - last) % 2 ^ 64

/-- The value of the `float` literal `0.1f` of line 802: the `float` nearest to
a tenth, `13421773 / 2 ^ 27`, a little more than a tenth. The comparison of
line 802 converts it to `double`, which does not change it. -/
def float_0_1 : ℚ := 13421773 / 134217728

/-- Function `AndroidHostInterface::SetVibration(enabled)` (lines 799-817), called when
`Common::Timer::GetValue()` returns `current_time`. The elapsed seconds are
compared with the value of the literal `0.1f`. -/
def SetVibration {α : Type} (ticksPerSecond current_time : Nat) (enabled : Bool)
    (v : VibrationState α) : VibrationState α :=
  if Timer.ConvertValueToSeconds ticksPerSecond
        (Timer.elapsed current_time v.m_last_vibration_update_time) < float_0_1 ∧
      v.m_last_vibration_state = enabled then
    v
  else
    let v1 := { v with m_last_vibration_state := enabled,
                       m_last_vibration_update_time := current_time }
    match v1.m_emulation_activity_object with
    | some activity =>
      { v1 with host_calls := v1.host_calls ++ [HostCall.setVibration activity enabled] }
    | none => v1

/-- An example vibration state: an activity attached, last value `last` stored
at tick `time`, no host call made yet. -/
def demoVibration (last : Bool) (time : Nat) : VibrationState Nat where
  m_last_vibration_state := last
  m_last_vibration_update_time := time
  m_emulation_activity_object := some 7
  host_calls := []

/-! ## The host interface beyond the thread state -/

/-- Modelled from the spec: `System::State` is declared in `core/system.h`, which
is not among the sources. The simulation is shut down (no program loaded),
starting, running or paused. -/
inductive SystemState where
  | Shutdown
  | Starting
  | Running
  | Paused
  deriving DecidableEq, Repr

/-- Modelled from the spec: `System::IsValid()`, a program is loaded. -/
def SystemState.IsValid : SystemState → Bool
  | SystemState.Running => true
  | SystemState.Paused => true
  | _ => false

/-- Modelled from the spec: `System::IsRunning()`. -/
def SystemState.IsRunning : SystemState → Bool
  | SystemState.Running => true
  | _ => false

/-- Modelled from the spec: `System::IsPaused()`. -/
def SystemState.IsPaused : SystemState → Bool
  | SystemState.Paused => true
  | _ => false

/-- What `UpdateVibration` reads of a `Controller`: the strengths of its
vibration motors, `GetVibrationMotorStrength(j)` at index `j`, their number
being `GetVibrationMotorCount()`. A strength is the value of a `float`. -/
structure Controller where
  /-- The motor strengths. -/
  motors : List ℚ
  deriving DecidableEq, Repr

/-- The enumerators of `GPURenderer` named in the source, and one for the others
(the `default` of the `switch` of line 500). -/
inductive GPURenderer where
  | HardwareVulkan
  | HardwareOpenGL
  | Software
  deriving DecidableEq, Repr

/-- The fields of `g_settings` these functions read or write, and a code for
all the others. -/
structure Settings where
  /-- Field `gpu_renderer`. -/
  gpu_renderer : GPURenderer
  /-- Field `save_state_on_exit`. -/
  save_state_on_exit : Bool
  /-- Every other setting. -/
  other : Nat
  deriving DecidableEq, Repr

/-- Type `WindowInfo::Type`, as far as line 620 names it. -/
inductive WindowInfoType where
  | Android
  | Surfaceless
  deriving DecidableEq, Repr

/-- The `WindowInfo` filled in by `SurfaceChanged` (lines 619-623). -/
structure WindowInfo where
  /-- Field `type`. -/
  type : WindowInfoType
  /-- Field `window_handle`, `none` when null. -/
  window_handle : Option Nat
  /-- Field `surface_width`. -/
  surface_width : Int
  /-- Field `surface_height`. -/
  surface_height : Int
  deriving DecidableEq, Repr

/-- The state of an `AndroidHostInterface` beside the thread state, with the
globals it works on. `α` is the type of references to an emulation activity. -/
structure Core (α : Type) where
  /-- Member `ANativeWindow* m_surface`, `none` when null. -/
  m_surface : Option Nat
  /-- Whether `m_display` holds a display. -/
  m_display : Bool
  /-- Member `std::thread::id m_emulation_thread_id`, `none` for the id of no thread. -/
  m_emulation_thread_id : Option Nat
  /-- The members of the vibration throttle, `m_emulation_activity_object`
  among them, and the `setVibration` calls made. -/
  vibration : VibrationState α
  /-- The state of the global `System`. -/
  system : SystemState
  /-- The controllers by port, `System::GetController(i)` at index `i`, `none`
  when null. -/
  controllers : List (Option Controller)
  /-- The global `g_settings`. -/
  g_settings : Settings
  deriving DecidableEq, Repr

/-- The parameters of a boot, of which the entry point reads the file name. -/
structure SystemBootParameters where
  /-- Field `filename`. -/
  filename : String
  deriving DecidableEq, Repr

/-- What the functions below do to the outside or call, in program order. -/
inductive Effect (κ α : Type) where
  /-- A call of `SetVibration(enabled)`. -/
  | SetVibration (enabled : Bool)
  /-- A call of `CommonHostInterface::OnSystemPaused(paused)`. -/
  | CommonOnSystemPaused (paused : Bool)
  /-- A call of `m_display->ResizeRenderWindow(width, height)`. -/
  | ResizeRenderWindow (width height : Int)
  /-- A call of `m_display->ChangeRenderWindow(wi)`. -/
  | ChangeRenderWindow (wi : WindowInfo)
  /-- A call of `PauseSystem(paused)`. -/
  | PauseSystem (paused : Bool)
  /-- A call of `LoadAndConvertSettings()`. -/
  | LoadAndConvertSettings
  /-- A call of `CommonHostInterface::ApplyGameSettings`. -/
  | ApplyGameSettings (display_osd_messages : Bool)
  /-- A call of `CommonHostInterface::FixIncompatibleSettings`. -/
  | FixIncompatibleSettings (display_osd_messages : Bool)
  /-- A call of `UpdateInputMap()`. -/
  | UpdateInputMap
  /-- The on-screen message of line 762, naming the renderer asked for. -/
  | AddFormattedOSDMessage (renderer : GPURenderer)
  /-- A call of `CheckForSettingsChanges(old_settings)`. -/
  | CheckForSettingsChanges
  /-- A call of `CreateImGuiContext()`. -/
  | CreateImGuiContext
  /-- A call of `DestroyImGuiContext()`. -/
  | DestroyImGuiContext
  /-- A call of `ApplySettings(display_osd_messages)`. -/
  | ApplySettings (display_osd_messages : Bool)
  /-- A call of `BootSystem(boot_params)`. -/
  | BootSystem (boot_params : SystemBootParameters)
  /-- A call of `ResumeSystemFromMostRecentState()`. -/
  | ResumeSystemFromMostRecentState
  /-- A call of `ResumeSystemFromState(filename, true)`. -/
  | ResumeSystemFromState (filename : String)
  /-- A call of `EmulationThreadLoop(env)`. -/
  | EmulationThreadLoop
  /-- An event of the emulation thread loop. -/
  | loop (e : Event κ)
  /-- A call of `SaveResumeSaveState()`. -/
  | SaveResumeSaveState
  /-- A call of `PowerOffSystem()`. -/
  | PowerOffSystem
  /-- A call of `ReportFormattedError` with the message of line 403. -/
  | ReportFormattedError (filename : String)
  /-- A call of `CommonHostInterface::ReportError(message)`. -/
  | CommonReportError
  /-- The host call `reportError`, on the emulation activity given, or on
  `m_java_object` when none is given. -/
  | reportError (activity : Option α)
  /-- The host call `onEmulationStopped` on the object given (`none`: null). -/
  | onEmulationStopped (activity : Option α)
  deriving DecidableEq, Repr

/-- The code these functions call that is not among the sources (the base
classes `CommonHostInterface` and `HostInterface`, the settings store, the
native window library), as functions on the host. -/
structure Collaborators (κ α : Type) where
  /-- Collaborator `CommonHostInterface::OnSystemPaused(paused)`. -/
  CommonOnSystemPaused : Bool → Host κ (Core α) → Host κ (Core α)
  /-- Collaborator `LoadAndConvertSettings()`: the settings as the store has them. -/
  LoadAndConvertSettings : Host κ (Core α) → Host κ (Core α)
  /-- Collaborator `CommonHostInterface::ApplyGameSettings(display_osd_messages)`. -/
  ApplyGameSettings : Bool → Host κ (Core α) → Host κ (Core α)
  /-- Collaborator `CommonHostInterface::FixIncompatibleSettings(display_osd_messages)`. -/
  FixIncompatibleSettings : Bool → Host κ (Core α) → Host κ (Core α)
  /-- Collaborator `UpdateInputMap()`. -/
  UpdateInputMap : Host κ (Core α) → Host κ (Core α)
  /-- Collaborator `CheckForSettingsChanges(old_settings)`. -/
  CheckForSettingsChanges : Settings → Host κ (Core α) → Host κ (Core α)
  /-- Collaborator `BootSystem(boot_params)`, with its result. -/
  BootSystem : SystemBootParameters → Host κ (Core α) → Bool × Host κ (Core α)
  /-- Collaborator `ResumeSystemFromMostRecentState()`, with its result. -/
  ResumeSystemFromMostRecentState : Host κ (Core α) → Bool × Host κ (Core α)
  /-- Collaborator `ResumeSystemFromState(filename, boot_on_failure)`, with its result. -/
  ResumeSystemFromState : String → Bool → Host κ (Core α) → Bool × Host κ (Core α)
  /-- Collaborator `SaveResumeSaveState()`. -/
  SaveResumeSaveState : Host κ (Core α) → Host κ (Core α)
  /-- Collaborator `PowerOffSystem()`. -/
  PowerOffSystem : Host κ (Core α) → Host κ (Core α)
  /-- Collaborator `CommonHostInterface::ReportError(message)`. -/
  CommonReportError : Host κ (Core α) → Host κ (Core α)
  /-- Collaborator `ANativeWindow_fromSurface(env, surface)`, `none` when null. -/
  ANativeWindow_fromSurface : Nat → Option Nat

/-- Every collaborator leaves the part `part` of the host as it finds it. -/
def Collaborators.Keeps {κ α β : Type} (col : Collaborators κ α)
    (part : Host κ (Core α) → β) : Prop :=
  (∀ b h, part (col.CommonOnSystemPaused b h) = part h) ∧
  (∀ h, part (col.LoadAndConvertSettings h) = part h) ∧
  (∀ b h, part (col.ApplyGameSettings b h) = part h) ∧
  (∀ b h, part (col.FixIncompatibleSettings b h) = part h) ∧
  (∀ h, part (col.UpdateInputMap h) = part h) ∧
  (∀ o h, part (col.CheckForSettingsChanges o h) = part h) ∧
  (∀ p h, part (col.BootSystem p h).2 = part h) ∧
  (∀ h, part (col.ResumeSystemFromMostRecentState h).2 = part h) ∧
  (∀ f b h, part (col.ResumeSystemFromState f b h).2 = part h) ∧
  (∀ h, part (col.SaveResumeSaveState h) = part h) ∧
  (∀ h, part (col.PowerOffSystem h) = part h) ∧
  (∀ h, part (col.CommonReportError h) = part h)

/-- The constant `THRESHOLD` of line 821, `0.5f`. -/
def THRESHOLD : ℚ := 1 / 2

/-- The inner `for` of lines 832-839 over the motors of one controller: the
first strength that is `>= THRESHOLD` sets the state and ends the loop. -/
def motorScan : List ℚ → Bool → Bool
  | [], vibration_state => vibration_state
  | strength :: rest, vibration_state =>
    if strength ≥ THRESHOLD then true else motorScan rest vibration_state

/-- The outer `for` of lines 825-840 over the ports `0 .. ports - 1`, from
`vibration_state = false`; a port without controller is skipped. -/
def portScan (controllers : List (Option Controller)) (ports : Nat) : Bool :=
  (List.range ports).foldl
    (fun vibration_state i =>
      match controllers.getD i none with
      | none => vibration_state
      | some controller => motorScan controller.motors vibration_state)
    false

/-- The host with `SetVibration(enabled)` run on its vibration members. -/
def Host.setVibration {κ α : Type} (ticksPerSecond current_time : Nat) (enabled : Bool)
    (h : Host κ (Core α)) : Host κ (Core α) :=
  { h with sys := { h.sys with
      vibration := SetVibration ticksPerSecond current_time enabled h.sys.vibration } }

/-- Function `AndroidHostInterface::UpdateVibration()` (lines 819-843), with
`NUM_CONTROLLER_AND_CARD_PORTS` ports, the timer reading `current_time`. -/
def UpdateVibration {κ α : Type} (ticksPerSecond current_time ports : Nat)
    (h : Host κ (Core α)) : Host κ (Core α) × List (Effect κ α) :=
  let vibration_state := portScan h.sys.controllers ports
  (h.setVibration ticksPerSecond current_time vibration_state,
    [Effect.SetVibration vibration_state])

/-- Function `AndroidHostInterface::OnSystemPaused(paused)` (lines 573-579). -/
def OnSystemPaused {κ α : Type} (col : Collaborators κ α) (ticksPerSecond current_time : Nat)
    (paused : Bool) (h : Host κ (Core α)) : Host κ (Core α) × List (Effect κ α) :=
  let h1 := col.CommonOnSystemPaused paused h
  if h1.m_vibration_enabled then
    (h1.setVibration ticksPerSecond current_time false,
      [Effect.CommonOnSystemPaused paused, Effect.SetVibration false])
  else
    (h1, [Effect.CommonOnSystemPaused paused])

/-- Modelled from the spec: `PauseSystem(paused)` is a member of the base class
`CommonHostInterface`, which is not among the sources. Pausing a running
system sets the paused state, resuming a paused one clears it, and each of the
two is followed by the `OnSystemPaused(paused)` notification; pausing a system
that is already paused, or resuming one that is not paused, does nothing. -/
def PauseSystem {κ α : Type} (col : Collaborators κ α) (ticksPerSecond current_time : Nat)
    (paused : Bool) (h : Host κ (Core α)) : Host κ (Core α) × List (Effect κ α) :=
  match paused, h.sys.system with
  | true, SystemState.Running =>
    OnSystemPaused col ticksPerSecond current_time true
      { h with sys := { h.sys with system := SystemState.Paused } }
  | false, SystemState.Paused =>
    OnSystemPaused col ticksPerSecond current_time false
      { h with sys := { h.sys with system := SystemState.Running } }
  | _, _ => (h, [])

/-- Function `AndroidHostInterface::SurfaceChanged(surface, format, width, height)`
(lines 604-632); the format is only written to the log. -/
def SurfaceChanged {κ α : Type} (col : Collaborators κ α) (ticksPerSecond current_time : Nat)
    (surface : Option Nat) (_format width height : Int) (h : Host κ (Core α)) :
    Host κ (Core α) × List (Effect κ α) :=
  if h.sys.m_surface = surface then
    if h.sys.m_display then (h, [Effect.ResizeRenderWindow width height])
    else (h, [])
  else
    let h1 := { h with sys := { h.sys with m_surface := surface } }
    if h1.sys.m_display then
      let wi : WindowInfo :=
        { type := if surface.isSome then WindowInfoType.Android else WindowInfoType.Surfaceless
          window_handle := surface
          surface_width := width
          surface_height := height }
      if surface.isSome && h1.sys.system == SystemState.Paused then
        let r := PauseSystem col ticksPerSecond current_time false h1
        (r.1, Effect.ChangeRenderWindow wi :: Effect.PauseSystem false :: r.2)
      else if !surface.isSome && h1.sys.system.IsRunning then
        let r := PauseSystem col ticksPerSecond current_time true h1
        (r.1, Effect.ChangeRenderWindow wi :: Effect.PauseSystem true :: r.2)
      else
        (h1, [Effect.ChangeRenderWindow wi])
    else
      (h1, [])

/-- The flag `block` of line 1064, from the native handle and the held one
(`GetSurface()`, declared in the absent header, returns `m_surface`). -/
def surfaceChanged_block (native_surface held : Option Nat) : Bool :=
  native_surface.isNone || native_surface != held

/-- The entry point `AndroidHostInterface_surfaceChanged` (lines 1055-1068):
`surface` is the Java surface object, `none` when null, and `closure` names the
function object of line 1066 by what it captures. -/
def AndroidHostInterface_surfaceChanged {κ α : Type} (ext : Externals κ (Core α))
    (col : Collaborators κ α) (fuel : Nat) (closure : Option Nat → Int → Int → Int → κ)
    (surface : Option Nat) (format width height : Int) (h : Host κ (Core α)) :
    Option (Host κ (Core α) × List (Event κ)) :=
  let native_surface :=
    match surface with
    | some s => col.ANativeWindow_fromSurface s
    | none => none
  let block := surfaceChanged_block native_surface h.sys.m_surface
  RunOnEmulationThread ext fuel (closure native_surface format width height) block h

/-- Function `AndroidHostInterface::ApplySettings(display_osd_messages)` (lines 751-769). -/
def ApplySettings {κ α : Type} (col : Collaborators κ α) (display_osd_messages : Bool)
    (h : Host κ (Core α)) : Host κ (Core α) × List (Effect κ α) :=
  let old_settings := h.sys.g_settings
  let h1 := col.LoadAndConvertSettings h
  let h2 := col.ApplyGameSettings display_osd_messages h1
  let h3 := col.FixIncompatibleSettings display_osd_messages h2
  let h4 := col.UpdateInputMap h3
  let before := [Effect.LoadAndConvertSettings, Effect.ApplyGameSettings display_osd_messages,
    Effect.FixIncompatibleSettings display_osd_messages, Effect.UpdateInputMap]
  if h4.sys.system.IsValid && h4.sys.g_settings.gpu_renderer != old_settings.gpu_renderer then
    let h5 := { h4 with sys := { h4.sys with
      g_settings := { h4.sys.g_settings with gpu_renderer := old_settings.gpu_renderer } } }
    (col.CheckForSettingsChanges old_settings h5,
      before ++ [Effect.AddFormattedOSDMessage h4.sys.g_settings.gpu_renderer,
        Effect.CheckForSettingsChanges])
  else
    (col.CheckForSettingsChanges old_settings h4, before ++ [Effect.CheckForSettingsChanges])

/-- Function `AndroidHostInterface::ReportError(message)` (lines 165-175). -/
def ReportError {κ α : Type} (col : Collaborators κ α) (h : Host κ (Core α)) :
    Host κ (Core α) × List (Effect κ α) :=
  let h1 := col.CommonReportError h
  (h1, [Effect.CommonReportError,
    Effect.reportError h1.sys.vibration.m_emulation_activity_object])

/-- Lines 378-389 of the entry point: the boot or resume call and its result. -/
def bootOrResume {κ α : Type} (col : Collaborators κ α) (boot_params : SystemBootParameters)
    (resume_state : Bool) (h : Host κ (Core α)) :
    Bool × Host κ (Core α) × List (Effect κ α) :=
  if resume_state then
    if boot_params.filename.isEmpty then
      let r := col.ResumeSystemFromMostRecentState h
      (r.1, r.2, [Effect.ResumeSystemFromMostRecentState])
    else
      let r := col.ResumeSystemFromState boot_params.filename true h
      (r.1, r.2, [Effect.ResumeSystemFromState boot_params.filename])
  else
    let r := col.BootSystem boot_params h
    (r.1, r.2, [Effect.BootSystem boot_params])

/-- Modelled from the spec: `ReportFormattedError` is a member of the base class
`HostInterface`, which is not among the sources. The error is reported to the
host sink: the message is formatted (here with the file name of line 403) and
passed to `ReportError`. -/
def ReportFormattedError {κ α : Type} (col : Collaborators κ α) (filename : String)
    (h : Host κ (Core α)) : Host κ (Core α) × List (Effect κ α) :=
  let r := ReportError col h
  (r.1, Effect.ReportFormattedError filename :: r.2)

/-- Function `AndroidHostInterface::EmulationThreadEntryPoint(env, emulation_activity,
boot_params, resume_state)` (lines 362-410), run by the thread `this_thread`. -/
def EmulationThreadEntryPoint {κ α : Type} (ext : Externals κ (Core α))
    (col : Collaborators κ α) (fuel this_thread : Nat) (emulation_activity : Option α)
    (boot_params : SystemBootParameters) (resume_state : Bool) (h : Host κ (Core α)) :
    Option (Host κ (Core α) × List (Effect κ α)) :=
  if h.sys.m_surface.isNone then
    some (h, [Effect.onEmulationStopped h.sys.vibration.m_emulation_activity_object])
  else
    let h1 := { h with sys := { h.sys with
      vibration := { h.sys.vibration with m_emulation_activity_object := emulation_activity }
      m_emulation_thread_id := some this_thread } }
    let a := ApplySettings col true h1
    let b := bootOrResume col boot_params resume_state a.1
    let start := Effect.CreateImGuiContext :: Effect.ApplySettings true :: a.2 ++ b.2.2
    let finish := fun (h2 : Host κ (Core α)) (tr : List (Effect κ α)) =>
      ({ h2 with sys := { h2.sys with
          vibration := { h2.sys.vibration with m_emulation_activity_object := none } } },
        start ++ tr ++
          [Effect.onEmulationStopped h2.sys.vibration.m_emulation_activity_object,
            Effect.DestroyImGuiContext])
    if b.1 then
      match EmulationThreadLoop ext fuel b.2.1 with
      | none => none
      | some (h3, events) =>
        let h4 := if h3.sys.g_settings.save_state_on_exit then col.SaveResumeSaveState h3
                  else h3
        let saved := if h3.sys.g_settings.save_state_on_exit then [Effect.SaveResumeSaveState]
                     else []
        some (finish (col.PowerOffSystem h4)
          (Effect.EmulationThreadLoop :: events.map Effect.loop ++ saved ++
            [Effect.PowerOffSystem]))
    else
      let r := ReportFormattedError col boot_params.filename b.2.1
      some (finish r.1 r.2)

/-- The function objects handed to `RunOnEmulationThread` that these claims
concern, by what they capture. -/
inductive Closure where
  /-- Line 308: `[this, paused]() { PauseSystem(paused); }`. -/
  | PauseSystem (paused : Bool)
  /-- Line 1066: `hi->SurfaceChanged(native_surface, format, width, height)`. -/
  | SurfaceChanged (native_surface : Option Nat) (format width height : Int)
  /-- Line 1351: `hi->ApplySettings(false)`. -/
  | ApplySettings
  deriving DecidableEq, Repr

/-- The bodies of these function objects, the timer reading `current_time`
when they run. -/
def Closure.body {α : Type} (col : Collaborators Closure α)
    (ticksPerSecond current_time : Nat) :
    Closure → Host Closure (Core α) → Host Closure (Core α)
  | Closure.PauseSystem paused, h =>
    (AndroidHostInterface.PauseSystem col ticksPerSecond current_time paused h).1
  | Closure.SurfaceChanged native_surface format width height, h =>
    (AndroidHostInterface.SurfaceChanged col ticksPerSecond current_time native_surface format
      width height h).1
  | Closure.ApplySettings, h => (AndroidHostInterface.ApplySettings col false h).1

/-- The collaborators of the loop with the bodies of the function objects in
place of `call`. -/
def closureExt {α : Type} (col : Collaborators Closure α) (ticksPerSecond current_time : Nat)
    (ext : Externals Closure (Core α)) : Externals Closure (Core α) :=
  { ext with call := Closure.body col ticksPerSecond current_time }

/-- Function `AndroidHostInterface::PauseEmulationThread(paused)` (lines 305-309): `none`
when the assertion of line 307 fails. The second argument of
`RunOnEmulationThread` is left to its default, declared in the absent header:
the submission does not block. -/
def PauseEmulationThread {α : Type} (ext : Externals Closure (Core α)) (fuel : Nat)
    (paused : Bool) (h : Host Closure (Core α)) :
    Option (Host Closure (Core α) × List (Event Closure)) :=
  if !IsEmulationThreadRunning h then none
  else RunOnEmulationThread ext fuel (Closure.PauseSystem paused) false h

/-- Some motor of some controller at a port below `ports` has a strength of at
least the threshold. -/
def anyMotorReaches (controllers : List (Option Controller)) (ports : Nat) : Bool :=
  (List.range ports).any fun i =>
    match controllers.getD i none with
    | none => false
    | some controller => controller.motors.any fun strength => decide (strength ≥ THRESHOLD)

/-- Some motor of some controller at a port below `ports` has a strength that
exceeds the threshold: strictly greater. -/
def anyMotorExceeds (controllers : List (Option Controller)) (ports : Nat) : Bool :=
  (List.range ports).any fun i =>
    match controllers.getD i none with
    | none => false
    | some controller => controller.motors.any fun strength => decide (strength > THRESHOLD)

/-- An example host interface: the given surface and display, system state and
flag `m_vibration_enabled`, the emulation thread running, an activity attached,
the last vibration value `last` stored at tick 0, one controller with one motor
of strength exactly one half at port 0, nothing queued. -/
def demoCore (surface : Option Nat) (display : Bool) (system : SystemState)
    (vibration_enabled last : Bool) : Host Closure (Core Nat) where
  m_callback_queue := []
  m_callbacks_outstanding := false
  m_emulation_thread_running := true
  m_emulation_thread_stop_request := false
  m_throttler_enabled := false
  m_vibration_enabled := vibration_enabled
  sys :=
    { m_surface := surface
      m_display := display
      m_emulation_thread_id := none
      vibration := demoVibration last 0
      system := system
      controllers := [some { motors := [1 / 2] }, none]
      g_settings :=
        { gpu_renderer := GPURenderer.HardwareOpenGL, save_state_on_exit := false, other := 0 } }

/-- The host after lines 373-374 of the entry point: the activity reference and
the thread identity stored. -/
def entryPrepared {κ α : Type} (this_thread : Nat) (emulation_activity : Option α)
    (h : Host κ (Core α)) : Host κ (Core α) :=
  { h with sys := { h.sys with
      vibration := { h.sys.vibration with m_emulation_activity_object := emulation_activity }
      m_emulation_thread_id := some this_thread } }

/-- The boot or resume call of the entry point, made after `ApplySettings(true)`
(lines 375-389): its result, the host it leaves, its effect. -/
def entryBooted {κ α : Type} (col : Collaborators κ α) (this_thread : Nat)
    (emulation_activity : Option α) (boot_params : SystemBootParameters) (resume_state : Bool)
    (h : Host κ (Core α)) : Bool × Host κ (Core α) × List (Effect κ α) :=
  bootOrResume col boot_params resume_state
    (ApplySettings col true (entryPrepared this_thread emulation_activity h)).1

/-- The thread state of the coordinator: `running`, the stop request, the
command queue. -/
def threadState {κ σ : Type} (h : Host κ σ) : Bool × Bool × List κ :=
  (h.m_emulation_thread_running, h.m_emulation_thread_stop_request, h.m_callback_queue)

/-- An effect is a call of `m_display->ChangeRenderWindow`. -/
def Effect.isChangeRenderWindow {κ α : Type} : Effect κ α → Bool
  | Effect.ChangeRenderWindow _ => true
  | _ => false

/-- An effect is a call of `PauseSystem`. -/
def Effect.isPauseSystem {κ α : Type} : Effect κ α → Bool
  | Effect.PauseSystem _ => true
  | _ => false

/-- An effect is the on-screen message of line 762. -/
def Effect.isOSDMessage {κ α : Type} : Effect κ α → Bool
  | Effect.AddFormattedOSDMessage _ => true
  | _ => false

/-- An effect is a boot or resume call. -/
def Effect.isBoot {κ α : Type} : Effect κ α → Bool
  | Effect.BootSystem _ => true
  | Effect.ResumeSystemFromMostRecentState => true
  | Effect.ResumeSystemFromState _ => true
  | _ => false

/-- An effect belongs to the branch of a successful boot (lines 393-399): the
emulation thread loop and its events, the save of the resume state, the power
off. -/
def Effect.isRunBranch {κ α : Type} : Effect κ α → Bool
  | Effect.EmulationThreadLoop => true
  | Effect.loop _ => true
  | Effect.SaveResumeSaveState => true
  | Effect.PowerOffSystem => true
  | _ => false

/-- An effect is an error report on the host: the call `reportError`. -/
def Effect.isReportError {κ α : Type} : Effect κ α → Bool
  | Effect.reportError _ => true
  | _ => false

/-- An effect is the host call `onEmulationStopped`. -/
def Effect.isStopped {κ α : Type} : Effect κ α → Bool
  | Effect.onEmulationStopped _ => true
  | _ => false

/-- An effect is a call of `SetVibration`. -/
def Effect.isSetVibration {κ α : Type} : Effect κ α → Bool
  | Effect.SetVibration _ => true
  | _ => false

/-- The host with the given emulation activity reference. -/
def Host.withActivity {κ α : Type} (activity : Option α) (h : Host κ (Core α)) :
    Host κ (Core α) :=
  { h with sys := { h.sys with
      vibration := { h.sys.vibration with m_emulation_activity_object := activity } } }

/-- Example collaborators: none of them changes the host, every boot or resume
fails, every Java surface has a native window. -/
def demoCol : Collaborators Closure Nat where
  CommonOnSystemPaused := fun _ h => h
  LoadAndConvertSettings := fun h => h
  ApplyGameSettings := fun _ h => h
  FixIncompatibleSettings := fun _ h => h
  UpdateInputMap := fun h => h
  CheckForSettingsChanges := fun _ h => h
  BootSystem := fun _ h => (false, h)
  ResumeSystemFromMostRecentState := fun h => (false, h)
  ResumeSystemFromState := fun _ _ h => (false, h)
  SaveResumeSaveState := fun h => h
  PowerOffSystem := fun h => h
  CommonReportError := fun h => h
  ANativeWindow_fromSurface := fun s => some s

/-- Example collaborators whose settings store asks for the Vulkan renderer. -/
def vulkanCol : Collaborators Closure Nat :=
  { demoCol with
    LoadAndConvertSettings := fun h =>
      { h with sys := { h.sys with
          g_settings := { h.sys.g_settings with gpu_renderer := GPURenderer.HardwareVulkan } } } }

/-- Example collaborators of the loop over the host interface: the pause and
running tests read the system state, the frame work changes nothing. -/
def idleExt : Externals Closure (Core Nat) where
  call := fun _ h => h
  others := fun h => h
  IsPaused := fun s => s.system.IsPaused
  IsRunning := fun s => s.system.IsRunning
  RunFrame := fun h => h
  RunFrames := fun h => h
  UpdateVibration := fun h => h
  DrawImGuiWindows := fun h => h
  Render := fun h => h
  UpdatePerformanceCounters := fun h => h
  Throttle := fun h => h

/-- Example boot parameters. -/
def demoBoot : SystemBootParameters where
  filename := "game.bin"

/-! ## The frame work, controller input -/

/-- The function objects the controller functions of lines 682-736 hand to
`RunOnEmulationThread`, by what they capture; a `float` is read as its value. -/
inductive InputClosure where
  /-- Lines 688-694: `controller->SetButtonState(button_code, pressed)`. -/
  | SetButtonState (index : Nat) (button_code : Int) (pressed : Bool)
  /-- Lines 703-709: `controller->SetAxisState(button_code, value)`. -/
  | SetAxisState (index : Nat) (button_code : Int) (value : ℚ)
  /-- Lines 718-722: `ci->HandleButtonEvent(controller_index, button_index, pressed)`. -/
  | HandleButtonEvent (controller_index button_index : Nat) (pressed : Bool)
  /-- Lines 730-734: `ci->HandleAxisEvent(controller_index, axis_index, value)`. -/
  | HandleAxisEvent (controller_index axis_index : Nat) (value : ℚ)
  deriving DecidableEq, Repr

/-- Function `AndroidHostInterface::SetControllerButtonState(index, button_code, pressed)`
(lines 682-696); `closure` names the function objects in the queue. -/
def SetControllerButtonState (ext : Externals κ σ) (closure : InputClosure → κ)
    (index : Nat) (button_code : Int) (pressed : Bool) (h : Host κ σ) :
    Option (Host κ σ × List (Event κ)) :=
  if !IsEmulationThreadRunning h then some (h, [])
  else
    RunOnEmulationThread ext 0 (closure (InputClosure.SetButtonState index button_code pressed))
      false h

/-- Function `AndroidHostInterface::SetControllerAxisState(index, button_code, value)`
(lines 698-712). -/
def SetControllerAxisState (ext : Externals κ σ) (closure : InputClosure → κ)
    (index : Nat) (button_code : Int) (value : ℚ) (h : Host κ σ) :
    Option (Host κ σ × List (Event κ)) :=
  if !IsEmulationThreadRunning h then some (h, [])
  else
    RunOnEmulationThread ext 0 (closure (InputClosure.SetAxisState index button_code value))
      false h

/-- Function `AndroidHostInterface::HandleControllerButtonEvent(controller_index,
button_index, pressed)` (lines 714-724). The second argument of
`RunOnEmulationThread` is left to its default, declared in the absent header:
the submission does not block. -/
def HandleControllerButtonEvent (ext : Externals κ σ) (closure : InputClosure → κ)
    (controller_index button_index : Nat) (pressed : Bool) (h : Host κ σ) :
    Option (Host κ σ × List (Event κ)) :=
  if !IsEmulationThreadRunning h then some (h, [])
  else
    RunOnEmulationThread ext 0
      (closure (InputClosure.HandleButtonEvent controller_index button_index pressed)) false h

/-- Function `AndroidHostInterface::HandleControllerAxisEvent(controller_index,
axis_index, value)` (lines 726-736), the submission as in the function before. -/
def HandleControllerAxisEvent (ext : Externals κ σ) (closure : InputClosure → κ)
    (controller_index axis_index : Nat) (value : ℚ) (h : Host κ σ) :
    Option (Host κ σ × List (Event κ)) :=
  if !IsEmulationThreadRunning h then some (h, [])
  else
    RunOnEmulationThread ext 0
      (closure (InputClosure.HandleAxisEvent controller_index axis_index value)) false h

/-- The emulation thread is at a step it takes holding `m_mutex`. -/
def LoopPc.holds : LoopPc κ → Bool
  | LoopPc.queueTest => true
  | LoopPc.whileTest => true
  | LoopPc.stopTest => true
  | _ => false

/-- The record of the holder of `m_mutex` agrees with where the two threads
are: the emulation thread holds it at the tests of its inner loop, the caller
at its test of the pending flag. -/
def MutexInv (w : World κ σ) : Prop :=
  (w.mutex = some Thread.loop ↔ w.loop.holds = true) ∧
  (w.mutex = some Thread.caller ↔ w.caller = CallerPc.test)

/-! ## The host display -/

/-- The display classes of lines 502-509. -/
inductive DisplayClass where
  | VulkanHostDisplay
  | OpenGLHostDisplay
  deriving DecidableEq, Repr

/-- What the display calls of `AcquireHostDisplay` that can fail return; their
code is not among the sources. -/
structure DisplayResults where
  /-- Result of `m_display->CreateRenderDevice(...)`. -/
  CreateRenderDevice : Bool
  /-- Result of `m_display->InitializeRenderDevice(...)`. -/
  InitializeRenderDevice : Bool
  /-- Result of `m_display->CreateImGuiContext()`. -/
  CreateImGuiContext : Bool
  /-- Result of `m_display->UpdateImGuiFontTexture()`. -/
  UpdateImGuiFontTexture : Bool
  /-- Result of `CreateHostDisplayResources()`. -/
  CreateHostDisplayResources : Bool
  deriving DecidableEq, Repr

/-- The calls `AcquireHostDisplay` and `ReleaseHostDisplay` make, in program
order, those that can fail with their result. -/
inductive DisplayCall where
  /-- Assignment `m_display = std::make_unique<...>()` of lines 503 and 508. -/
  | make_unique (c : DisplayClass)
  /-- Call of `m_display->CreateRenderDevice(wi, ...)`. -/
  | CreateRenderDevice (wi : WindowInfo) (ok : Bool)
  /-- Call of `m_display->InitializeRenderDevice(...)`. -/
  | InitializeRenderDevice (ok : Bool)
  /-- Call of `m_display->CreateImGuiContext()`. -/
  | CreateImGuiContext (ok : Bool)
  /-- Call of `m_display->SetDisplayAlignment(m_display_alignment)`. -/
  | SetDisplayAlignment
  /-- Call of `m_display->UpdateImGuiFontTexture()`. -/
  | UpdateImGuiFontTexture (ok : Bool)
  /-- Call of `CreateHostDisplayResources()`. -/
  | CreateHostDisplayResources (ok : Bool)
  /-- Call of `ReportError(message)`. -/
  | ReportError (message : String)
  /-- Call of `ReleaseHostDisplayResources()`. -/
  | ReleaseHostDisplayResources
  /-- Call of `m_display->DestroyImGuiContext()`. -/
  | DestroyImGuiContext
  /-- Call of `m_display->DestroyRenderDevice()`. -/
  | DestroyRenderDevice
  /-- Call of `m_display.reset()`. -/
  | reset
  deriving DecidableEq, Repr

/-- Function `AndroidHostInterface::ReleaseHostDisplay()` (lines 535-541). -/
def ReleaseHostDisplay {α : Type} (s : Core α) : Core α × List DisplayCall :=
  ({ s with m_display := false },
    [DisplayCall.ReleaseHostDisplayResources, DisplayCall.DestroyImGuiContext,
     DisplayCall.DestroyRenderDevice, DisplayCall.reset])

/-- The condition of lines 511-514, true when a call has failed, with the calls
made: `||` does not evaluate what follows a failed call. -/
def createRenderDevice (res : DisplayResults) (wi : WindowInfo) : Bool × List DisplayCall :=
  if !res.CreateRenderDevice then (true, [DisplayCall.CreateRenderDevice wi false])
  else if !res.InitializeRenderDevice then
    (true, [DisplayCall.CreateRenderDevice wi true, DisplayCall.InitializeRenderDevice false])
  else
    (!res.CreateImGuiContext,
      [DisplayCall.CreateRenderDevice wi true, DisplayCall.InitializeRenderDevice true,
       DisplayCall.CreateImGuiContext res.CreateImGuiContext])

/-- The condition of line 525, true when a call has failed, with the calls made. -/
def createResources (res : DisplayResults) : Bool × List DisplayCall :=
  if !res.UpdateImGuiFontTexture then (true, [DisplayCall.UpdateImGuiFontTexture false])
  else
    (!res.CreateHostDisplayResources,
      [DisplayCall.UpdateImGuiFontTexture true,
       DisplayCall.CreateHostDisplayResources res.CreateHostDisplayResources])

/-- Function `AndroidHostInterface::AcquireHostDisplay()` (lines 492-533):
the result, the state on return and the calls made. `surface_width` and
`surface_height` are what `ANativeWindow_getWidth` and `ANativeWindow_getHeight`
return for `m_surface`. -/
def AcquireHostDisplay {α : Type} (res : DisplayResults) (surface_width surface_height : Int)
    (s : Core α) : Bool × Core α × List DisplayCall :=
  let wi : WindowInfo :=
    { type := WindowInfoType.Android
      window_handle := s.m_surface
      surface_width := surface_width
      surface_height := surface_height }
  let c :=
    match s.g_settings.gpu_renderer with
    | GPURenderer.HardwareVulkan => DisplayClass.VulkanHostDisplay
    | _ => DisplayClass.OpenGLHostDisplay
  let s1 := { s with m_display := true }
  let device := createRenderDevice res wi
  if device.1 then
    (false, { s1 with m_display := false },
      DisplayCall.make_unique c :: device.2 ++ [DisplayCall.DestroyRenderDevice, DisplayCall.reset])
  else
    let resources := createResources res
    if resources.1 then
      let r := ReleaseHostDisplay s1
      (false, r.1,
        DisplayCall.make_unique c :: device.2 ++ DisplayCall.SetDisplayAlignment :: resources.2
          ++ DisplayCall.ReportError "Failed to create host display resources" :: r.2)
    else
      (true, s1,
        DisplayCall.make_unique c :: device.2 ++ DisplayCall.SetDisplayAlignment :: resources.2)

/-- What is held for a display: the display object, its render device, its
ImGui context (with the font texture) and the host display resources. -/
inductive DisplayResource where
  | display
  | renderDevice
  | imguiContext
  | hostDisplayResources
  deriving DecidableEq, Repr

/-- What a call has created. -/
def DisplayCall.creates : DisplayCall → Option DisplayResource
  | DisplayCall.make_unique _ => some DisplayResource.display
  | DisplayCall.CreateRenderDevice _ true => some DisplayResource.renderDevice
  | DisplayCall.CreateImGuiContext true => some DisplayResource.imguiContext
  | DisplayCall.CreateHostDisplayResources true => some DisplayResource.hostDisplayResources
  | _ => none

/-- What a call tears down. -/
def DisplayCall.destroys : DisplayCall → Option DisplayResource
  | DisplayCall.ReleaseHostDisplayResources => some DisplayResource.hostDisplayResources
  | DisplayCall.DestroyImGuiContext => some DisplayResource.imguiContext
  | DisplayCall.DestroyRenderDevice => some DisplayResource.renderDevice
  | DisplayCall.reset => some DisplayResource.display
  | _ => none

/-- A call of `ReportError`. -/
def DisplayCall.isReportError : DisplayCall → Bool
  | DisplayCall.ReportError _ => true
  | _ => false

/-- No call after the first `ReportError` of the trace tears anything down:
the teardown is over when the error is reported. -/
def teardownBeforeReport (trace : List DisplayCall) : Bool :=
  (trace.dropWhile (fun c => !c.isReportError)).all (fun c => c.destroys.isNone)

/-- Every result true but that of `UpdateImGuiFontTexture`. -/
def fontTextureFails : DisplayResults where
  CreateRenderDevice := true
  InitializeRenderDevice := true
  CreateImGuiContext := true
  UpdateImGuiFontTexture := false
  CreateHostDisplayResources := true

/-! ## Settings conversion -/

/-- What the settings store `m_settings_interface` holds for the keys
`LoadAndConvertSettings` reads, `none` for a key without value. -/
structure SettingsInterface where
  /-- Section `GPU`, key `MSAA`. -/
  GPU_MSAA : Option String
  /-- Section `CPU`, key `Overclock`. -/
  CPU_Overclock : Option Int
  /-- Section `Controller1`, key `Vibration`. -/
  Controller1_Vibration : Option Bool
  deriving DecidableEq, Repr

/-- The functions of `StringUtil` and `Settings` that `LoadAndConvertSettings`
calls; their code is not among the sources. -/
structure Conversions where
  /-- Function `StringUtil::FromChars<u32>(str)`: the number the string parses
  to, `none` when it does not parse. -/
  FromChars : String → Option Nat
  /-- Function `StringUtil::EndsWith(str, suffix)`. -/
  EndsWith : String → String → Bool
  /-- Function `Settings::CPUOverclockPercentToFraction(percent, &numerator,
  &denominator)`: the numerator and the denominator it stores. -/
  CPUOverclockPercentToFraction : Nat → Nat × Nat

/-- The fields of `g_settings` and the member that lines 281-292 of
`LoadAndConvertSettings` assign. -/
structure ConvertedSettings where
  /-- Field `g_settings.gpu_multisamples`. -/
  gpu_multisamples : Nat
  /-- Field `g_settings.gpu_per_sample_shading`. -/
  gpu_per_sample_shading : Bool
  /-- Field `g_settings.cpu_overclock_numerator`. -/
  cpu_overclock_numerator : Nat
  /-- Field `g_settings.cpu_overclock_denominator`. -/
  cpu_overclock_denominator : Nat
  /-- Field `g_settings.cpu_overclock_enable`. -/
  cpu_overclock_enable : Bool
  /-- Member `m_vibration_enabled`. -/
  m_vibration_enabled : Bool
  deriving DecidableEq, Repr

/-- Function `AndroidHostInterface::LoadAndConvertSettings()` (lines 276-293), as far as
it assigns: what lines 280-292 store, from the values of the settings store
(`GetStringValue`, `GetIntValue` and `GetBoolValue` return the default given
for a key without value). The call of `CommonHostInterface::LoadSettings` before and
`UpdateOverclockActive()` write other fields. -/
def LoadAndConvertSettings (cv : Conversions) (si : SettingsInterface) : ConvertedSettings :=
  let msaa_str := si.GPU_MSAA.getD "1"
  let overclock_percent := (max (si.CPU_Overclock.getD 100) 1).toNat % 2 ^ 32
  let fraction := cv.CPUOverclockPercentToFraction overclock_percent
  { gpu_multisamples := max ((cv.FromChars msaa_str).getD 1) 1
    gpu_per_sample_shading := cv.EndsWith msaa_str "-ssaa"
    cpu_overclock_numerator := fraction.1
    cpu_overclock_denominator := fraction.2
    cpu_overclock_enable := overclock_percent != 100
    m_vibration_enabled := si.Controller1_Vibration.getD false }

/-- The value of a string of decimal digits read after the value `acc`. -/
def digitsValue : List Char → Nat → Nat
  | [], acc => acc
  | c :: cs, acc => digitsValue cs (acc * 10 + (c.toNat - 48))

/-- Example conversions: a number is read from the leading decimal digits of
the string, when there is one and the number is below `2 ^ 32`; the suffix
test compares the characters; the overclock fraction is the percentage over
one hundred. -/
def demoConversions : Conversions where
  FromChars := fun str =>
    let digits := str.toList.takeWhile Char.isDigit
    if digits.isEmpty then none
    else if digitsValue digits 0 < 2 ^ 32 then some (digitsValue digits 0) else none
  EndsWith := fun str suffix => suffix.toList.isSuffixOf str.toList
  CPUOverclockPercentToFraction := fun percent => (percent, 100)

/-- An example store with the given `MSAA` token and no other value. -/
def demoStore (msaa : String) : SettingsInterface where
  GPU_MSAA := some msaa
  CPU_Overclock := none
  Controller1_Vibration := none

/-! ## Reading an input stream into memory -/

/-- One call of `read` on the Java input stream (line 107): the result, and what
the array `temp` holds after the call, by index. -/
structure Read where
  /-- The `int` returned. -/
  bytes_read : Int
  /-- The bytes of `temp`. -/
  temp : Nat → Nat

/-- What `ReadInputStreamToMemory` uses of a `GrowableMemoryByteStream`; the
class is declared in `common/byte_stream.h`, which is not among the sources. -/
structure GrowableMemoryByteStream where
  /-- The bytes at `GetMemoryPointer()`, by offset. -/
  memory : Nat → Nat
  /-- The capacity `GetMemorySize()` of the buffer. -/
  memory_size : Nat
  /-- The size of the stream. -/
  size : Nat

/-- Member `ResizeMemory(new_size)`: the buffer gets the capacity `new_size` and
keeps its bytes. -/
def GrowableMemoryByteStream.ResizeMemory (new_size : Nat) (bs : GrowableMemoryByteStream) :
    GrowableMemoryByteStream :=
  { bs with memory_size := new_size }

/-- Member `Resize(new_size)`: the stream gets the size `new_size`, in a buffer
that holds it. -/
def GrowableMemoryByteStream.Resize (new_size : Nat) (bs : GrowableMemoryByteStream) :
    GrowableMemoryByteStream :=
  { bs with memory_size := max bs.memory_size new_size, size := new_size }

/-- The bytes of the stream, first to last. -/
def GrowableMemoryByteStream.contents (bs : GrowableMemoryByteStream) : List Nat :=
  (List.range bs.size).map bs.memory

/-- The bytes a call of `read` has delivered: the first `bytes_read` of `temp`. -/
def Read.chunk (r : Read) : List Nat :=
  (List.range r.bytes_read.toNat).map r.temp

/-- Lines 111-115, with `position` and `bytes_read` as `u32`: when the sum
exceeds the capacity, the buffer is resized to the larger of twice the
capacity and the sum, all computed in 32 bits. -/
def growMemory (position bytes_read : Nat) (bs : GrowableMemoryByteStream) :
    GrowableMemoryByteStream :=
  if (position + bytes_read) % 2 ^ 32 > bs.memory_size then
    bs.ResizeMemory (max (bs.memory_size * 2 % 2 ^ 32) ((position + bytes_read) % 2 ^ 32))
  else bs

/-- Line 117: `GetByteArrayRegion(temp, 0, len, GetMemoryPointer() + position)`
copies `len` bytes of `temp` to the buffer from offset `position` on; `none`
when the copy would write past the buffer. -/
def GetByteArrayRegion (temp : Nat → Nat) (len position : Nat) (bs : GrowableMemoryByteStream) :
    Option GrowableMemoryByteStream :=
  if position + len ≤ bs.memory_size then
    some { bs with
      memory := fun i => if position ≤ i ∧ i < position + len then temp (i - position)
                         else bs.memory i }
  else none

/-- The `for (;;)` of lines 105-119 over the results of the successive calls of
`read`: the position and the stream when the loop is left at line 109, `none`
when the results given end before one is not positive or when a copy would
write past the buffer. -/
def readLoop : List Read → Nat → GrowableMemoryByteStream →
    Option (Nat × GrowableMemoryByteStream)
  | [], _, _ => none
  | r :: rest, position, bs =>
    if r.bytes_read ≤ 0 then some (position, bs)
    else
      match GetByteArrayRegion r.temp r.bytes_read.toNat position
          (growMemory position (r.bytes_read.toNat % 2 ^ 32) bs) with
      | none => none
      | some bs2 => readLoop rest ((position + r.bytes_read.toNat % 2 ^ 32) % 2 ^ 32) bs2

/-- Function `AndroidHelpers::ReadInputStreamToMemory(env, obj, chunk_size)` (lines
97-127) on the results of the calls of `read`. -/
def ReadInputStreamToMemory (reads : List Read) : Option GrowableMemoryByteStream :=
  (readLoop reads 0 { memory := fun _ => 0, memory_size := 0, size := 0 }).map
    (fun r => r.2.Resize r.1)

/-- A call of `read` that delivers `2 ^ 30` zero bytes. -/
def bigRead : Read where
  bytes_read := 2 ^ 30
  temp := fun _ => 0

/-- A call of `read` that delivers the bytes `b, b + 1, ..., b + n - 1`. -/
def countRead (n b : Nat) : Read where
  bytes_read := n
  temp := fun i => b + i

/-- The call of `read` at the end of the stream. -/
def endRead : Read where
  bytes_read := -1
  temp := fun _ => 0

/-! ## What a drain has to do -/

/-- The host after the calls of the functions `cs` one after the other, each
made on the host with the front entry taken off the queue (lines 432-435). -/
def callAll (ext : Externals κ σ) : List κ → Host κ σ → Host κ σ
  | [], h => h
  | c :: cs, h =>
    callAll ext cs (ext.call c { h with m_callback_queue := h.m_callback_queue.tail })

/-- The entries that the calls of `cs`, made as in `callAll`, put at the back
of the queue, in the order in which they are put there. -/
def appendedBy (ext : Externals κ σ) : List κ → Host κ σ → List κ
  | [], _ => []
  | c :: cs, h =>
    (ext.call c { h with m_callback_queue := h.m_callback_queue.tail }).m_callback_queue.drop
        h.m_callback_queue.tail.length
      ++ appendedBy ext cs (ext.call c { h with m_callback_queue := h.m_callback_queue.tail })

/-- Each of the functions `cs` is the front entry of the queue when its turn
comes, the calls made as in `callAll`. -/
def frontOrder (ext : Externals κ σ) : List κ → Host κ σ → Prop
  | [], _ => True
  | c :: cs, h =>
    h.m_callback_queue.head? = some c ∧
      frontOrder ext cs (ext.call c { h with m_callback_queue := h.m_callback_queue.tail })

theorem budget_nil (w : κ → Nat) : budget w [] = 0 := by
  simp [budget]

theorem budget_cons (w : κ → Nat) (c : κ) (q : List κ) :
    budget w (c :: q) = w c + 1 + budget w q := by
  simp [budget]

theorem budget_append (w : κ → Nat) (p q : List κ) :
    budget w (p ++ q) = budget w p + budget w q := by
  simp [budget]

theorem budget_eq (w : κ → Nat) (q : List κ) :
    budget w q = (q.map w).sum + q.length := by
  induction q with
  | nil => simp [budget]
  | cons c q ih => rw [budget_cons, ih]; simp; omega

theorem runCallbacks_last (ext : Externals κ σ) (n : Nat) (h : Host κ σ) (c : κ)
    (rest : List κ) (hq : h.m_callback_queue = c :: rest)
    (he : (ext.call c { h with m_callback_queue := rest }).m_callback_queue = []) :
    runCallbacks ext (n + 1) h
      = some (ext.call c { h with m_callback_queue := rest }, [Event.callback c]) := by
  unfold runCallbacks
  rw [hq]
  simp only [he, List.isEmpty_nil, if_true]

theorem runCallbacks_more (ext : Externals κ σ) (n : Nat) (h : Host κ σ) (c : κ)
    (rest : List κ) (hq : h.m_callback_queue = c :: rest)
    (he : (ext.call c { h with m_callback_queue := rest }).m_callback_queue ≠ []) :
    runCallbacks ext (n + 1) h
      = (runCallbacks ext n (ext.call c { h with m_callback_queue := rest })).map
          (fun r => (r.1, Event.callback c :: r.2)) := by
  have hf : (ext.call c { h with m_callback_queue := rest }).m_callback_queue.isEmpty = false := by
    cases hc : (ext.call c { h with m_callback_queue := rest }).m_callback_queue with
    | nil => exact absurd hc he
    | cons a l => rfl
  conv => lhs; unfold runCallbacks
  rw [hq]
  simp only [hf, Bool.false_eq_true, if_false]

/-- The `do ... while` on a non-empty queue, with calls that append within
their budgets: it returns, has called the entries of the queue in order and
after them only entries appended meanwhile, and leaves the queue empty. -/
theorem runCallbacks_spec (ext : Externals κ σ) (w : κ → Nat) (hw : AppendsWithin ext w) :
    ∀ (n : Nat) (h : Host κ σ), h.m_callback_queue ≠ [] → budget w h.m_callback_queue ≤ n →
      ∃ h2 extra, runCallbacks ext n h
          = some (h2, (h.m_callback_queue ++ extra).map Event.callback) ∧
        h2.m_callback_queue = [] ∧
        (h.m_callback_queue ++ extra).length ≤ budget w h.m_callback_queue := by
  intro n
  induction n with
  | zero =>
    intro h hne hb
    cases hq : h.m_callback_queue with
    | nil => exact absurd hq hne
    | cons c rest => rw [hq, budget_cons] at hb; omega
  | succ n ih =>
    intro h hne hb
    cases hq : h.m_callback_queue with
    | nil => exact absurd hq hne
    | cons c rest =>
      rw [hq, budget_cons] at hb
      obtain ⟨extra1, hx0, hbx⟩ := hw c { h with m_callback_queue := rest }
      have hx : (ext.call c { h with m_callback_queue := rest }).m_callback_queue
          = rest ++ extra1 := hx0
      clear hx0
      by_cases he : (ext.call c { h with m_callback_queue := rest }).m_callback_queue = []
      · refine ⟨ext.call c { h with m_callback_queue := rest }, [], ?_, he, ?_⟩
        · rw [he] at hx
          have hrest : rest = [] := (List.append_eq_nil.mp hx.symm).1
          rw [runCallbacks_last ext n h c rest hq he, hrest]
          rfl
        · rw [he] at hx
          have hrest : rest = [] := (List.append_eq_nil.mp hx.symm).1
          rw [hrest, budget_cons]
          simp only [List.nil_append, List.append_nil, List.length_cons, List.length_nil]
          omega
      · obtain ⟨h2, extra2, hr, hq2, hlen⟩ := ih _ he (by rw [hx, budget_append]; omega)
        refine ⟨h2, extra1 ++ extra2, ?_, hq2, ?_⟩
        · rw [runCallbacks_more ext n h c rest hq he, hr, hx]
          simp
        · rw [hx, budget_append] at hlen
          have hx2 : (rest ++ extra1 ++ extra2).length ≤ budget w rest + w c := by omega
          rw [budget_cons]
          simp only [List.length_append, List.length_cons] at hx2 ⊢
          omega

/-- Non-blocking submissions to a running host append in order. -/
theorem submitAll_running (ext : Externals κ σ) :
    ∀ (cs : List κ) (h : Host κ σ), h.m_emulation_thread_running = true →
      ∃ h1, submitAll ext cs h = some h1 ∧
        h1.m_callback_queue = h.m_callback_queue ++ cs ∧
        h1.m_emulation_thread_running = true ∧
        h1.m_emulation_thread_stop_request = h.m_emulation_thread_stop_request ∧
        h1.sys = h.sys := by
  intro cs
  induction cs with
  | nil => intro h hr; exact ⟨h, rfl, by simp, hr, rfl, rfl⟩
  | cons c cs ih =>
    intro h hr
    obtain ⟨h1, hs, hq, hr1, hst, hsys⟩ :=
      ih { h with m_callback_queue := h.m_callback_queue ++ [c], m_callbacks_outstanding := true } hr
    have key : RunOnEmulationThread ext 0 c false h
        = some ({ h with m_callback_queue := h.m_callback_queue ++ [c],
                         m_callbacks_outstanding := true }, [Event.notify_one]) := by
      unfold RunOnEmulationThread IsEmulationThreadRunning
      rw [hr]
      rfl
    refine ⟨h1, ?_, ?_, hr1, hst, hsys⟩
    · unfold submitAll
      rw [key]
      exact hs
    · rw [hq]
      simp

/-- The drain with calls that append within their budgets: it returns, has
called the entries of the queue in order and after them only entries appended
meanwhile, leaves the queue empty, and has stored false to
`m_callbacks_outstanding` when the queue was not empty. -/
theorem runEvents_spec (ext : Externals κ σ) (w : κ → Nat) (hw : AppendsWithin ext w)
    (n : Nat) (h : Host κ σ) (hn : budget w h.m_callback_queue ≤ n) :
    ∃ h2 extra, runEvents ext n h
        = some (h2, (h.m_callback_queue ++ extra).map Event.callback) ∧
      h2.m_callback_queue = [] ∧
      extra.length ≤ (h.m_callback_queue.map w).sum ∧
      (h.m_callback_queue ≠ [] → h2.m_callbacks_outstanding = false) ∧
      (h.m_callback_queue = [] → h2 = h) := by
  by_cases hq : h.m_callback_queue = []
  · refine ⟨h, [], ?_, hq, by simp, fun hne => absurd hq hne, fun _ => rfl⟩
    unfold runEvents
    rw [hq]
    rfl
  · obtain ⟨h2, extra, hr, hq2, hlen⟩ := runCallbacks_spec ext w hw n h hq hn
    refine ⟨{ h2 with m_callbacks_outstanding := false }, extra, ?_, hq2, ?_,
      fun _ => rfl, fun he => absurd he hq⟩
    · have hf : h.m_callback_queue.isEmpty = false := by
        cases hc : h.m_callback_queue with
        | nil => exact absurd hc hq
        | cons a l => rfl
      unfold runEvents
      rw [hf, hr]
      rfl
    · rw [budget_eq] at hlen
      simp only [List.length_append] at hlen
      omega

theorem demoExt_appends : AppendsWithin demoExt Cmd.appends := by
  intro c h
  cases c with
  | bump n => exact ⟨[], by simp [demoExt, Cmd.body], by simp [budget]⟩
  | submit n =>
    cases hr : h.m_emulation_thread_running with
    | false =>
      exact ⟨[], by simp [demoExt, Cmd.body, IsEmulationThreadRunning, hr], by simp [budget]⟩
    | true =>
      exact ⟨[Cmd.bump n], by simp [demoExt, Cmd.body, IsEmulationThreadRunning, hr],
        by simp [budget, Cmd.appends]⟩

theorem runCallbacks_unique (ext : Externals κ σ) :
    ∀ (n m : Nat) (h : Host κ σ) (r r2 : Host κ σ × List (Event κ)),
      runCallbacks ext n h = some r → runCallbacks ext m h = some r2 → r = r2 := by
  intro n
  induction n with
  | zero => intro m h r r2 h1 _; simp [runCallbacks] at h1
  | succ n ih =>
    intro m h r r2 h1 h2
    cases m with
    | zero => simp [runCallbacks] at h2
    | succ m =>
      cases hq : h.m_callback_queue with
      | nil => unfold runCallbacks at h1; rw [hq] at h1; simp at h1
      | cons c rest =>
        by_cases he : (ext.call c { h with m_callback_queue := rest }).m_callback_queue = []
        · rw [runCallbacks_last ext n h c rest hq he] at h1
          rw [runCallbacks_last ext m h c rest hq he] at h2
          rw [← Option.some.inj h1, ← Option.some.inj h2]
        · rw [runCallbacks_more ext n h c rest hq he] at h1
          rw [runCallbacks_more ext m h c rest hq he] at h2
          cases ha : runCallbacks ext n (ext.call c { h with m_callback_queue := rest }) with
          | none => rw [ha] at h1; simp at h1
          | some a =>
            cases hb : runCallbacks ext m (ext.call c { h with m_callback_queue := rest }) with
            | none => rw [hb] at h2; simp at h2
            | some b =>
              rw [ha] at h1; rw [hb] at h2
              have hab := ih m _ a b ha hb
              simp only [Option.map_some'] at h1 h2
              rw [← Option.some.inj h1, ← Option.some.inj h2, hab]

theorem runEvents_unique (ext : Externals κ σ) (n m : Nat) (h : Host κ σ)
    (r r2 : Host κ σ × List (Event κ))
    (h1 : runEvents ext n h = some r) (h2 : runEvents ext m h = some r2) : r = r2 := by
  unfold runEvents at h1 h2
  cases hq : h.m_callback_queue.isEmpty with
  | true =>
    rw [hq] at h1 h2
    simp only [Bool.not_true, Bool.false_eq_true, if_false] at h1 h2
    rw [← Option.some.inj h1, ← Option.some.inj h2]
  | false =>
    rw [hq] at h1 h2
    simp only [Bool.not_false, if_true] at h1 h2
    cases ha : runCallbacks ext n h with
    | none => rw [ha] at h1; simp at h1
    | some a =>
      cases hb : runCallbacks ext m h with
      | none => rw [hb] at h2; simp at h2
      | some b =>
        rw [ha] at h1; rw [hb] at h2
        have hab := runCallbacks_unique ext n m h a b ha hb
        simp only [Option.map_some'] at h1 h2
        rw [← Option.some.inj h1, ← Option.some.inj h2, hab]

theorem eventLoop_stop (ext : Externals κ σ) (n : Nat) (h h1 : Host κ σ) (tr : List (Event κ))
    (hd : runEvents ext n h = some (h1, tr))
    (hs : h1.m_emulation_thread_stop_request = true) :
    eventLoop ext (n + 1) h = some (LoopExit.returned,
      { h1 with m_emulation_thread_running := false, m_emulation_thread_stop_request := false },
      tr) := by
  unfold eventLoop
  rw [hd]
  simp only [hs, if_true]

theorem eventLoop_wait (ext : Externals κ σ) (n : Nat) (h h1 : Host κ σ) (tr : List (Event κ))
    (hd : runEvents ext n h = some (h1, tr))
    (hs : h1.m_emulation_thread_stop_request = false) (hp : ext.IsPaused h1.sys = true) :
    eventLoop ext (n + 1) h = (eventLoop ext n (ext.others h1)).map
      (fun r => (r.1, r.2.1, tr ++ Event.cv_wait :: r.2.2)) := by
  conv => lhs; unfold eventLoop
  rw [hd]
  simp only [hs, hp, Bool.false_eq_true, if_false, if_true]

theorem eventLoop_break (ext : Externals κ σ) (n : Nat) (h h1 : Host κ σ) (tr : List (Event κ))
    (hd : runEvents ext n h = some (h1, tr))
    (hs : h1.m_emulation_thread_stop_request = false) (hp : ext.IsPaused h1.sys = false) :
    eventLoop ext (n + 1) h = some (LoopExit.runFrame, h1, tr) := by
  unfold eventLoop
  rw [hd]
  simp only [hs, hp, Bool.false_eq_true, if_false]

theorem eventLoop_none (ext : Externals κ σ) (n : Nat) (h : Host κ σ)
    (hd : runEvents ext n h = none) : eventLoop ext (n + 1) h = none := by
  unfold eventLoop
  rw [hd]

theorem eventLoop_unique (ext : Externals κ σ) :
    ∀ (n m : Nat) (h : Host κ σ) (r r2 : LoopExit × Host κ σ × List (Event κ)),
      eventLoop ext n h = some r → eventLoop ext m h = some r2 → r = r2 := by
  intro n
  induction n with
  | zero => intro m h r r2 h1 _; simp [eventLoop] at h1
  | succ n ih =>
    intro m h r r2 h1 h2
    cases m with
    | zero => simp [eventLoop] at h2
    | succ m =>
      cases ha : runEvents ext n h with
      | none => rw [eventLoop_none ext n h ha] at h1; simp at h1
      | some a =>
        cases hb : runEvents ext m h with
        | none => rw [eventLoop_none ext m h hb] at h2; simp at h2
        | some b =>
          have hab := runEvents_unique ext n m h a b ha hb
          subst hab
          obtain ⟨a1, tr⟩ := a
          cases hs : a1.m_emulation_thread_stop_request with
          | true =>
            rw [eventLoop_stop ext n h a1 tr ha hs] at h1
            rw [eventLoop_stop ext m h a1 tr hb hs] at h2
            rw [← Option.some.inj h1, ← Option.some.inj h2]
          | false =>
            cases hp : ext.IsPaused a1.sys with
            | false =>
              rw [eventLoop_break ext n h a1 tr ha hs hp] at h1
              rw [eventLoop_break ext m h a1 tr hb hs hp] at h2
              rw [← Option.some.inj h1, ← Option.some.inj h2]
            | true =>
              rw [eventLoop_wait ext n h a1 tr ha hs hp] at h1
              rw [eventLoop_wait ext m h a1 tr hb hs hp] at h2
              cases hx : eventLoop ext n (ext.others a1) with
              | none => rw [hx] at h1; simp at h1
              | some x =>
                cases hy : eventLoop ext m (ext.others a1) with
                | none => rw [hy] at h2; simp at h2
                | some y =>
                  rw [hx] at h1; rw [hy] at h2
                  have hxy := ih m _ x y hx hy
                  simp only [Option.map_some'] at h1 h2
                  rw [← Option.some.inj h1, ← Option.some.inj h2, hxy]

theorem frameLoop_returned (ext : Externals κ σ) (n : Nat) (h h1 : Host κ σ)
    (tr : List (Event κ)) (he : eventLoop ext n h = some (LoopExit.returned, h1, tr)) :
    frameLoop ext (n + 1) h = some (h1, tr) := by
  unfold frameLoop
  rw [he]

theorem frameLoop_runFrame (ext : Externals κ σ) (n : Nat) (h h1 : Host κ σ)
    (tr : List (Event κ)) (he : eventLoop ext n h = some (LoopExit.runFrame, h1, tr)) :
    frameLoop ext (n + 1) h
      = (frameLoop ext n (render ext (simulate ext h1).1).1).map
          (fun q => (q.1, tr ++ (simulate ext h1).2 ++ (render ext (simulate ext h1).1).2 ++ q.2)) := by
  conv => lhs; unfold frameLoop
  rw [he]

theorem frameLoop_none (ext : Externals κ σ) (n : Nat) (h : Host κ σ)
    (he : eventLoop ext n h = none) : frameLoop ext (n + 1) h = none := by
  unfold frameLoop
  rw [he]

theorem frameLoop_unique (ext : Externals κ σ) :
    ∀ (n m : Nat) (h : Host κ σ) (r r2 : Host κ σ × List (Event κ)),
      frameLoop ext n h = some r → frameLoop ext m h = some r2 → r = r2 := by
  intro n
  induction n with
  | zero => intro m h r r2 h1 _; simp [frameLoop] at h1
  | succ n ih =>
    intro m h r r2 h1 h2
    cases m with
    | zero => simp [frameLoop] at h2
    | succ m =>
      cases ha : eventLoop ext n h with
      | none => rw [frameLoop_none ext n h ha] at h1; simp at h1
      | some a =>
        cases hb : eventLoop ext m h with
        | none => rw [frameLoop_none ext m h hb] at h2; simp at h2
        | some b =>
          have hab := eventLoop_unique ext n m h a b ha hb
          subst hab
          obtain ⟨e, a1, tr⟩ := a
          cases e with
          | returned =>
            rw [frameLoop_returned ext n h a1 tr ha] at h1
            rw [frameLoop_returned ext m h a1 tr hb] at h2
            rw [← Option.some.inj h1, ← Option.some.inj h2]
          | runFrame =>
            rw [frameLoop_runFrame ext n h a1 tr ha] at h1
            rw [frameLoop_runFrame ext m h a1 tr hb] at h2
            cases hx : frameLoop ext n (render ext (simulate ext a1).1).1 with
            | none => rw [hx] at h1; simp at h1
            | some x =>
              cases hy : frameLoop ext m (render ext (simulate ext a1).1).1 with
              | none => rw [hy] at h2; simp at h2
              | some y =>
                rw [hx] at h1; rw [hy] at h2
                have hxy := ih m _ x y hx hy
                simp only [Option.map_some'] at h1 h2
                rw [← Option.some.inj h1, ← Option.some.inj h2, hxy]

theorem runCallbacks_stop (ext : Externals κ σ) (hk : KeepsStopRequest ext) :
    ∀ (n : Nat) (h : Host κ σ) (r : Host κ σ × List (Event κ)),
      runCallbacks ext n h = some r → h.m_emulation_thread_stop_request = true →
        r.1.m_emulation_thread_stop_request = true := by
  intro n
  induction n with
  | zero => intro h r h1 _; simp [runCallbacks] at h1
  | succ n ih =>
    intro h r h1 hs
    cases hq : h.m_callback_queue with
    | nil => unfold runCallbacks at h1; rw [hq] at h1; simp at h1
    | cons c rest =>
      have hs1 : (ext.call c { h with m_callback_queue := rest }).m_emulation_thread_stop_request
          = true := hk c _ hs
      by_cases he : (ext.call c { h with m_callback_queue := rest }).m_callback_queue = []
      · rw [runCallbacks_last ext n h c rest hq he] at h1
        rw [← Option.some.inj h1]
        exact hs1
      · rw [runCallbacks_more ext n h c rest hq he] at h1
        cases ha : runCallbacks ext n (ext.call c { h with m_callback_queue := rest }) with
        | none => rw [ha] at h1; simp at h1
        | some a =>
          rw [ha] at h1
          simp only [Option.map_some'] at h1
          rw [← Option.some.inj h1]
          exact ih _ a ha hs1

theorem runCallbacks_callbacks (ext : Externals κ σ) :
    ∀ (n : Nat) (h : Host κ σ) (r : Host κ σ × List (Event κ)),
      runCallbacks ext n h = some r → r.2.all Event.isCallback = true := by
  intro n
  induction n with
  | zero => intro h r h1; simp [runCallbacks] at h1
  | succ n ih =>
    intro h r h1
    cases hq : h.m_callback_queue with
    | nil => unfold runCallbacks at h1; rw [hq] at h1; simp at h1
    | cons c rest =>
      by_cases he : (ext.call c { h with m_callback_queue := rest }).m_callback_queue = []
      · rw [runCallbacks_last ext n h c rest hq he] at h1
        rw [← Option.some.inj h1]
        rfl
      · rw [runCallbacks_more ext n h c rest hq he] at h1
        cases ha : runCallbacks ext n (ext.call c { h with m_callback_queue := rest }) with
        | none => rw [ha] at h1; simp at h1
        | some a =>
          rw [ha] at h1
          simp only [Option.map_some'] at h1
          rw [← Option.some.inj h1]
          have := ih _ a ha
          simpa [Event.isCallback] using this

theorem runEvents_callbacks (ext : Externals κ σ) (n : Nat) (h : Host κ σ)
    (r : Host κ σ × List (Event κ)) (h1 : runEvents ext n h = some r) :
    r.2.all Event.isCallback = true := by
  unfold runEvents at h1
  cases hq : h.m_callback_queue.isEmpty with
  | true =>
    rw [hq] at h1
    simp only [Bool.not_true, Bool.false_eq_true, if_false] at h1
    rw [← Option.some.inj h1]
    rfl
  | false =>
    rw [hq] at h1
    simp only [Bool.not_false, if_true] at h1
    cases ha : runCallbacks ext n h with
    | none => rw [ha] at h1; simp at h1
    | some a =>
      rw [ha] at h1
      simp only [Option.map_some'] at h1
      rw [← Option.some.inj h1]
      exact runCallbacks_callbacks ext n h a ha

theorem Event.not_frameWork_of_callback (e : Event κ) (h : e.isCallback = true) :
    e.isFrameWork = false := by
  cases e <;> simp_all [Event.isCallback, Event.isFrameWork]

theorem eventLoop_no_frameWork (ext : Externals κ σ) :
    ∀ (n : Nat) (h : Host κ σ) (r : LoopExit × Host κ σ × List (Event κ)),
      eventLoop ext n h = some r → r.2.2.all (fun e => !e.isFrameWork) = true := by
  intro n
  induction n with
  | zero => intro h r h1; simp [eventLoop] at h1
  | succ n ih =>
    intro h r h1
    cases ha : runEvents ext n h with
    | none => rw [eventLoop_none ext n h ha] at h1; simp at h1
    | some a =>
      obtain ⟨a1, tr⟩ := a
      have hcb := runEvents_callbacks ext n h (a1, tr) ha
      have htr : tr.all (fun e => !e.isFrameWork) = true := by
        rw [List.all_eq_true] at hcb ⊢
        intro e he
        simp [Event.not_frameWork_of_callback e (hcb e he)]
      cases hs : a1.m_emulation_thread_stop_request with
      | true =>
        rw [eventLoop_stop ext n h a1 tr ha hs] at h1
        rw [← Option.some.inj h1]
        exact htr
      | false =>
        cases hp : ext.IsPaused a1.sys with
        | false =>
          rw [eventLoop_break ext n h a1 tr ha hs hp] at h1
          rw [← Option.some.inj h1]
          exact htr
        | true =>
          rw [eventLoop_wait ext n h a1 tr ha hs hp] at h1
          cases hx : eventLoop ext n (ext.others a1) with
          | none => rw [hx] at h1; simp at h1
          | some x =>
            rw [hx] at h1
            simp only [Option.map_some'] at h1
            rw [← Option.some.inj h1]
            have hx2 := ih _ x hx
            simp only [List.all_append, List.all_cons, Bool.and_eq_true]
            exact ⟨htr, by simp [Event.isFrameWork], hx2⟩

/-- A submission made by the body of the function the drain is running. -/
theorem submit_from_callback (ext : Externals κ σ) (fuel : Nat) (f : κ) (h : Host κ σ)
    (hrun : h.m_emulation_thread_running = true) :
    RunOnEmulationThread ext fuel f false h
      = some ({ h with m_callback_queue := h.m_callback_queue ++ [f],
                       m_callbacks_outstanding := true }, [Event.notify_one]) ∧
    (∀ (c : κ) (rest : List κ),
      (∀ s : Host κ σ, s.m_emulation_thread_running = true →
        RunOnEmulationThread ext fuel f false s = some (ext.call c s, [Event.notify_one])) →
      ext.call c { h with m_callback_queue := rest }
        = { h with m_callback_queue := rest ++ [f], m_callbacks_outstanding := true }) := by
  have key : ∀ s : Host κ σ, s.m_emulation_thread_running = true →
      RunOnEmulationThread ext fuel f false s
        = some ({ s with m_callback_queue := s.m_callback_queue ++ [f],
                         m_callbacks_outstanding := true }, [Event.notify_one]) := by
    intro s hs
    unfold RunOnEmulationThread IsEmulationThreadRunning
    rw [hs]
    rfl
  refine ⟨key h hrun, ?_⟩
  intro c rest hbody
  have hb := hbody { h with m_callback_queue := rest } hrun
  rw [key { h with m_callback_queue := rest } hrun] at hb
  exact (congrArg Prod.fst (Option.some.inj hb)).symm

/-- C1 (idle inlining). While the emulation thread is not running,
`RunOnEmulationThread(f, blocking)` returns for either value of `blocking` and
for every number of spin rounds; it has made exactly one call of `f` and no
other event, and the host on return is the host as that one call of `f` left
it, so nothing was appended to the queue and `m_callbacks_outstanding` was not
stored to by the submission itself. -/
theorem C1_idle_inlining (ext : Externals κ σ) (fuel : Nat) (f : κ) (blocking : Bool)
    (h : Host κ σ) (hidle : h.m_emulation_thread_running = false) :
    RunOnEmulationThread ext fuel f blocking h = some (ext.call f h, [Event.callback f]) := by
  simp [RunOnEmulationThread, IsEmulationThreadRunning, hidle]

/-- Witness of C1: an idle host with a stale queue entry, blocking submission. -/
theorem C1_idle_inlining_witness :
    (demoHost [Cmd.bump 1] true false false 0).m_emulation_thread_running = false ∧
    RunOnEmulationThread demoExt 0 (Cmd.bump 5) true (demoHost [Cmd.bump 1] true false false 0)
      = some (demoHost [Cmd.bump 1] true false false 5, [Event.callback (Cmd.bump 5)]) :=
  ⟨rfl, C1_idle_inlining demoExt 0 (Cmd.bump 5) true (demoHost [Cmd.bump 1] true false false 0) rfl⟩

/-- The `do ... while` with calls that append within their budgets: it returns
the host that the calls made one after the other leave, having called the
entries of the queue and then every entry a call has appended, each when it
was the front of the queue. -/
theorem runCallbacks_calls (ext : Externals κ σ) (w : κ → Nat) (hw : AppendsWithin ext w) :
    ∀ (n : Nat) (h : Host κ σ), h.m_callback_queue ≠ [] → budget w h.m_callback_queue ≤ n →
      ∃ calls, runCallbacks ext n h = some (callAll ext calls h, calls.map Event.callback) ∧
        calls = h.m_callback_queue ++ appendedBy ext calls h ∧
        frontOrder ext calls h ∧
        (callAll ext calls h).m_callback_queue = [] ∧
        calls.length ≤ budget w h.m_callback_queue := by
  intro n
  induction n with
  | zero =>
    intro h hne hb
    cases hq : h.m_callback_queue with
    | nil => exact absurd hq hne
    | cons c rest => rw [hq, budget_cons] at hb; omega
  | succ n ih =>
    intro h hne hb
    cases hq : h.m_callback_queue with
    | nil => exact absurd hq hne
    | cons c rest =>
      rw [hq, budget_cons] at hb
      have htail : ({ h with m_callback_queue := h.m_callback_queue.tail } : Host κ σ)
          = { h with m_callback_queue := rest } := by rw [hq]; rfl
      have hlen : h.m_callback_queue.tail.length = rest.length := by rw [hq]; rfl
      obtain ⟨extra1, hx0, hbx⟩ := hw c { h with m_callback_queue := rest }
      have hx : (ext.call c { h with m_callback_queue := rest }).m_callback_queue
          = rest ++ extra1 := hx0
      clear hx0
      by_cases he : (ext.call c { h with m_callback_queue := rest }).m_callback_queue = []
      · have hrest : rest = [] := by
          rw [he] at hx
          exact (List.append_eq_nil.mp hx.symm).1
        have hextra : extra1 = [] := by
          rw [he] at hx
          exact (List.append_eq_nil.mp hx.symm).2
        refine ⟨[c], ?_, ?_, ?_, ?_, ?_⟩
        · rw [runCallbacks_last ext n h c rest hq he]
          show _ = some (callAll ext []
            (ext.call c { h with m_callback_queue := h.m_callback_queue.tail }), _)
          rw [htail]
          rfl
        · show [c] = c :: rest ++ (List.drop h.m_callback_queue.tail.length
            (ext.call c { h with m_callback_queue := h.m_callback_queue.tail }).m_callback_queue
              ++ [])
          rw [htail, he, hrest]
          simp
        · exact ⟨by rw [hq]; rfl, trivial⟩
        · show (ext.call c { h with m_callback_queue := h.m_callback_queue.tail }).m_callback_queue
            = []
          rw [htail]
          exact he
        · rw [budget_cons]
          simp only [List.length_cons, List.length_nil]
          omega
      · obtain ⟨calls, hr, hcalls, hfront, hq2, hlen2⟩ :=
          ih _ he (by rw [hx, budget_append]; omega)
        refine ⟨c :: calls, ?_, ?_, ?_, ?_, ?_⟩
        · rw [runCallbacks_more ext n h c rest hq he, hr]
          show _ = some (callAll ext calls
            (ext.call c { h with m_callback_queue := h.m_callback_queue.tail }), _)
          rw [htail]
          rfl
        · show c :: calls = c :: rest ++ (List.drop h.m_callback_queue.tail.length
            (ext.call c { h with m_callback_queue := h.m_callback_queue.tail }).m_callback_queue
              ++ appendedBy ext calls
                (ext.call c { h with m_callback_queue := h.m_callback_queue.tail }))
          rw [htail, hlen, hx, List.drop_left]
          conv => lhs; rw [hcalls, hx]
          simp
        · refine ⟨by rw [hq]; rfl, ?_⟩
          rw [htail]
          exact hfront
        · show (callAll ext calls
            (ext.call c { h with m_callback_queue := h.m_callback_queue.tail })).m_callback_queue
              = []
          rw [htail]
          exact hq2
        · rw [hx, budget_append] at hlen2
          rw [budget_cons]
          simp only [List.length_cons]
          omega

/-- Without appending calls nothing is appended. -/
theorem appendedBy_nil (ext : Externals κ σ)
    (hno : ∀ (c : κ) (h : Host κ σ), (ext.call c h).m_callback_queue = h.m_callback_queue) :
    ∀ (cs : List κ) (h : Host κ σ), appendedBy ext cs h = [] := by
  intro cs
  induction cs with
  | nil => intro h; rfl
  | cons c cs ih =>
    intro h
    have hq : (ext.call c { h with m_callback_queue := h.m_callback_queue.tail }).m_callback_queue
        = h.m_callback_queue.tail := hno c _
    show List.drop h.m_callback_queue.tail.length
        (ext.call c { h with m_callback_queue := h.m_callback_queue.tail }).m_callback_queue
      ++ appendedBy ext cs _ = []
    rw [ih, hq, List.drop_length]
    rfl

/-- The drain with calls that append within their budgets, by what it calls
and the host it leaves. -/
theorem runEvents_calls (ext : Externals κ σ) (w : κ → Nat) (hw : AppendsWithin ext w)
    (n : Nat) (h : Host κ σ) (hn : budget w h.m_callback_queue ≤ n) :
    ∃ calls, runEvents ext n h
        = some (if h.m_callback_queue.isEmpty then h
                else { callAll ext calls h with m_callbacks_outstanding := false },
            calls.map Event.callback) ∧
      calls = h.m_callback_queue ++ appendedBy ext calls h ∧
      frontOrder ext calls h ∧
      (callAll ext calls h).m_callback_queue = [] ∧
      calls.length ≤ budget w h.m_callback_queue := by
  by_cases hq : h.m_callback_queue = []
  · refine ⟨[], ?_, ?_, trivial, hq, by simp⟩
    · unfold runEvents
      rw [hq]
      rfl
    · rw [hq]; rfl
  · obtain ⟨calls, hr, hcalls, hfront, hq2, hlen⟩ := runCallbacks_calls ext w hw n h hq hn
    refine ⟨calls, ?_, hcalls, hfront, hq2, hlen⟩
    have hf : h.m_callback_queue.isEmpty = false := by
      cases hc : h.m_callback_queue with
      | nil => exact absurd hc hq
      | cons a l => rfl
    unfold runEvents
    rw [hf, hr]
    rfl

/-- Non-blocking submissions to a running host: the host they leave. -/
theorem submitAll_eq (ext : Externals κ σ) :
    ∀ (cs : List κ) (h : Host κ σ), h.m_emulation_thread_running = true →
      submitAll ext cs h
        = some { h with m_callback_queue := h.m_callback_queue ++ cs,
                        m_callbacks_outstanding := h.m_callbacks_outstanding || !cs.isEmpty } := by
  intro cs
  induction cs with
  | nil =>
    intro h _
    show some h = _
    simp
  | cons c cs ih =>
    intro h hr
    have key : RunOnEmulationThread ext 0 c false h
        = some ({ h with m_callback_queue := h.m_callback_queue ++ [c],
                         m_callbacks_outstanding := true }, [Event.notify_one]) := by
      unfold RunOnEmulationThread IsEmulationThreadRunning
      rw [hr]
      rfl
    unfold submitAll
    rw [key]
    show submitAll ext cs { h with m_callback_queue := h.m_callback_queue ++ [c],
                                   m_callbacks_outstanding := true } = _
    rw [ih { h with m_callback_queue := h.m_callback_queue ++ [c],
                    m_callbacks_outstanding := true } hr]
    simp

/-- Calls that do not clear a stop request leave it set. -/
theorem callAll_stop (ext : Externals κ σ) (hk : KeepsStopRequest ext) :
    ∀ (cs : List κ) (h : Host κ σ), h.m_emulation_thread_stop_request = true →
      (callAll ext cs h).m_emulation_thread_stop_request = true := by
  intro cs
  induction cs with
  | nil => intro h hs; exact hs
  | cons c cs ih =>
    intro h hs
    exact ih _ (hk c { h with m_callback_queue := h.m_callback_queue.tail } hs)

/-- The outer loop entered with a stop request set: one drain, then the
return, by what is called and the host that is left. -/
theorem frameLoop_stop_calls (ext : Externals κ σ) (w : κ → Nat)
    (hw : AppendsWithin ext w) (hk : KeepsStopRequest ext) (h : Host κ σ)
    (hstop : h.m_emulation_thread_stop_request = true)
    (n : Nat) (hn : budget w h.m_callback_queue ≤ n) :
    ∃ calls,
      frameLoop ext (n + 2) h
        = some ({ (if h.m_callback_queue.isEmpty then h
                   else { callAll ext calls h with m_callbacks_outstanding := false }) with
                  m_emulation_thread_running := false,
                  m_emulation_thread_stop_request := false },
            calls.map Event.callback) ∧
      calls = h.m_callback_queue ++ appendedBy ext calls h ∧
      frontOrder ext calls h ∧
      (callAll ext calls h).m_callback_queue = [] ∧
      calls.length ≤ budget w h.m_callback_queue := by
  obtain ⟨calls, hr, hcalls, hfront, hq2, hlen⟩ := runEvents_calls ext w hw n h hn
  refine ⟨calls, ?_, hcalls, hfront, hq2, hlen⟩
  have hs1 : (if h.m_callback_queue.isEmpty then h
      else { callAll ext calls h with m_callbacks_outstanding := false
        }).m_emulation_thread_stop_request = true := by
    cases hemp : h.m_callback_queue.isEmpty
    · simp only [Bool.false_eq_true, if_false]
      exact callAll_stop ext hk calls h hstop
    · simp only [if_true]
      exact hstop
  have hev := eventLoop_stop ext n h _ _ hr hs1
  exact frameLoop_returned ext (n + 1) h _ _ hev

/-- C2 (ordering). On a host whose emulation thread is running, submitting
the functions `cs` one after the other through `RunOnEmulationThread(c, false)`
leaves the host with `cs` behind the queue in submission order and the pending
flag set. The drain of `EmulationThreadLoop` from there returns once it has as
many rounds as the budget of the queue. It has made the calls `calls`, one
call for each entry, in this order: the queue as the submissions left it, from
the front to the back, and after it the entries that the calls themselves
appended meanwhile; each was the front entry of the queue when it was called.
The host it returns is the one that these calls, made one after the other on
the host with the front entry removed, leave, with the pending flag cleared;
its queue is empty. When no call appends, the calls are exactly the queue
followed by `cs`: execution order is submission order. -/
theorem C2_submission_order (ext : Externals κ σ) (w : κ → Nat) (hw : AppendsWithin ext w)
    (h : Host κ σ) (hrun : h.m_emulation_thread_running = true) (cs : List κ) (n : Nat)
    (hn : budget w (h.m_callback_queue ++ cs) ≤ n) :
    ∃ calls,
      submitAll ext cs h
        = some { h with m_callback_queue := h.m_callback_queue ++ cs,
                        m_callbacks_outstanding := h.m_callbacks_outstanding || !cs.isEmpty } ∧
      runEvents ext n
          { h with m_callback_queue := h.m_callback_queue ++ cs,
                   m_callbacks_outstanding := h.m_callbacks_outstanding || !cs.isEmpty }
        = some (if (h.m_callback_queue ++ cs).isEmpty then
                  { h with m_callback_queue := h.m_callback_queue ++ cs,
                           m_callbacks_outstanding := h.m_callbacks_outstanding || !cs.isEmpty }
                else
                  { callAll ext calls
                      { h with m_callback_queue := h.m_callback_queue ++ cs,
                               m_callbacks_outstanding :=
                                 h.m_callbacks_outstanding || !cs.isEmpty } with
                    m_callbacks_outstanding := false },
            calls.map Event.callback) ∧
      calls = (h.m_callback_queue ++ cs) ++
        appendedBy ext calls
          { h with m_callback_queue := h.m_callback_queue ++ cs,
                   m_callbacks_outstanding := h.m_callbacks_outstanding || !cs.isEmpty } ∧
      frontOrder ext calls
        { h with m_callback_queue := h.m_callback_queue ++ cs,
                 m_callbacks_outstanding := h.m_callbacks_outstanding || !cs.isEmpty } ∧
      (callAll ext calls
        { h with m_callback_queue := h.m_callback_queue ++ cs,
                 m_callbacks_outstanding := h.m_callbacks_outstanding || !cs.isEmpty
          }).m_callback_queue = [] ∧
      ((∀ (c : κ) (s : Host κ σ), (ext.call c s).m_callback_queue = s.m_callback_queue) →
        calls = h.m_callback_queue ++ cs) := by
  obtain ⟨calls, hr, hcalls, hfront, hq2, _⟩ :=
    runEvents_calls ext w hw n
      { h with m_callback_queue := h.m_callback_queue ++ cs,
               m_callbacks_outstanding := h.m_callbacks_outstanding || !cs.isEmpty } hn
  refine ⟨calls, submitAll_eq ext cs h hrun, hr, hcalls, hfront, hq2, ?_⟩
  intro hno
  have := hcalls
  rw [appendedBy_nil ext hno, List.append_nil] at this
  exact this

/-- Witness of C2: two submissions behind one queued entry, none appending;
the drain adds 1, 2 and 3 to the counter in this order. -/
theorem C2_submission_order_witness :
    submitAll demoExt [Cmd.bump 2, Cmd.bump 3] (demoHost [Cmd.bump 1] true true false 0)
      = some (demoHost [Cmd.bump 1, Cmd.bump 2, Cmd.bump 3] true true false 0) ∧
    runEvents demoExt 3 (demoHost [Cmd.bump 1, Cmd.bump 2, Cmd.bump 3] true true false 0)
      = some (demoHost [] false true false 6,
          [Event.callback (Cmd.bump 1), Event.callback (Cmd.bump 2),
           Event.callback (Cmd.bump 3)]) ∧
    ∃ calls,
      calls = ([Cmd.bump 1] ++ [Cmd.bump 2, Cmd.bump 3]) ++
        appendedBy demoExt calls
          (demoHost [Cmd.bump 1, Cmd.bump 2, Cmd.bump 3] true true false 0) ∧
      (callAll demoExt calls
        (demoHost [Cmd.bump 1, Cmd.bump 2, Cmd.bump 3] true true false 0)).m_callback_queue
        = [] :=
  ⟨rfl, rfl,
    Exists.imp (fun _ hc => ⟨hc.2.2.1, hc.2.2.2.2.1⟩)
      (C2_submission_order demoExt Cmd.appends demoExt_appends
        (demoHost [Cmd.bump 1] true true false 0) rfl [Cmd.bump 2, Cmd.bump 3] 3 (by decide))⟩

theorem Polite.keeps_empty {g : Host κ σ → Host κ σ} (hg : Polite g) (s : Host κ σ)
    (hout : (g s).m_callbacks_outstanding = false) (hq : s.m_callback_queue = []) :
    (g s).m_callback_queue = [] := by
  obtain ⟨⟨extra, hx, hset⟩, _⟩ := hg s
  by_cases he : extra = []
  · rw [hx, hq, he]; rfl
  · have := hset he
    rw [hout] at this
    cases this

theorem Polite.was_clear {g : Host κ σ → Host κ σ} (hg : Polite g) (s : Host κ σ)
    (hout : (g s).m_callbacks_outstanding = false) : s.m_callbacks_outstanding = false := by
  cases hs : s.m_callbacks_outstanding with
  | false => rfl
  | true =>
    have := (hg s).2 hs
    rw [hout] at this
    cases this

theorem pendingInv_step (ext : Externals κ σ) (hpol : PoliteExt ext) (f : κ) (a : Action κ)
    (w : World κ σ) (hinv : PendingInv w) : PendingInv (step ext f a w) := by
  obtain ⟨host, mutex, caller, loop, finished, pushed⟩ := w
  unfold PendingInv at hinv ⊢
  cases a with
  | caller =>
    cases caller with
    | lock =>
      cases mutex with
      | none => intro hout; simp [step, stepCaller] at hout
      | some t => exact hinv
    | test =>
      cases ho : host.m_callbacks_outstanding with
      | false =>
        intro _
        have := hinv ho
        simpa [step, stepCaller, ho, World.midDrain] using this
      | true =>
        intro hout
        simp [step, stepCaller, ho] at hout
    | relock =>
      cases mutex with
      | none => exact hinv
      | some t => exact hinv
    | returned => exact hinv
  | loop =>
    cases loop with
    | lock =>
      cases mutex with
      | none =>
        intro hout
        have := hinv hout
        exact ⟨this.1, rfl⟩
      | some t => exact hinv
    | queueTest =>
      cases hq : host.m_callback_queue with
      | nil =>
        intro hout
        have hout2 : host.m_callbacks_outstanding = false := by
          simpa [step, stepLoop, hq] using hout
        simp [step, stepLoop, hq, World.midDrain]
      | cons c rest =>
        intro hout
        have hout2 : host.m_callbacks_outstanding = false := by
          simpa [step, stepLoop, hq] using hout
        have := (hinv hout2).1
        simp [hq] at this
    | callback c =>
      intro hout
      have hout2 : (ext.call c host).m_callbacks_outstanding = false := by
        simpa [step, stepLoop] using hout
      have := (hinv ((hpol.1 c).was_clear host hout2)).2
      simp [World.midDrain] at this
    | relock =>
      cases mutex with
      | none =>
        intro hout
        have := (hinv hout).2
        simp [World.midDrain] at this
      | some t => exact hinv
    | whileTest =>
      cases hq : host.m_callback_queue with
      | nil =>
        intro _
        simp [step, stepLoop, hq, World.midDrain]
      | cons c rest =>
        intro hout
        have hout2 : host.m_callbacks_outstanding = false := by
          simpa [step, stepLoop, hq] using hout
        have := (hinv hout2).2
        simp [World.midDrain] at this
    | stopTest =>
      intro hout
      have hout2 : host.m_callbacks_outstanding = false := by
        revert hout
        simp only [step, stepLoop]
        split
        · exact id
        · split <;> exact id
      have := (hinv hout2).1
      simp only [step, stepLoop]
      split
      · exact ⟨this, rfl⟩
      · split <;> exact ⟨this, rfl⟩
    | waiting =>
      cases mutex with
      | none =>
        intro hout
        exact ⟨(hinv hout).1, rfl⟩
      | some t => exact hinv
    | frame =>
      intro hout
      have hout2 : (frameWork ext host).m_callbacks_outstanding = false := hout
      have h0 := hinv (hpol.2.was_clear host hout2)
      exact ⟨hpol.2.keeps_empty host hout2 h0.1, rfl⟩
    | returned => exact hinv
  | push c =>
    cases mutex with
    | none => intro hout; simp [step] at hout
    | some t => exact hinv
  | inline c =>
    intro hout
    have hout2 : (ext.call c host).m_callbacks_outstanding = false := hout
    have h0 := hinv ((hpol.1 c).was_clear host hout2)
    exact ⟨(hpol.1 c).keeps_empty host hout2 h0.1, h0.2⟩
  | stop =>
    cases mutex with
    | none => exact hinv
    | some t => exact hinv

theorem Polite.appends {g : Host κ σ → Host κ σ} (hg : Polite g) (s : Host κ σ) :
    ∃ extra, (g s).m_callback_queue = s.m_callback_queue ++ extra := by
  obtain ⟨⟨extra, hx, _⟩, _⟩ := hg s
  exact ⟨extra, hx⟩

theorem demoExt_frameWork (h : Host Cmd Nat) : frameWork demoExt h = h := by
  unfold frameWork render simulate
  cases hr : demoExt.IsRunning h.sys <;> cases ht : h.m_throttler_enabled <;>
    cases hv : h.m_vibration_enabled <;> simp [demoExt, hr, ht, hv] <;>
    simp_all [demoExt]

theorem demoExt_polite : PoliteExt demoExt := by
  refine ⟨?_, ?_⟩
  · intro c s
    cases c with
    | bump n => exact ⟨⟨[], by simp [demoExt, Cmd.body], fun h => absurd rfl h⟩, fun h => h⟩
    | submit n =>
      cases hr : s.m_emulation_thread_running with
      | false =>
        exact ⟨⟨[], by simp [demoExt, Cmd.body, IsEmulationThreadRunning, hr],
          fun h => absurd rfl h⟩,
          fun h => by simpa [demoExt, Cmd.body, IsEmulationThreadRunning, hr] using h⟩
      | true =>
        exact ⟨⟨[Cmd.bump n], by simp [demoExt, Cmd.body, IsEmulationThreadRunning, hr],
          fun _ => by simp [demoExt, Cmd.body, IsEmulationThreadRunning, hr]⟩,
          fun _ => by simp [demoExt, Cmd.body, IsEmulationThreadRunning, hr]⟩
  · intro s
    rw [demoExt_frameWork]
    exact ⟨⟨[], by simp, fun h => absurd rfl h⟩, fun h => h⟩

/-- The outer loop entered with a stop request set: one drain, then the return. -/
theorem frameLoop_stop_drains (ext : Externals κ σ) (w : κ → Nat)
    (hw : AppendsWithin ext w) (hk : KeepsStopRequest ext) (h : Host κ σ)
    (hstop : h.m_emulation_thread_stop_request = true)
    (hp : h.m_callback_queue = [] → h.m_callbacks_outstanding = false)
    (n : Nat) (hn : budget w h.m_callback_queue ≤ n) :
    ∃ h2 extra,
      frameLoop ext (n + 2) h = some (h2, (h.m_callback_queue ++ extra).map Event.callback) ∧
      extra.length ≤ (h.m_callback_queue.map w).sum ∧
      h2.m_callback_queue = [] ∧ h2.m_callbacks_outstanding = false ∧
      h2.m_emulation_thread_running = false ∧
      h2.m_emulation_thread_stop_request = false := by
  obtain ⟨h1, extra, hr, hq1, hlen, hout, hsame⟩ := runEvents_spec ext w hw n h hn
  have hs1 : h1.m_emulation_thread_stop_request = true := by
    by_cases hq : h.m_callback_queue = []
    · rw [hsame hq]; exact hstop
    · have hf : h.m_callback_queue.isEmpty = false := by
        cases hc : h.m_callback_queue with
        | nil => exact absurd hc hq
        | cons a l => rfl
      have hr2 := hr
      unfold runEvents at hr2
      rw [hf] at hr2
      simp only [Bool.not_false, if_true] at hr2
      cases ha : runCallbacks ext n h with
      | none => rw [ha] at hr2; simp at hr2
      | some a =>
        rw [ha] at hr2
        simp only [Option.map_some'] at hr2
        have := runCallbacks_stop ext hk n h a ha hstop
        have h1eq : h1 = { a.1 with m_callbacks_outstanding := false } :=
          (congrArg Prod.fst (Option.some.inj hr2)).symm
        rw [h1eq]
        exact this
  have hout1 : h1.m_callbacks_outstanding = false := by
    by_cases hq : h.m_callback_queue = []
    · rw [hsame hq]; exact hp hq
    · exact hout hq
  have hev := eventLoop_stop ext n h h1 _ hr hs1
  have hfl := frameLoop_returned ext (n + 1) h _ _ hev
  exact ⟨_, extra, hfl, hlen, hq1, hout1, rfl, rfl⟩

/-- C4 (stop drains then exits). Take the loop at the start of a drain with a
stop request set and the functions `c1..cn` in the queue, the queued functions
appending within their budgets and none of them clearing the stop request.
Then the loop returns, in its first iteration. It has made the calls `calls`
and nothing else: `c1..cn` in order and after them every entry that these
calls appended, each called when it was the front entry of the queue. The host
on return is the one these calls, made one after the other, leave, with the
pending flag cleared when the queue was not empty and with `running` and the
stop request cleared; its queue is empty, and its pending flag is false (given
that it was clear on an empty queue). The same holds for `EmulationThreadLoop`
entered on such a host, which first stores true to `running` and notifies the
activity. -/
theorem C4_stop_drains_then_exits (ext : Externals κ σ) (w : κ → Nat)
    (hw : AppendsWithin ext w) (hk : KeepsStopRequest ext) (h : Host κ σ)
    (hstop : h.m_emulation_thread_stop_request = true)
    (hp : h.m_callback_queue = [] → h.m_callbacks_outstanding = false)
    (n : Nat) (hn : budget w h.m_callback_queue ≤ n) :
    (∃ calls h2,
      frameLoop ext (n + 2) h = some (h2, calls.map Event.callback) ∧
      h2 = { (if h.m_callback_queue.isEmpty then h
              else { callAll ext calls h with m_callbacks_outstanding := false }) with
             m_emulation_thread_running := false,
             m_emulation_thread_stop_request := false } ∧
      calls = h.m_callback_queue ++ appendedBy ext calls h ∧
      frontOrder ext calls h ∧
      h2.m_callback_queue = [] ∧ h2.m_callbacks_outstanding = false ∧
      h2.m_emulation_thread_running = false ∧
      h2.m_emulation_thread_stop_request = false) ∧
    (∃ calls h2,
      EmulationThreadLoop ext (n + 2) h
        = some (h2, Event.onEmulationStarted :: calls.map Event.callback) ∧
      h2 = { (if h.m_callback_queue.isEmpty then { h with m_emulation_thread_running := true }
              else { callAll ext calls { h with m_emulation_thread_running := true } with
                     m_callbacks_outstanding := false }) with
             m_emulation_thread_running := false,
             m_emulation_thread_stop_request := false } ∧
      calls = h.m_callback_queue
        ++ appendedBy ext calls { h with m_emulation_thread_running := true } ∧
      frontOrder ext calls { h with m_emulation_thread_running := true } ∧
      h2.m_callback_queue = [] ∧ h2.m_callbacks_outstanding = false ∧
      h2.m_emulation_thread_running = false ∧
      h2.m_emulation_thread_stop_request = false) := by
  have main : ∀ g : Host κ σ, g.m_emulation_thread_stop_request = true →
      (g.m_callback_queue = [] → g.m_callbacks_outstanding = false) →
      budget w g.m_callback_queue ≤ n →
      ∃ calls h2,
        frameLoop ext (n + 2) g = some (h2, calls.map Event.callback) ∧
        h2 = { (if g.m_callback_queue.isEmpty then g
                else { callAll ext calls g with m_callbacks_outstanding := false }) with
               m_emulation_thread_running := false,
               m_emulation_thread_stop_request := false } ∧
        calls = g.m_callback_queue ++ appendedBy ext calls g ∧
        frontOrder ext calls g ∧
        h2.m_callback_queue = [] ∧ h2.m_callbacks_outstanding = false ∧
        h2.m_emulation_thread_running = false ∧
        h2.m_emulation_thread_stop_request = false := by
    intro g hgs hgp hgn
    obtain ⟨calls, hfl, hcalls, hfront, hq2, _⟩ := frameLoop_stop_calls ext w hw hk g hgs n hgn
    refine ⟨calls, _, hfl, rfl, hcalls, hfront, ?_, ?_, rfl, rfl⟩
    · cases hemp : g.m_callback_queue.isEmpty
      · simp only [Bool.false_eq_true, if_false]
        exact hq2
      · simp only [if_true]
        exact List.isEmpty_iff.mp hemp
    · cases hemp : g.m_callback_queue.isEmpty
      · simp only [Bool.false_eq_true, if_false]
      · simp only [if_true]
        exact hgp (List.isEmpty_iff.mp hemp)
  refine ⟨main h hstop hp hn, ?_⟩
  obtain ⟨calls, h2, hfl, hh2, hcalls, hfront, hq, ho, hr, hs⟩ :=
    main { h with m_emulation_thread_running := true } hstop hp hn
  refine ⟨calls, h2, ?_, hh2, hcalls, hfront, hq, ho, hr, hs⟩
  unfold EmulationThreadLoop
  rw [hfl]
  rfl

theorem demoExt_keepsStop : KeepsStopRequest demoExt := by
  intro c h hs
  cases c with
  | bump n => exact hs
  | submit n =>
    cases hr : h.m_emulation_thread_running with
    | false => simpa [demoExt, Cmd.body, IsEmulationThreadRunning, hr] using hs
    | true => simpa [demoExt, Cmd.body, IsEmulationThreadRunning, hr] using hs

/-- Witness of C4: a stop request with two queued functions, the first of
which submits a third; the loop returns after the three calls, the counter
raised by 1 and by 4. -/
theorem C4_stop_drains_then_exits_witness :
    frameLoop demoExt (3 + 2) (demoHost [Cmd.submit 4, Cmd.bump 1] true true true 0)
      = some (demoHost [] false false false 5,
          [Event.callback (Cmd.submit 4), Event.callback (Cmd.bump 1),
           Event.callback (Cmd.bump 4)]) ∧
    ∃ calls h2,
      frameLoop demoExt (3 + 2) (demoHost [Cmd.submit 4, Cmd.bump 1] true true true 0)
        = some (h2, calls.map Event.callback) ∧
      calls = [Cmd.submit 4, Cmd.bump 1]
        ++ appendedBy demoExt calls (demoHost [Cmd.submit 4, Cmd.bump 1] true true true 0) ∧
      h2.m_callback_queue = [] ∧ h2.m_callbacks_outstanding = false :=
  ⟨rfl,
    Exists.imp (fun _ hc => Exists.imp (fun _ hd => ⟨hd.1, hd.2.2.1, hd.2.2.2.2.1,
        hd.2.2.2.2.2.1⟩) hc)
      (C4_stop_drains_then_exits demoExt Cmd.appends demoExt_appends demoExt_keepsStop
        (demoHost [Cmd.submit 4, Cmd.bump 1] true true true 0) rfl (fun hq => by cases hq) 3
        (by decide)).1⟩

/-- C5. When the drain has ended and the loop then reads the stop request as
set, the inner loop takes the `return`: `running` and the stop request are
stored false, and the events of the whole run of the loop, for any number of
rounds that lets it finish, are those of the drain, which are calls of queued
functions only: no simulation step, vibration update, rendering or throttle.
Nothing is assumed of `System::IsPaused()`. -/
theorem C5_stop_check_returns (ext : Externals κ σ) (n : Nat) (h h1 : Host κ σ)
    (tr : List (Event κ)) (hd : runEvents ext n h = some (h1, tr))
    (hs : h1.m_emulation_thread_stop_request = true) :
    eventLoop ext (n + 1) h = some (LoopExit.returned,
      { h1 with m_emulation_thread_running := false, m_emulation_thread_stop_request := false },
      tr) ∧
    frameLoop ext (n + 2) h = some
      ({ h1 with m_emulation_thread_running := false, m_emulation_thread_stop_request := false },
       tr) ∧
    (∀ (m : Nat) (r : Host κ σ × List (Event κ)), frameLoop ext m h = some r →
      r = ({ h1 with m_emulation_thread_running := false,
                     m_emulation_thread_stop_request := false }, tr)) ∧
    tr.all Event.isCallback = true ∧
    tr.all (fun e => !e.isFrameWork) = true := by
  have hev := eventLoop_stop ext n h h1 tr hd hs
  have hfl := frameLoop_returned ext (n + 1) h _ _ hev
  have hcb := runEvents_callbacks ext n h (h1, tr) hd
  refine ⟨hev, hfl, fun m r hm => frameLoop_unique ext m (n + 2) h r _ hm hfl, hcb, ?_⟩
  rw [List.all_eq_true] at hcb ⊢
  intro e he
  simp [Event.not_frameWork_of_callback e (hcb e he)]

/-- Witness of C5: a paused system (counter zero) with a stop request. -/
theorem C5_stop_check_returns_witness :
    demoExt.IsPaused (demoHost [] false true true 0).sys = true ∧
    eventLoop demoExt (1 + 1) (demoHost [Cmd.bump 0] true true true 0)
      = some (LoopExit.returned, demoHost [] false false false 0,
          [Event.callback (Cmd.bump 0)]) :=
  ⟨rfl, (C5_stop_check_returns demoExt 1 (demoHost [Cmd.bump 0] true true true 0)
    (demoHost [] false true true 0) [Event.callback (Cmd.bump 0)] rfl rfl).1⟩

/-- C6. While the emulation thread is running, `RunOnEmulationThread(f, false)`
returns, whatever the number of spin rounds allowed: `f` is at the back of the
queue behind the unchanged earlier entries, `m_callbacks_outstanding` is true,
every other field (among them `running` and the stop request) is as before,
and the only event of the call is the `notify_one`: `f` has not been called
(the bodies of the queued functions are not involved in the result). The
calling thread is no input of the function; called on the emulation thread,
from the body of a function `c` that the drain is running, the submission
leaves `f` behind the rest of the queue and the drain goes on from there. -/
theorem C6_nonblocking_submit (ext : Externals κ σ) (fuel : Nat) (f : κ) (h : Host κ σ)
    (hrun : h.m_emulation_thread_running = true) :
    RunOnEmulationThread ext fuel f false h
      = some ({ h with m_callback_queue := h.m_callback_queue ++ [f],
                       m_callbacks_outstanding := true }, [Event.notify_one]) ∧
    (∀ (c : κ) (rest : List κ) (n : Nat), h.m_callback_queue = c :: rest →
      (∀ s : Host κ σ, s.m_emulation_thread_running = true →
        RunOnEmulationThread ext fuel f false s = some (ext.call c s, [Event.notify_one])) →
      runCallbacks ext (n + 1) h
        = (runCallbacks ext n { h with m_callback_queue := rest ++ [f],
                                       m_callbacks_outstanding := true }).map
            (fun r => (r.1, Event.callback c :: r.2))) := by
  have key : ∀ s : Host κ σ, s.m_emulation_thread_running = true →
      RunOnEmulationThread ext fuel f false s
        = some ({ s with m_callback_queue := s.m_callback_queue ++ [f],
                         m_callbacks_outstanding := true }, [Event.notify_one]) := by
    intro s hs
    unfold RunOnEmulationThread IsEmulationThreadRunning
    rw [hs]
    rfl
  refine ⟨key h hrun, ?_⟩
  intro c rest n hq hbody
  have hb := hbody { h with m_callback_queue := rest } hrun
  rw [key { h with m_callback_queue := rest } hrun] at hb
  have hc : ext.call c { h with m_callback_queue := rest }
      = { h with m_callback_queue := rest ++ [f], m_callbacks_outstanding := true } :=
    (congrArg Prod.fst (Option.some.inj hb)).symm
  have hne : (ext.call c { h with m_callback_queue := rest }).m_callback_queue ≠ [] := by
    rw [hc]; simp
  rw [runCallbacks_more ext n h c rest hq hne, hc]

/-- Witness of C6: a running host with one queued entry and a stop request. -/
theorem C6_nonblocking_submit_witness :
    RunOnEmulationThread demoExt 0 (Cmd.bump 7) false (demoHost [Cmd.bump 1] true true true 3)
      = some (demoHost [Cmd.bump 1, Cmd.bump 7] true true true 3, [Event.notify_one]) :=
  (C6_nonblocking_submit demoExt 0 (Cmd.bump 7) (demoHost [Cmd.bump 1] true true true 3) rfl).1

/-- C8 (pause gate). When the drain has ended, the stop request reads false
and `System::IsPaused()` holds, the loop waits on the condition variable right
after the calls of the drain, with no frame work before the wait, and on
waking it runs the inner loop again from the drain on the host as the other
threads left it: drain, stop check, pause check. No run of the inner loop
contains frame work, so no simulation step and no `Render` comes before the
stop and pause checks have been passed again; every finished run of the whole
loop from such a state starts with the calls of the drain and the wait. -/
theorem C8_pause_gate (ext : Externals κ σ) (n : Nat) (h h1 : Host κ σ)
    (tr : List (Event κ)) (hd : runEvents ext n h = some (h1, tr))
    (hs : h1.m_emulation_thread_stop_request = false) (hp : ext.IsPaused h1.sys = true) :
    eventLoop ext (n + 1) h = (eventLoop ext n (ext.others h1)).map
      (fun r => (r.1, r.2.1, tr ++ Event.cv_wait :: r.2.2)) ∧
    tr.all Event.isCallback = true ∧
    (∀ (m : Nat) (r : LoopExit × Host κ σ × List (Event κ)),
      eventLoop ext m (ext.others h1) = some r →
        r.2.2.all (fun e => !e.isFrameWork) = true) ∧
    (∀ (m : Nat) (r : Host κ σ × List (Event κ)), frameLoop ext m h = some r →
      ∃ rest, r.2 = tr ++ Event.cv_wait :: rest) := by
  refine ⟨eventLoop_wait ext n h h1 tr hd hs hp, runEvents_callbacks ext n h (h1, tr) hd,
    fun m r hm => eventLoop_no_frameWork ext m _ r hm, ?_⟩
  intro m r hm
  cases m with
  | zero => simp [frameLoop] at hm
  | succ m =>
    cases m with
    | zero =>
      have : eventLoop ext 0 h = none := rfl
      rw [frameLoop_none ext 0 h this] at hm
      simp at hm
    | succ m =>
      cases hb : runEvents ext m h with
      | none =>
        rw [frameLoop_none ext (m + 1) h (eventLoop_none ext m h hb)] at hm
        simp at hm
      | some b =>
        have hbe := runEvents_unique ext m n h b (h1, tr) hb hd
        subst hbe
        have hw := eventLoop_wait ext m h h1 tr hb hs hp
        cases hx : eventLoop ext m (ext.others h1) with
        | none =>
          rw [hx] at hw
          rw [frameLoop_none ext (m + 1) h hw] at hm
          simp at hm
        | some x =>
          rw [hx] at hw
          simp only [Option.map_some'] at hw
          obtain ⟨e, h2, tr2⟩ := x
          cases e with
          | returned =>
            rw [frameLoop_returned ext (m + 1) h _ _ hw] at hm
            rw [← Option.some.inj hm]
            exact ⟨tr2, rfl⟩
          | runFrame =>
            rw [frameLoop_runFrame ext (m + 1) h _ _ hw] at hm
            cases hy : frameLoop ext (m + 1) (render ext (simulate ext h2).1).1 with
            | none => rw [hy] at hm; simp at hm
            | some y =>
              rw [hy] at hm
              simp only [Option.map_some'] at hm
              rw [← Option.some.inj hm]
              exact ⟨tr2 ++ (simulate ext h2).2 ++ (render ext (simulate ext h2).1).2 ++ y.2,
                by simp⟩

/-- Witness of C8: the other threads resume the system during the wait. -/
theorem C8_pause_gate_witness :
    eventLoop resumeExt (1 + 1) (demoHost [Cmd.bump 0] true true false 0)
      = some (LoopExit.runFrame, demoHost [] false true false 1,
          [Event.callback (Cmd.bump 0), Event.cv_wait]) :=
  (C8_pause_gate resumeExt 1 (demoHost [Cmd.bump 0] true true false 0)
    (demoHost [] false true false 0) [Event.callback (Cmd.bump 0)] rfl rfl rfl).1.trans rfl

/-- The body of the example function `submit n` is the non-blocking
submission of `bump n`. -/
theorem Cmd_submit_body (n : Nat) (s : Host Cmd Nat) :
    (RunOnEmulationThread demoExt 0 (Cmd.bump n) false s).map Prod.fst
      = some (demoExt.call (Cmd.submit n) s) := by
  cases hr : s.m_emulation_thread_running <;>
    simp [RunOnEmulationThread, IsEmulationThreadRunning, hr, demoExt, Cmd.body]

/-- Counterexample to C7 as stated: the drain finds `submit 4` in the queue,
whose body submits `bump 4` without blocking from the emulation thread; the
same drain pass calls `bump 4` (the counter is 4 when the drain ends). -/
theorem C7_counterexample :
    runEvents demoExt 2 (demoHost [Cmd.submit 4] true true false 0)
      = some (demoHost [] false true false 4,
          [Event.callback (Cmd.submit 4), Event.callback (Cmd.bump 4)]) := by
  rfl

theorem runCallbacks_again (ext : Externals κ σ) (c : κ)
    (hbody : ∀ s : Host κ σ, s.m_emulation_thread_running = true →
      RunOnEmulationThread ext 0 c false s = some (ext.call c s, [Event.notify_one])) :
    ∀ (n : Nat) (h : Host κ σ), h.m_emulation_thread_running = true →
      h.m_callback_queue = [c] → runCallbacks ext n h = none := by
  intro n
  induction n with
  | zero => intro h _ _; rfl
  | succ n ih =>
    intro h hrun hq
    have hb := hbody { h with m_callback_queue := [] } hrun
    have key : RunOnEmulationThread ext 0 c false { h with m_callback_queue := [] }
        = some ({ h with m_callback_queue := [c], m_callbacks_outstanding := true },
            [Event.notify_one]) := by
      unfold RunOnEmulationThread IsEmulationThreadRunning
      rw [hrun]
      rfl
    rw [key] at hb
    have hc : ext.call c { h with m_callback_queue := [] }
        = { h with m_callback_queue := [c], m_callbacks_outstanding := true } :=
      (congrArg Prod.fst (Option.some.inj hb)).symm
    have hne : (ext.call c { h with m_callback_queue := [] }).m_callback_queue ≠ [] := by
      rw [hc]; simp
    rw [runCallbacks_more ext n h c [] hq hne, hc,
      ih { h with m_callback_queue := [c], m_callbacks_outstanding := true } hrun rfl]
    rfl

/-- C7 as amended. On the running emulation thread, let the drain find `c` at
the front of the queue, the body of `c` being `RunOnEmulationThread(d, false)`.
The submission does not call `d`; it appends `d` at the back, and the same
drain pass calls `d` after `c` and after every entry that was queued behind
`c`, before the drain ends (with calls that append within their budgets the
drain does end, with the queue empty). A function that submits itself on
every call, alone in the queue, is called again in the same pass without end:
that drain returns for no number of rounds. -/
theorem C7_self_submission_same_pass (ext : Externals κ σ) (c : κ) (h : Host κ σ)
    (hrun : h.m_emulation_thread_running = true) :
    (∀ (w : κ → Nat) (d : κ) (rest : List κ) (n : Nat), AppendsWithin ext w →
      h.m_callback_queue = c :: rest →
      (∀ s : Host κ σ, s.m_emulation_thread_running = true →
        RunOnEmulationThread ext 0 d false s = some (ext.call c s, [Event.notify_one])) →
      budget w h.m_callback_queue ≤ n →
      ∃ h2 extra, runEvents ext n h
          = some (h2, (c :: rest ++ d :: extra).map Event.callback) ∧
        h2.m_callback_queue = [] ∧ h2.m_callbacks_outstanding = false) ∧
    (h.m_callback_queue = [c] →
      (∀ s : Host κ σ, s.m_emulation_thread_running = true →
        RunOnEmulationThread ext 0 c false s = some (ext.call c s, [Event.notify_one])) →
      ∀ n : Nat, runEvents ext n h = none) := by
  constructor
  · intro w d rest n hw hq hbody hn
    have hne0 : h.m_callback_queue ≠ [] := by rw [hq]; simp
    have hf : h.m_callback_queue.isEmpty = false := by rw [hq]; rfl
    have hc : ext.call c { h with m_callback_queue := rest }
        = { h with m_callback_queue := rest ++ [d], m_callbacks_outstanding := true } :=
      ((submit_from_callback ext 0 d h hrun).2 c rest hbody)
    have hne : (ext.call c { h with m_callback_queue := rest }).m_callback_queue ≠ [] := by
      rw [hc]; simp
    obtain ⟨extra1, hx0, hbx⟩ := hw c { h with m_callback_queue := rest }
    have hx : rest ++ [d] = rest ++ extra1 := by rw [hc] at hx0; exact hx0
    have hx1 : extra1 = [d] := (List.append_cancel_left hx).symm
    rw [hx1] at hbx
    rw [hq, budget_cons] at hn
    cases n with
    | zero => omega
    | succ n =>
      obtain ⟨h2, extra, hr, hq2, _⟩ := runCallbacks_spec ext w hw n
        { h with m_callback_queue := rest ++ [d], m_callbacks_outstanding := true }
        (by simp) (by simp only [budget_append]; omega)
      refine ⟨{ h2 with m_callbacks_outstanding := false }, extra, ?_, hq2, rfl⟩
      unfold runEvents
      rw [hf, runCallbacks_more ext n h c rest hq hne, hc, hr]
      simp
  · intro hq hbody n
    unfold runEvents
    rw [runCallbacks_again ext c hbody n h hrun hq]
    simp [hq]

theorem demoExt_submit_body (n : Nat) (s : Host Cmd Nat)
    (hs : s.m_emulation_thread_running = true) :
    RunOnEmulationThread demoExt 0 (Cmd.bump n) false s
      = some (demoExt.call (Cmd.submit n) s, [Event.notify_one]) := by
  simp [RunOnEmulationThread, IsEmulationThreadRunning, hs, demoExt, Cmd.body]

theorem againExt_body (c : Cmd) (s : Host Cmd Nat)
    (hs : s.m_emulation_thread_running = true) :
    RunOnEmulationThread againExt 0 c false s
      = some (againExt.call c s, [Event.notify_one]) := by
  simp [RunOnEmulationThread, IsEmulationThreadRunning, hs, againExt]

/-- Witness of C7 as amended: `submit 4` ahead of `bump 1`, and a function
that submits itself again. -/
theorem C7_self_submission_same_pass_witness :
    (∃ h2 extra, runEvents demoExt 3 (demoHost [Cmd.submit 4, Cmd.bump 1] true true false 0)
        = some (h2, (Cmd.submit 4 :: [Cmd.bump 1] ++ Cmd.bump 4 :: extra).map Event.callback) ∧
      h2.m_callback_queue = [] ∧ h2.m_callbacks_outstanding = false) ∧
    runEvents againExt 1000 (demoHost [Cmd.bump 0] true true false 0) = none :=
  ⟨(C7_self_submission_same_pass demoExt (Cmd.submit 4)
      (demoHost [Cmd.submit 4, Cmd.bump 1] true true false 0) rfl).1
      Cmd.appends (Cmd.bump 4) [Cmd.bump 1] 3 demoExt_appends rfl (demoExt_submit_body 4)
      (by decide),
   (C7_self_submission_same_pass againExt (Cmd.bump 0)
      (demoHost [Cmd.bump 0] true true false 0) rfl).2 rfl (againExt_body (Cmd.bump 0)) 1000⟩

theorem Timer.elapsed_of_le (t last : Nat) (h1 : last ≤ t) (h2 : t < 2 ^ 64) :
    Timer.elapsed t last = t - last := by
  unfold Timer.elapsed
  have : t + 2 ^ 64 - last = (t - last) + 2 ^ 64 := by omega
  rw [this, Nat.add_mod_right]
  exact Nat.mod_eq_of_lt (by omega)

/-- Less than the value of `0.1f` in seconds, in ticks. -/
theorem Timer.lt_float_iff (tps d : Nat) (htps : 0 < tps) :
    Timer.ConvertValueToSeconds tps d < float_0_1 ↔ 134217728 * d < 13421773 * tps := by
  unfold Timer.ConvertValueToSeconds float_0_1
  have hpos : (0 : ℚ) < (tps : ℚ) := by exact_mod_cast htps
  rw [div_lt_div_iff₀ hpos (by norm_num)]
  constructor
  · intro h
    have h2 : ((d * 134217728 : Nat) : ℚ) < ((13421773 * tps : Nat) : ℚ) := by
      push_cast; linarith
    have := Nat.cast_lt.mp h2
    omega
  · intro h
    have h2 : d * 134217728 < 13421773 * tps := by omega
    have : ((d * 134217728 : Nat) : ℚ) < ((13421773 * tps : Nat) : ℚ) := Nat.cast_lt.mpr h2
    push_cast at this
    linarith

/-- What `SetVibration` does, by the test of lines 802-803 in ticks. -/
theorem SetVibration_eq {α : Type} (tps t : Nat) (enabled : Bool) (v : VibrationState α)
    (htps : 0 < tps) (hmono : v.m_last_vibration_update_time ≤ t) (ht : t < 2 ^ 64) :
    (enabled = v.m_last_vibration_state ∧
        134217728 * (t - v.m_last_vibration_update_time) < 13421773 * tps →
      SetVibration tps t enabled v = v) ∧
    (¬ (enabled = v.m_last_vibration_state ∧
        134217728 * (t - v.m_last_vibration_update_time) < 13421773 * tps) →
      SetVibration tps t enabled v =
        { m_last_vibration_state := enabled,
          m_last_vibration_update_time := t,
          m_emulation_activity_object := v.m_emulation_activity_object,
          host_calls := v.host_calls ++
            (match v.m_emulation_activity_object with
             | some activity => [HostCall.setVibration activity enabled]
             | none => []) }) := by
  have hcond : (Timer.ConvertValueToSeconds tps
        (Timer.elapsed t v.m_last_vibration_update_time) < float_0_1 ∧
      v.m_last_vibration_state = enabled) ↔
      (enabled = v.m_last_vibration_state ∧
        134217728 * (t - v.m_last_vibration_update_time) < 13421773 * tps) := by
    rw [Timer.elapsed_of_le t _ hmono ht, Timer.lt_float_iff tps _ htps]
    constructor
    · rintro ⟨h1, h2⟩; exact ⟨h2.symm, h1⟩
    · rintro ⟨h1, h2⟩; exact ⟨h2, h1.symm⟩
  constructor
  · intro hc
    unfold SetVibration
    rw [if_pos (hcond.mpr hc)]
  · intro hn
    unfold SetVibration
    rw [if_neg (fun hc => hn (hcond.mp hc))]
    cases ha : v.m_emulation_activity_object with
    | none => simp [ha]
    | some a => simp [ha]

/-- C9 as stated fails at an elapsed time of exactly 100 ms. With a timer of
1000 ticks to the second, the value true stored at tick 0 and `SetVibration(true)`
called at tick 100, the elapsed 0.1 s is less than the value of `0.1f`, so line
804 returns: the state is as before and no host call is made, although the
elapsed time is not less than 100 ms. -/
theorem C9_counterexample :
    SetVibration 1000 100 true (demoVibration true 0) = demoVibration true 0 ∧
    (SetVibration 1000 100 true (demoVibration true 0)).host_calls = [] ∧
    ¬ (1000 * (100 - (demoVibration true 0).m_last_vibration_update_time) < 100 * 1000) ∧
    Timer.ConvertValueToSeconds 1000 (Timer.elapsed 100 0) = 1 / 10 ∧
    (1 / 10 : ℚ) < float_0_1 := by
  have h := (SetVibration_eq 1000 100 true (demoVibration true 0) (by decide) (by decide)
    (by norm_num)).1 ⟨rfl, by decide⟩
  refine ⟨h, by rw [h]; rfl, by decide, ?_, ?_⟩
  · unfold Timer.ConvertValueToSeconds Timer.elapsed
    norm_num
  · unfold float_0_1
    norm_num

/-- C9 as amended. With a timer of positive frequency and `t` not before the
stored timestamp, `SetVibration(enabled)` at time `t` leaves the state as it
is, with no host call, exactly when `enabled` is the stored last value and the
seconds elapsed since the stored timestamp are less than the value of `0.1f`,
`13421773 / 2 ^ 27`; in every other case it stores `enabled` and `t` and, when
an emulation activity is attached, makes the one host call
`setVibration(enabled)` on it (none when no activity is attached). The bound
lies between 100 ms and 101 ms: with the stored value, a call up to and
including 100 ms after the timestamp changes nothing, and a call 101 ms or
more after it stores and notifies. -/
theorem C9_set_vibration (α : Type) (tps t : Nat) (enabled : Bool) (v : VibrationState α)
    (htps : 0 < tps) (hmono : v.m_last_vibration_update_time ≤ t) (ht : t < 2 ^ 64) :
    (SetVibration tps t enabled v = v ↔
      (enabled = v.m_last_vibration_state ∧
        134217728 * (t - v.m_last_vibration_update_time) < 13421773 * tps)) ∧
    (¬ (enabled = v.m_last_vibration_state ∧
        134217728 * (t - v.m_last_vibration_update_time) < 13421773 * tps) →
      SetVibration tps t enabled v =
        { m_last_vibration_state := enabled,
          m_last_vibration_update_time := t,
          m_emulation_activity_object := v.m_emulation_activity_object,
          host_calls := v.host_calls ++
            (match v.m_emulation_activity_object with
             | some activity => [HostCall.setVibration activity enabled]
             | none => []) }) ∧
    (Timer.ConvertValueToSeconds tps (Timer.elapsed t v.m_last_vibration_update_time)
        < float_0_1 ↔
      134217728 * (t - v.m_last_vibration_update_time) < 13421773 * tps) ∧
    (enabled = v.m_last_vibration_state →
      1000 * (t - v.m_last_vibration_update_time) ≤ 100 * tps →
        SetVibration tps t enabled v = v) ∧
    (101 * tps ≤ 1000 * (t - v.m_last_vibration_update_time) →
      SetVibration tps t enabled v ≠ v ∧
      (SetVibration tps t enabled v).m_last_vibration_update_time = t) := by
  obtain ⟨hsame, hother⟩ := SetVibration_eq tps t enabled v htps hmono ht
  have hiff : SetVibration tps t enabled v = v ↔
      (enabled = v.m_last_vibration_state ∧
        134217728 * (t - v.m_last_vibration_update_time) < 13421773 * tps) := by
    constructor
    · intro heq
      by_contra hn
      have h2 := hother hn
      rw [heq] at h2
      have hs : v.m_last_vibration_state = enabled := by rw [h2]
      have htime : v.m_last_vibration_update_time = t := by rw [h2]
      apply hn
      refine ⟨hs.symm, ?_⟩
      rw [htime]
      simp only [Nat.sub_self, Nat.mul_zero]
      omega
    · exact hsame
  refine ⟨hiff, hother, ?_, ?_, ?_⟩
  · rw [Timer.elapsed_of_le t _ hmono ht, Timer.lt_float_iff tps _ htps]
  · intro he hle
    exact hsame ⟨he, by omega⟩
  · intro hge
    have hn : ¬ (enabled = v.m_last_vibration_state ∧
        134217728 * (t - v.m_last_vibration_update_time) < 13421773 * tps) := by
      rintro ⟨_, hlt⟩
      omega
    refine ⟨fun heq => hn (hiff.mp heq), ?_⟩
    rw [hother hn]

/-- Witness of C9 as amended: a millisecond timer, the same value again after
100 ms (no call) and after 250 ms (one call). -/
theorem C9_set_vibration_witness :
    SetVibration 1000 100 true (demoVibration true 0) = demoVibration true 0 ∧
    SetVibration 1000 250 true (demoVibration true 0) =
      { m_last_vibration_state := true,
        m_last_vibration_update_time := 250,
        m_emulation_activity_object := some 7,
        host_calls := [HostCall.setVibration 7 true] } :=
  ⟨(C9_set_vibration Nat 1000 100 true (demoVibration true 0) (by decide) (by decide)
      (by norm_num)).1.mpr ⟨rfl, by decide⟩,
   (C9_set_vibration Nat 1000 250 true (demoVibration true 0) (by decide) (by decide)
      (by norm_num)).2.1 (by decide)⟩

/-- C10 as stated fails for two calls exactly 100 ms apart. With a timer of
1000 ticks to the second and the value false stored, `SetVibration(true)` at
tick 100 makes its host call, and `SetVibration(true)` at tick 200 returns at
line 804, the elapsed 0.1 s being less than the value of `0.1f`: one host call
in total, although the calls are 100 ms apart. -/
theorem C10_counterexample :
    (SetVibration 1000 100 true (demoVibration false 0)).host_calls
      = [HostCall.setVibration 7 true] ∧
    (SetVibration 1000 200 true (SetVibration 1000 100 true (demoVibration false 0))).host_calls
      = [HostCall.setVibration 7 true] ∧
    100 * 1000 ≤ 1000 * (200 - 100) := by
  have h1 : SetVibration 1000 100 true (demoVibration false 0)
      = { m_last_vibration_state := true,
          m_last_vibration_update_time := 100,
          m_emulation_activity_object := some 7,
          host_calls := [HostCall.setVibration 7 true] } :=
    (SetVibration_eq 1000 100 true (demoVibration false 0) (by decide) (by decide)
      (by norm_num)).2 (by decide)
  have h2 := (SetVibration_eq 1000 200 true
    ({ m_last_vibration_state := true,
       m_last_vibration_update_time := 100,
       m_emulation_activity_object := some 7,
       host_calls := [HostCall.setVibration 7 true] } : VibrationState Nat)
    (by decide) (by decide) (by norm_num)).1 ⟨rfl, by decide⟩
  refine ⟨by rw [h1], ?_, by decide⟩
  rw [h1, h2]

/-- C10 as amended (vibration debounce). With an emulation activity attached,
let `SetVibration(true)` be called at `t1` and again at `t2`, `t1 ≤ t2`, the
first call making its host call. Then the two calls together make exactly one
host call when the seconds from `t1` to `t2` are less than the value of
`0.1f`, `13421773 / 2 ^ 27`, and exactly two otherwise; so one when `t2` is up
to and including 100 ms after `t1`, and two when it is 101 ms or more after
`t1`. -/
theorem C10_vibration_debounce (α : Type) (tps t1 t2 : Nat) (activity : α)
    (v : VibrationState α) (htps : 0 < tps) (h12 : t1 ≤ t2) (ht : t2 < 2 ^ 64)
    (hact : v.m_emulation_activity_object = some activity)
    (hfirst : (SetVibration tps t1 true v).host_calls
      = v.host_calls ++ [HostCall.setVibration activity true]) :
    (134217728 * (t2 - t1) < 13421773 * tps →
      (SetVibration tps t2 true (SetVibration tps t1 true v)).host_calls
        = v.host_calls ++ [HostCall.setVibration activity true]) ∧
    (13421773 * tps ≤ 134217728 * (t2 - t1) →
      (SetVibration tps t2 true (SetVibration tps t1 true v)).host_calls
        = v.host_calls ++ [HostCall.setVibration activity true,
            HostCall.setVibration activity true]) ∧
    (Timer.ConvertValueToSeconds tps (Timer.elapsed t2 t1) < float_0_1 ↔
      134217728 * (t2 - t1) < 13421773 * tps) ∧
    (1000 * (t2 - t1) ≤ 100 * tps →
      (SetVibration tps t2 true (SetVibration tps t1 true v)).host_calls
        = v.host_calls ++ [HostCall.setVibration activity true]) ∧
    (101 * tps ≤ 1000 * (t2 - t1) →
      (SetVibration tps t2 true (SetVibration tps t1 true v)).host_calls
        = v.host_calls ++ [HostCall.setVibration activity true,
            HostCall.setVibration activity true]) := by
  -- the first call was not the early return, so it stored `true` and `t1`
  have hv1 : SetVibration tps t1 true v =
      { m_last_vibration_state := true,
        m_last_vibration_update_time := t1,
        m_emulation_activity_object := some activity,
        host_calls := v.host_calls ++ [HostCall.setVibration activity true] } := by
    unfold SetVibration at hfirst ⊢
    by_cases hc : Timer.ConvertValueToSeconds tps
        (Timer.elapsed t1 v.m_last_vibration_update_time) < float_0_1 ∧
        v.m_last_vibration_state = true
    · rw [if_pos hc] at hfirst
      have := congrArg List.length hfirst
      simp at this
    · rw [if_neg hc]
      simp [hact]
  rw [hv1]
  have hel : Timer.elapsed t2 t1 = t2 - t1 := Timer.elapsed_of_le t2 t1 h12 ht
  have hone : 134217728 * (t2 - t1) < 13421773 * tps →
      (SetVibration tps t2 true
        ({ m_last_vibration_state := true,
           m_last_vibration_update_time := t1,
           m_emulation_activity_object := some activity,
           host_calls := v.host_calls ++ [HostCall.setVibration activity true] } :
          VibrationState α)).host_calls
        = v.host_calls ++ [HostCall.setVibration activity true] := by
    intro hlt
    unfold SetVibration
    rw [if_pos ⟨by rw [hel]; exact (Timer.lt_float_iff tps _ htps).mpr hlt, rfl⟩]
  have htwo : 13421773 * tps ≤ 134217728 * (t2 - t1) →
      (SetVibration tps t2 true
        ({ m_last_vibration_state := true,
           m_last_vibration_update_time := t1,
           m_emulation_activity_object := some activity,
           host_calls := v.host_calls ++ [HostCall.setVibration activity true] } :
          VibrationState α)).host_calls
        = v.host_calls ++ [HostCall.setVibration activity true,
            HostCall.setVibration activity true] := by
    intro hge
    unfold SetVibration
    have hno : ¬ (Timer.ConvertValueToSeconds tps (Timer.elapsed t2 t1) < float_0_1 ∧
        true = true) := by
      intro hc
      have hc1 := hc.1
      rw [hel] at hc1
      have := (Timer.lt_float_iff tps _ htps).mp hc1
      omega
    rw [if_neg hno]
    simp
  refine ⟨hone, htwo, ?_, fun hle => hone (by omega), fun hge => htwo (by omega)⟩
  rw [hel, Timer.lt_float_iff tps _ htps]

/-- Witness of C10 as amended: calls 100 ms apart and 250 ms apart, after a
first call that changes the value. -/
theorem C10_vibration_debounce_witness :
    (SetVibration 1000 200 true (SetVibration 1000 100 true (demoVibration false 0))).host_calls
      = [HostCall.setVibration 7 true] ∧
    (SetVibration 1000 350 true (SetVibration 1000 100 true (demoVibration false 0))).host_calls
      = [HostCall.setVibration 7 true, HostCall.setVibration 7 true] :=
  ⟨(C10_vibration_debounce Nat 1000 100 200 7 (demoVibration false 0) (by decide) (by decide)
      (by norm_num) rfl (by simp [SetVibration, demoVibration])).1 (by decide),
   (C10_vibration_debounce Nat 1000 100 350 7 (demoVibration false 0) (by decide) (by decide)
      (by norm_num) rfl (by simp [SetVibration, demoVibration])).2.1 (by decide)⟩

theorem motorScan_eq (strengths : List ℚ) (st : Bool) :
    motorScan strengths st
      = (st || strengths.any fun strength => decide (strength ≥ THRESHOLD)) := by
  induction strengths with
  | nil => simp [motorScan]
  | cons s rest ih =>
    unfold motorScan
    by_cases hs : s ≥ THRESHOLD
    · simp [hs]
    · simp [hs, ih]

theorem portScan_fold (controllers : List (Option Controller)) (l : List Nat) (st : Bool) :
    l.foldl
      (fun vibration_state i =>
        match controllers.getD i none with
        | none => vibration_state
        | some controller => motorScan controller.motors vibration_state) st
    = (st || l.any fun i =>
        match controllers.getD i none with
        | none => false
        | some controller =>
          controller.motors.any fun strength => decide (strength ≥ THRESHOLD)) := by
  induction l generalizing st with
  | nil => simp
  | cons i rest ih =>
    rw [List.foldl_cons, ih, List.any_cons]
    cases hc : controllers.getD i none with
    | none => simp only [Bool.false_or]
    | some c => simp only [motorScan_eq, Bool.or_assoc]

theorem portScan_eq (controllers : List (Option Controller)) (ports : Nat) :
    portScan controllers ports = anyMotorReaches controllers ports := by
  unfold portScan anyMotorReaches
  rw [portScan_fold]
  simp

theorem anyMotorReaches_iff (controllers : List (Option Controller)) (ports : Nat) :
    anyMotorReaches controllers ports = true ↔
      ∃ i, i < ports ∧ ∃ controller, controllers.getD i none = some controller ∧
        ∃ strength, strength ∈ controller.motors ∧ strength ≥ THRESHOLD := by
  unfold anyMotorReaches
  rw [List.any_eq_true]
  constructor
  · rintro ⟨i, hi, h⟩
    refine ⟨i, List.mem_range.mp hi, ?_⟩
    cases hc : controllers.getD i none with
    | none => rw [hc] at h; simp at h
    | some c =>
      rw [hc] at h
      simp only [List.any_eq_true, decide_eq_true_eq] at h
      exact ⟨c, rfl, h⟩
  · rintro ⟨i, hi, c, hc, s, hs, hge⟩
    refine ⟨i, List.mem_range.mpr hi, ?_⟩
    rw [hc]
    simp only [List.any_eq_true, decide_eq_true_eq]
    exact ⟨s, hs, hge⟩

/-- Counterexample to C11 as stated: one motor with a strength of exactly 0.5,
which does not exceed the threshold; `UpdateVibration` calls
`SetVibration(true)`. -/
theorem C11_counterexample :
    anyMotorExceeds (demoCore none false SystemState.Running true false).sys.controllers 2
      = false ∧
    (UpdateVibration 1000 500 2 (demoCore none false SystemState.Running true false)).2
      = [Effect.SetVibration true] := by
  constructor
  · simp [anyMotorExceeds, demoCore, THRESHOLD, List.range, List.range.loop]
  · simp [UpdateVibration, portScan_eq, anyMotorReaches, demoCore, THRESHOLD, List.range,
      List.range.loop]

/-- C11 as amended. `UpdateVibration` calls `SetVibration` exactly once, and
does nothing else, with the argument true if and only if at some port below
`NUM_CONTROLLER_AND_CARD_PORTS` a controller is present one of whose vibration
motors has a strength of at least 0.5 (greater than or equal to `THRESHOLD`),
and with false otherwise. -/
theorem C11_update_vibration {κ α : Type} (tps now ports : Nat) (h : Host κ (Core α)) :
    UpdateVibration tps now ports h
      = (h.setVibration tps now (anyMotorReaches h.sys.controllers ports),
          [Effect.SetVibration (anyMotorReaches h.sys.controllers ports)]) ∧
    (anyMotorReaches h.sys.controllers ports = true ↔
      ∃ i, i < ports ∧ ∃ controller, h.sys.controllers.getD i none = some controller ∧
        ∃ strength, strength ∈ controller.motors ∧ strength ≥ THRESHOLD) := by
  refine ⟨?_, anyMotorReaches_iff _ _⟩
  unfold UpdateVibration
  simp only [portScan_eq]

theorem Host.setVibration_surface {κ α : Type} (tps now : Nat) (b : Bool)
    (h : Host κ (Core α)) : (h.setVibration tps now b).sys.m_surface = h.sys.m_surface := rfl

theorem OnSystemPaused_surface {κ α : Type} (col : Collaborators κ α)
    (hs : ∀ b h, (col.CommonOnSystemPaused b h).sys.m_surface = h.sys.m_surface)
    (tps now : Nat) (paused : Bool) (h : Host κ (Core α)) :
    (OnSystemPaused col tps now paused h).1.sys.m_surface = h.sys.m_surface := by
  unfold OnSystemPaused
  cases hv : (col.CommonOnSystemPaused paused h).m_vibration_enabled
  · simp only [hv, Bool.false_eq_true, if_false]
    exact hs paused h
  · simp only [hv, if_true]
    exact hs paused h

theorem PauseSystem_surface {κ α : Type} (col : Collaborators κ α)
    (hs : ∀ b h, (col.CommonOnSystemPaused b h).sys.m_surface = h.sys.m_surface)
    (tps now : Nat) (paused : Bool) (h : Host κ (Core α)) :
    (PauseSystem col tps now paused h).1.sys.m_surface = h.sys.m_surface := by
  unfold PauseSystem
  cases paused <;> cases hsys : h.sys.system <;> simp only [] <;>
    first
    | rfl
    | exact OnSystemPaused_surface col hs tps now _ _

theorem SurfaceChanged_surface {κ α : Type} (col : Collaborators κ α)
    (hs : ∀ b h, (col.CommonOnSystemPaused b h).sys.m_surface = h.sys.m_surface)
    (tps now : Nat) (surface : Option Nat) (format width height : Int) (h : Host κ (Core α)) :
    (SurfaceChanged col tps now surface format width height h).1.sys.m_surface = surface := by
  unfold SurfaceChanged
  by_cases he : h.sys.m_surface = surface
  · rw [if_pos he]
    cases h.sys.m_display <;> exact he
  · rw [if_neg he]
    simp only []
    split
    · split
      · exact PauseSystem_surface col hs tps now false _
      · split
        · exact PauseSystem_surface col hs tps now true _
        · rfl
    · rfl

theorem SurfaceChanged_same {κ α : Type} (col : Collaborators κ α) (tps now : Nat)
    (surface : Option Nat) (format width height : Int) (h : Host κ (Core α))
    (he : h.sys.m_surface = surface) :
    SurfaceChanged col tps now surface format width height h
      = (h, if h.sys.m_display then [Effect.ResizeRenderWindow width height] else []) := by
  unfold SurfaceChanged
  rw [if_pos he]
  cases h.sys.m_display <;> rfl

/-- C12 (surface resize vs. replace). With a base-class pause notification
that does not write `m_surface`: after `SurfaceChanged(h, format, w, ht)` the
held handle is `h`, for every host (with or without display) and every handle,
none included. A following `SurfaceChanged` with the same handle, whatever its
format and dimensions, leaves the whole host as it is, the held handle with
it, and its only effect is one `ResizeRenderWindow(w, ht)` call when a display
exists and nothing when none exists: no `ChangeRenderWindow`, no
`PauseSystem`. -/
theorem C12_surface_resize {κ α : Type} (col : Collaborators κ α)
    (hs : ∀ b h, (col.CommonOnSystemPaused b h).sys.m_surface = h.sys.m_surface)
    (tps now now2 : Nat) (surface : Option Nat) (format width height format2 w ht : Int)
    (h : Host κ (Core α)) :
    (SurfaceChanged col tps now surface format width height h).1.sys.m_surface = surface ∧
    SurfaceChanged col tps now2 surface format2 w ht
        (SurfaceChanged col tps now surface format width height h).1
      = ((SurfaceChanged col tps now surface format width height h).1,
          if (SurfaceChanged col tps now surface format width height h).1.sys.m_display
          then [Effect.ResizeRenderWindow w ht] else []) ∧
    ((SurfaceChanged col tps now2 surface format2 w ht
        (SurfaceChanged col tps now surface format width height h).1).2.all
      (fun e => !e.isChangeRenderWindow && !e.isPauseSystem)) = true := by
  have h1 := SurfaceChanged_surface col hs tps now surface format width height h
  have h2 := SurfaceChanged_same col tps now2 surface format2 w ht _ h1
  refine ⟨h1, h2, ?_⟩
  rw [h2]
  cases (SurfaceChanged col tps now surface format width height h).1.sys.m_display <;> rfl

/-- Witness of C12: a surface supplied to a paused system with a display, and
the same surface again with other dimensions. -/
theorem C12_surface_resize_witness :
    (SurfaceChanged demoCol 1000 500 (some 3) 1 640 480
        (demoCore none true SystemState.Paused true false)).1.sys.m_surface = some 3 ∧
    SurfaceChanged demoCol 1000 900 (some 3) 1 800 600
        (SurfaceChanged demoCol 1000 500 (some 3) 1 640 480
          (demoCore none true SystemState.Paused true false)).1
      = ((SurfaceChanged demoCol 1000 500 (some 3) 1 640 480
          (demoCore none true SystemState.Paused true false)).1,
          if (SurfaceChanged demoCol 1000 500 (some 3) 1 640 480
            (demoCore none true SystemState.Paused true false)).1.sys.m_display
          then [Effect.ResizeRenderWindow 800 600] else []) ∧
    ((SurfaceChanged demoCol 1000 900 (some 3) 1 800 600
        (SurfaceChanged demoCol 1000 500 (some 3) 1 640 480
          (demoCore none true SystemState.Paused true false)).1).2.all
      (fun e => !e.isChangeRenderWindow && !e.isPauseSystem)) = true :=
  C12_surface_resize demoCol (fun _ _ => rfl) 1000 500 900 (some 3) 1 640 480 1 800 600
    (demoCore none true SystemState.Paused true false)

/-- Counterexample to C13 as stated: no surface is held and a first surface is
supplied; the flag `block` is true and the entry point submits its command
blocking. -/
theorem C13_counterexample :
    surfaceChanged_block (some 3) none = true ∧
    AndroidHostInterface_surfaceChanged idleExt demoCol 5 Closure.SurfaceChanged (some 3) 1
        640 480 (demoCore none false SystemState.Shutdown true false)
      = RunOnEmulationThread idleExt 5 (Closure.SurfaceChanged (some 3) 1 640 480) true
          (demoCore none false SystemState.Shutdown true false) := by
  constructor <;> rfl

/-- C13 as amended. The entry point `surfaceChanged` submits its command through
`RunOnEmulationThread` with the flag `block`, which is false, the submission
non-blocking, exactly when the new native handle is not none and equals the
held handle (a resize). It is blocking when the surface is being destroyed
(new handle none), when it is replaced by a different non-none handle, and also
when a first surface is supplied (held handle none, new handle non-none). -/
theorem C13_surface_changed_blocking {κ α : Type} (ext : Externals κ (Core α))
    (col : Collaborators κ α) (fuel : Nat) (closure : Option Nat → Int → Int → Int → κ)
    (surface : Option Nat) (format width height : Int) (h : Host κ (Core α)) :
    AndroidHostInterface_surfaceChanged ext col fuel closure surface format width height h
      = RunOnEmulationThread ext fuel
          (closure (surface.bind col.ANativeWindow_fromSurface) format width height)
          (surfaceChanged_block (surface.bind col.ANativeWindow_fromSurface) h.sys.m_surface)
          h ∧
    (∀ native_surface held : Option Nat,
      surfaceChanged_block native_surface held = false ↔
        (native_surface ≠ none ∧ native_surface = held)) ∧
    (∀ held : Option Nat, surfaceChanged_block none held = true) ∧
    (∀ (n : Nat) (held : Option Nat), held ≠ some n →
      surfaceChanged_block (some n) held = true) ∧
    (∀ n : Nat, surfaceChanged_block (some n) none = true) := by
  refine ⟨?_, ?_, ?_, ?_, ?_⟩
  · unfold AndroidHostInterface_surfaceChanged
    cases surface <;> rfl
  · intro native_surface held
    unfold surfaceChanged_block
    cases native_surface with
    | none => simp
    | some n =>
      cases held with
      | none => simp
      | some m => simp
  · intro held
    rfl
  · intro n held hne
    unfold surfaceChanged_block
    cases held with
    | none => simp
    | some m =>
      have : n ≠ m := fun e => hne (by rw [e])
      simp [this]
  · intro n
    rfl

/-- Witness of C13 as amended: a different handle blocks, the held one does not. -/
theorem C13_surface_changed_blocking_witness :
    surfaceChanged_block (some 3) (some 4) = true ∧
    (surfaceChanged_block (some 3) (some 3) = false ↔
      ((some 3 : Option Nat) ≠ none ∧ (some 3 : Option Nat) = some 3)) :=
  ⟨(C13_surface_changed_blocking idleExt demoCol 0 Closure.SurfaceChanged none 0 0 0
      (demoCore none false SystemState.Shutdown true false)).2.2.2.1 3 (some 4) (by decide),
   (C13_surface_changed_blocking idleExt demoCol 0 Closure.SurfaceChanged none 0 0 0
      (demoCore none false SystemState.Shutdown true false)).2.1 (some 3) (some 3)⟩

theorem OnSystemPaused_enabled {κ α : Type} (col : Collaborators κ α) (tps now : Nat)
    (paused : Bool) (h : Host κ (Core α))
    (hv : (col.CommonOnSystemPaused paused h).m_vibration_enabled = true) :
    OnSystemPaused col tps now paused h
      = ((col.CommonOnSystemPaused paused h).setVibration tps now false,
          [Effect.CommonOnSystemPaused paused, Effect.SetVibration false]) := by
  unfold OnSystemPaused
  simp only [hv, if_true]

theorem OnSystemPaused_disabled {κ α : Type} (col : Collaborators κ α) (tps now : Nat)
    (paused : Bool) (h : Host κ (Core α))
    (hv : (col.CommonOnSystemPaused paused h).m_vibration_enabled = false) :
    OnSystemPaused col tps now paused h
      = (col.CommonOnSystemPaused paused h, [Effect.CommonOnSystemPaused paused]) := by
  unfold OnSystemPaused
  simp only [hv, Bool.false_eq_true, if_false]

theorem OnSystemPaused_effects {κ α : Type} (col : Collaborators κ α) (tps now : Nat)
    (paused : Bool) (h : Host κ (Core α)) :
    (OnSystemPaused col tps now paused h).2.all
      (fun e => !e.isChangeRenderWindow && !e.isPauseSystem) = true := by
  cases hv : (col.CommonOnSystemPaused paused h).m_vibration_enabled
  · rw [OnSystemPaused_disabled col tps now paused h hv]; rfl
  · rw [OnSystemPaused_enabled col tps now paused h hv]; rfl

theorem PauseSystem_effects {κ α : Type} (col : Collaborators κ α) (tps now : Nat)
    (paused : Bool) (h : Host κ (Core α)) :
    (PauseSystem col tps now paused h).2.all
      (fun e => !e.isChangeRenderWindow && !e.isPauseSystem) = true := by
  unfold PauseSystem
  cases paused <;> cases hsys : h.sys.system <;> simp only [] <;>
    first
    | rfl
    | exact OnSystemPaused_effects col tps now _ _

theorem filter_nil_of_all_not {β : Type} (p : β → Bool) (l : List β)
    (h : l.all (fun e => !p e) = true) : l.filter p = [] := by
  rw [List.filter_eq_nil_iff]
  intro e he
  have := List.all_eq_true.mp h e he
  simpa using this

theorem PauseSystem_no_change {κ α : Type} (col : Collaborators κ α) (tps now : Nat)
    (paused : Bool) (h : Host κ (Core α)) :
    (PauseSystem col tps now paused h).2.filter Effect.isChangeRenderWindow = [] := by
  apply filter_nil_of_all_not
  have := PauseSystem_effects col tps now paused h
  rw [List.all_eq_true] at this ⊢
  intro e he
  have := this e he
  simp only [Bool.and_eq_true] at this
  exact this.1

/-- C14. Let `SurfaceChanged` receive a handle different from the held one.
With a display: it stores the new handle (the base-class pause notification
not writing `m_surface`) and calls `ChangeRenderWindow` exactly once, first of
all, with the window type Android for a handle that is not none and
Surfaceless for none, the handle, the width and the height; then, for a handle
that is not none and a paused system, it calls `PauseSystem(false)`; for the
handle none and a running system, it calls `PauseSystem(true)`; otherwise it
does nothing more. Without a display only the held handle changes and nothing
is called. -/
theorem C14_surface_replace {κ α : Type} (col : Collaborators κ α)
    (hs : ∀ b h, (col.CommonOnSystemPaused b h).sys.m_surface = h.sys.m_surface)
    (tps now : Nat) (surface : Option Nat) (format width height : Int) (h : Host κ (Core α))
    (hne : h.sys.m_surface ≠ surface) :
    (SurfaceChanged col tps now surface format width height h).1.sys.m_surface = surface ∧
    (h.sys.m_display = false →
      SurfaceChanged col tps now surface format width height h
        = ({ h with sys := { h.sys with m_surface := surface } }, [])) ∧
    (h.sys.m_display = true →
      ((SurfaceChanged col tps now surface format width height h).2.filter
          Effect.isChangeRenderWindow
        = [Effect.ChangeRenderWindow
            { type := if surface.isSome then WindowInfoType.Android
                      else WindowInfoType.Surfaceless
              window_handle := surface
              surface_width := width
              surface_height := height }]) ∧
      (surface ≠ none → h.sys.system = SystemState.Paused →
        SurfaceChanged col tps now surface format width height h
          = ((PauseSystem col tps now false
                { h with sys := { h.sys with m_surface := surface } }).1,
              Effect.ChangeRenderWindow
                { type := WindowInfoType.Android, window_handle := surface,
                  surface_width := width, surface_height := height } ::
              Effect.PauseSystem false ::
              (PauseSystem col tps now false
                { h with sys := { h.sys with m_surface := surface } }).2)) ∧
      (surface = none → h.sys.system = SystemState.Running →
        SurfaceChanged col tps now surface format width height h
          = ((PauseSystem col tps now true
                { h with sys := { h.sys with m_surface := none } }).1,
              Effect.ChangeRenderWindow
                { type := WindowInfoType.Surfaceless, window_handle := none,
                  surface_width := width, surface_height := height } ::
              Effect.PauseSystem true ::
              (PauseSystem col tps now true
                { h with sys := { h.sys with m_surface := none } }).2)) ∧
      (¬ (surface ≠ none ∧ h.sys.system = SystemState.Paused) →
        ¬ (surface = none ∧ h.sys.system = SystemState.Running) →
        SurfaceChanged col tps now surface format width height h
          = ({ h with sys := { h.sys with m_surface := surface } },
              [Effect.ChangeRenderWindow
                { type := if surface.isSome then WindowInfoType.Android
                          else WindowInfoType.Surfaceless
                  window_handle := surface
                  surface_width := width
                  surface_height := height }]))) := by
  refine ⟨SurfaceChanged_surface col hs tps now surface format width height h, ?_, ?_⟩
  · intro hd
    unfold SurfaceChanged
    rw [if_neg hne]
    simp [hd]
  · intro hd
    refine ⟨?_, ?_, ?_, ?_⟩
    · unfold SurfaceChanged
      rw [if_neg hne]
      simp only [hd, if_true]
      split
      · simp only [List.filter_cons, Effect.isChangeRenderWindow, if_true,
          Bool.false_eq_true, if_false]
        rw [PauseSystem_no_change]
      · split
        · simp only [List.filter_cons, Effect.isChangeRenderWindow, if_true,
            Bool.false_eq_true, if_false]
          rw [PauseSystem_no_change]
        · rfl
    · intro hsome hp
      unfold SurfaceChanged
      rw [if_neg hne]
      cases surface with
      | none => exact absurd rfl hsome
      | some n => simp [hd, hp]
    · intro hnone hr
      subst hnone
      unfold SurfaceChanged
      rw [if_neg hne]
      simp [hd, hr, SystemState.IsRunning]
    · intro h1 h2
      unfold SurfaceChanged
      rw [if_neg hne]
      cases surface with
      | none =>
        have hr : h.sys.system ≠ SystemState.Running := fun e => h2 ⟨rfl, e⟩
        cases hsys : h.sys.system <;> simp_all [SystemState.IsRunning]
      | some n =>
        have hp : h.sys.system ≠ SystemState.Paused := fun e => h1 ⟨by simp, e⟩
        cases hsys : h.sys.system <;> simp_all

/-- Witness of C14: a first surface for a paused system with a display. -/
theorem C14_surface_replace_witness :
    (SurfaceChanged demoCol 1000 500 (some 3) 1 640 480
        (demoCore none true SystemState.Paused true false)).1.sys.system
      = SystemState.Running ∧
    SurfaceChanged demoCol 1000 500 (some 3) 1 640 480
        (demoCore none true SystemState.Paused true false)
      = ((PauseSystem demoCol 1000 500 false
            { demoCore none true SystemState.Paused true false with
              sys := { (demoCore none true SystemState.Paused true false).sys with
                m_surface := some 3 } }).1,
          Effect.ChangeRenderWindow
            { type := WindowInfoType.Android, window_handle := some 3,
              surface_width := 640, surface_height := 480 } ::
          Effect.PauseSystem false ::
          (PauseSystem demoCol 1000 500 false
            { demoCore none true SystemState.Paused true false with
              sys := { (demoCore none true SystemState.Paused true false).sys with
                m_surface := some 3 } }).2) :=
  ⟨rfl,
   ((C14_surface_replace demoCol (fun _ _ => rfl) 1000 500 (some 3) 1 640 480
      (demoCore none true SystemState.Paused true false) (by decide)).2.2 rfl).2.1
      (by decide) rfl⟩

/-- C15 (renderer-swap rejection). Let `ApplySettings` reach line 760 with a
system loaded (`System::IsValid()`) and the reloaded settings asking for a
renderer other than the one in effect before the call, and let
`CheckForSettingsChanges` not write `g_settings`. Then after the call
`g_settings.gpu_renderer` has its value from before the call, and
`ApplySettings` itself has emitted exactly one on-screen message, the one of
line 762 naming the renderer asked for. When the reloaded settings ask for the
renderer in effect before the call, `ApplySettings` itself emits no on-screen
message (and the renderer is still that one). Both hold for either value of
`display_osd_messages`; what the collaborators show on screen is theirs and
is not recorded. -/
theorem C15_renderer_swap_rejected {κ α : Type} (col : Collaborators κ α)
    (display_osd_messages : Bool) (h : Host κ (Core α))
    (hcheck : ∀ old s, (col.CheckForSettingsChanges old s).sys.g_settings = s.sys.g_settings) :
    (((col.UpdateInputMap (col.FixIncompatibleSettings display_osd_messages
          (col.ApplyGameSettings display_osd_messages
            (col.LoadAndConvertSettings h)))).sys.system.IsValid = true ∧
      (col.UpdateInputMap (col.FixIncompatibleSettings display_osd_messages
          (col.ApplyGameSettings display_osd_messages
            (col.LoadAndConvertSettings h)))).sys.g_settings.gpu_renderer
        ≠ h.sys.g_settings.gpu_renderer) →
      (ApplySettings col display_osd_messages h).1.sys.g_settings.gpu_renderer
          = h.sys.g_settings.gpu_renderer ∧
        (ApplySettings col display_osd_messages h).2.filter Effect.isOSDMessage
          = [Effect.AddFormattedOSDMessage
              (col.UpdateInputMap (col.FixIncompatibleSettings display_osd_messages
                (col.ApplyGameSettings display_osd_messages
                  (col.LoadAndConvertSettings h)))).sys.g_settings.gpu_renderer]) ∧
    ((col.UpdateInputMap (col.FixIncompatibleSettings display_osd_messages
          (col.ApplyGameSettings display_osd_messages
            (col.LoadAndConvertSettings h)))).sys.g_settings.gpu_renderer
        = h.sys.g_settings.gpu_renderer →
      (ApplySettings col display_osd_messages h).1.sys.g_settings.gpu_renderer
          = h.sys.g_settings.gpu_renderer ∧
        (ApplySettings col display_osd_messages h).2.filter Effect.isOSDMessage = []) := by
  constructor
  · rintro ⟨hv, hd⟩
    unfold ApplySettings
    simp only [hv, Bool.true_and, bne_iff_ne, ne_eq, hd, not_false_eq_true, if_true, hcheck]
    exact ⟨trivial, rfl⟩
  · intro he
    unfold ApplySettings
    simp only [he, bne_self_eq_false, Bool.and_false, Bool.false_eq_true, if_false, hcheck]
    exact ⟨trivial, rfl⟩

/-- Witness of C15: a running system on OpenGL, the settings store asking for
Vulkan. -/
theorem C15_renderer_swap_rejected_witness :
    (ApplySettings vulkanCol false
        (demoCore (some 3) true SystemState.Running true false)).1.sys.g_settings.gpu_renderer
      = GPURenderer.HardwareOpenGL ∧
    (ApplySettings vulkanCol false
        (demoCore (some 3) true SystemState.Running true false)).2.filter Effect.isOSDMessage
      = [Effect.AddFormattedOSDMessage GPURenderer.HardwareVulkan] :=
  (C15_renderer_swap_rejected vulkanCol false
    (demoCore (some 3) true SystemState.Running true false) (fun _ _ => rfl)).1
    ⟨rfl, by decide⟩

theorem ApplySettings_keeps {κ α β : Type} (col : Collaborators κ α)
    (part : Host κ (Core α) → β) (hk : col.Keeps part)
    (hsys : ∀ (h : Host κ (Core α)) (g : Settings),
      part { h with sys := { h.sys with g_settings := g } } = part h)
    (b : Bool) (h : Host κ (Core α)) : part (ApplySettings col b h).1 = part h := by
  obtain ⟨_, hl, ha, hf, hu, hc, _⟩ := hk
  unfold ApplySettings
  simp only []
  split
  · rw [hc, hsys, hu, hf, ha, hl]
  · rw [hc, hu, hf, ha, hl]

theorem bootOrResume_keeps {κ α β : Type} (col : Collaborators κ α)
    (part : Host κ (Core α) → β) (hk : col.Keeps part)
    (boot_params : SystemBootParameters) (resume_state : Bool) (h : Host κ (Core α)) :
    part (bootOrResume col boot_params resume_state h).2.1 = part h := by
  obtain ⟨_, _, _, _, _, _, hb, hm, hr, _⟩ := hk
  unfold bootOrResume
  cases resume_state
  · exact hb _ _
  · cases boot_params.filename.isEmpty
    · exact hr _ _ _
    · exact hm _

theorem ReportError_keeps {κ α β : Type} (col : Collaborators κ α)
    (part : Host κ (Core α) → β) (hk : col.Keeps part) (h : Host κ (Core α)) :
    part (ReportError col h).1 = part h := by
  obtain ⟨_, _, _, _, _, _, _, _, _, _, _, he⟩ := hk
  exact he h

theorem ApplySettings_effects {κ α : Type} (col : Collaborators κ α) (b : Bool)
    (h : Host κ (Core α)) :
    (ApplySettings col b h).2.all
      (fun e => !e.isRunBranch && !e.isBoot && !e.isReportError && !e.isStopped) = true := by
  unfold ApplySettings
  simp only []
  split <;> rfl

theorem bootOrResume_effects {κ α : Type} (col : Collaborators κ α)
    (boot_params : SystemBootParameters) (resume_state : Bool) (h : Host κ (Core α)) :
    (bootOrResume col boot_params resume_state h).2.2.all
      (fun e => !e.isRunBranch && !e.isReportError && !e.isStopped) = true := by
  unfold bootOrResume
  cases resume_state
  · rfl
  · cases boot_params.filename.isEmpty <;> rfl

/-- The entry point without a surface: one notification, on the stored
reference, and the return. -/
theorem entry_no_surface {κ α : Type} (ext : Externals κ (Core α)) (col : Collaborators κ α)
    (fuel this_thread : Nat) (emulation_activity : Option α)
    (boot_params : SystemBootParameters) (resume_state : Bool) (h : Host κ (Core α))
    (hs : h.sys.m_surface = none) :
    EmulationThreadEntryPoint ext col fuel this_thread emulation_activity boot_params
        resume_state h
      = some (h, [Effect.onEmulationStopped h.sys.vibration.m_emulation_activity_object]) := by
  unfold EmulationThreadEntryPoint
  simp [hs]

/-- The entry point with a surface and a failed boot, in full. -/
theorem entry_boot_failed {κ α : Type} (ext : Externals κ (Core α)) (col : Collaborators κ α)
    (fuel this_thread : Nat) (emulation_activity : Option α)
    (boot_params : SystemBootParameters) (resume_state : Bool) (h : Host κ (Core α))
    (hs : h.sys.m_surface ≠ none)
    (hb : (entryBooted col this_thread emulation_activity boot_params resume_state h).1
      = false) :
    EmulationThreadEntryPoint ext col fuel this_thread emulation_activity boot_params
        resume_state h
      = some
        ((ReportError col
            (entryBooted col this_thread emulation_activity boot_params resume_state
              h).2.1).1.withActivity none,
          Effect.CreateImGuiContext :: Effect.ApplySettings true ::
            (ApplySettings col true (entryPrepared this_thread emulation_activity h)).2 ++
            (entryBooted col this_thread emulation_activity boot_params resume_state h).2.2 ++
            Effect.ReportFormattedError boot_params.filename ::
            (ReportError col
              (entryBooted col this_thread emulation_activity boot_params resume_state
                h).2.1).2 ++
            [Effect.onEmulationStopped
                (ReportError col
                  (entryBooted col this_thread emulation_activity boot_params resume_state
                    h).2.1).1.sys.vibration.m_emulation_activity_object,
              Effect.DestroyImGuiContext]) := by
  have hs2 : h.sys.m_surface.isNone = false := by
    cases hm : h.sys.m_surface with
    | none => exact absurd hm hs
    | some n => rfl
  unfold entryBooted entryPrepared at hb
  unfold EmulationThreadEntryPoint
  simp only [hs2, Bool.false_eq_true, if_false, hb]
  simp [entryBooted, entryPrepared, Host.withActivity, ReportFormattedError]

theorem entry_boot_failed_effects {κ α : Type} (col : Collaborators κ α)
    (this_thread : Nat) (emulation_activity : Option α) (boot_params : SystemBootParameters)
    (resume_state : Bool) (h : Host κ (Core α)) :
    (Effect.CreateImGuiContext :: Effect.ApplySettings true ::
        (ApplySettings col true (entryPrepared this_thread emulation_activity h)).2 ++
        (entryBooted col this_thread emulation_activity boot_params resume_state h).2.2 ++
        Effect.ReportFormattedError boot_params.filename ::
        (ReportError col
          (entryBooted col this_thread emulation_activity boot_params resume_state
            h).2.1).2 ++
        [Effect.onEmulationStopped
            (ReportError col
              (entryBooted col this_thread emulation_activity boot_params resume_state
                h).2.1).1.sys.vibration.m_emulation_activity_object,
          Effect.DestroyImGuiContext]).all (fun e => !e.isRunBranch) = true := by
  have ha : (ApplySettings col true (entryPrepared this_thread emulation_activity h)).2.all
      (fun e => !e.isRunBranch) = true := by
    have := ApplySettings_effects col true (entryPrepared this_thread emulation_activity h)
    rw [List.all_eq_true] at this ⊢
    intro e he
    have := this e he
    simp only [Bool.and_eq_true] at this
    exact this.1.1.1
  have hb : (entryBooted col this_thread emulation_activity boot_params resume_state
      h).2.2.all (fun e => !e.isRunBranch) = true := by
    have := bootOrResume_effects col boot_params resume_state
      (ApplySettings col true (entryPrepared this_thread emulation_activity h)).1
    rw [List.all_eq_true] at this ⊢
    intro e he
    have := this e he
    simp only [Bool.and_eq_true] at this
    exact this.1.1
  have hr : (ReportError col
      (entryBooted col this_thread emulation_activity boot_params resume_state
        h).2.1).2.all (fun e => !e.isRunBranch) = true := rfl
  simp only [List.all_append, List.all_cons, List.all_nil, ha, hb, hr]
  rfl

/-- C16 (a failed start never enters Running). Without a surface the entry
point returns after the one stopped notification: nothing else is called, no
boot or resume among it, and the host is left as it was. With a surface and a
boot or resume call that returns false, the entry point returns, for every
number of rounds allowed to the loop, and among its effects there is no call
of `EmulationThreadLoop`, no event of the loop, no `SaveResumeSaveState` and
no `PowerOffSystem`; `running` is as it was before the call (the collaborators
not writing it). -/
theorem C16_failed_start {κ α : Type} (ext : Externals κ (Core α)) (col : Collaborators κ α)
    (fuel this_thread : Nat) (emulation_activity : Option α)
    (boot_params : SystemBootParameters) (resume_state : Bool) (h : Host κ (Core α)) :
    (h.sys.m_surface = none →
      EmulationThreadEntryPoint ext col fuel this_thread emulation_activity boot_params
          resume_state h
        = some (h, [Effect.onEmulationStopped h.sys.vibration.m_emulation_activity_object]) ∧
      [Effect.onEmulationStopped (κ := κ) h.sys.vibration.m_emulation_activity_object].all
        (fun e => !e.isRunBranch && !e.isBoot) = true) ∧
    (h.sys.m_surface ≠ none →
      (entryBooted col this_thread emulation_activity boot_params resume_state h).1 = false →
      ∃ hf tr,
        EmulationThreadEntryPoint ext col fuel this_thread emulation_activity boot_params
          resume_state h = some (hf, tr) ∧
        tr.all (fun e => !e.isRunBranch) = true ∧
        (col.Keeps (fun s => s.m_emulation_thread_running) →
          hf.m_emulation_thread_running = h.m_emulation_thread_running)) := by
  constructor
  · intro hs
    exact ⟨entry_no_surface ext col fuel this_thread emulation_activity boot_params
      resume_state h hs, rfl⟩
  · intro hs hb
    refine ⟨_, _, entry_boot_failed ext col fuel this_thread emulation_activity boot_params
      resume_state h hs hb, entry_boot_failed_effects col this_thread emulation_activity
      boot_params resume_state h, ?_⟩
    intro hk
    have h1 := ReportError_keeps col _ hk
      (entryBooted col this_thread emulation_activity boot_params resume_state h).2.1
    have h2 := bootOrResume_keeps col _ hk boot_params resume_state
      (ApplySettings col true (entryPrepared this_thread emulation_activity h)).1
    have h3 := ApplySettings_keeps col _ hk (fun _ _ => rfl) true
      (entryPrepared this_thread emulation_activity h)
    show (ReportError col
      (entryBooted col this_thread emulation_activity boot_params resume_state
        h).2.1).1.m_emulation_thread_running = h.m_emulation_thread_running
    simp only [] at h1 h2 h3
    rw [h1]
    unfold entryBooted
    rw [h2, h3]
    rfl

theorem demoCol_keeps {β : Type} (part : Host Closure (Core Nat) → β) : demoCol.Keeps part :=
  ⟨fun _ _ => rfl, fun _ => rfl, fun _ _ => rfl, fun _ _ => rfl, fun _ => rfl, fun _ _ => rfl,
    fun _ _ => rfl, fun _ => rfl, fun _ _ _ => rfl, fun _ => rfl, fun _ => rfl, fun _ => rfl⟩

/-- Witness of C16: no surface, and a surface with the failing example boot. -/
theorem C16_failed_start_witness :
    EmulationThreadEntryPoint idleExt demoCol 7 1 (some 9) demoBoot false
        (demoCore none false SystemState.Shutdown true false)
      = some (demoCore none false SystemState.Shutdown true false,
          [Effect.onEmulationStopped (some 7)]) ∧
    (∃ hf tr,
      EmulationThreadEntryPoint idleExt demoCol 7 1 (some 9) demoBoot false
          (demoCore (some 3) false SystemState.Shutdown true false) = some (hf, tr) ∧
      tr.all (fun e => !e.isRunBranch) = true ∧
      (demoCol.Keeps (fun s => s.m_emulation_thread_running) →
        hf.m_emulation_thread_running
          = (demoCore (some 3) false SystemState.Shutdown true false).m_emulation_thread_running)) :=
  ⟨((C16_failed_start idleExt demoCol 7 1 (some 9) demoBoot false
      (demoCore none false SystemState.Shutdown true false)).1 rfl).1,
   (C16_failed_start idleExt demoCol 7 1 (some 9) demoBoot false
      (demoCore (some 3) false SystemState.Shutdown true false)).2 (by decide) rfl⟩

/-- C17, the code at the failing input. The entry point is invoked for the
activity 9 with no surface held and no activity reference stored yet (the
reference is assigned only at line 373): the stopped notification of line 368
is made on the stored reference, the null object, and not on the activity
passed to the start request. -/
theorem C17_no_surface_notification :
    EmulationThreadEntryPoint idleExt demoCol 7 1 (some 9) demoBoot false
        ((demoCore none false SystemState.Shutdown true false).withActivity none)
      = some ((demoCore none false SystemState.Shutdown true false).withActivity none,
          [Effect.onEmulationStopped none]) := by
  rfl

theorem ApplySettings_no_report {κ α : Type} (col : Collaborators κ α) (b : Bool)
    (h : Host κ (Core α)) :
    (ApplySettings col b h).2.filter Effect.isReportError = [] ∧
    (ApplySettings col b h).2.filter Effect.isStopped = [] := by
  have := ApplySettings_effects col b h
  rw [List.all_eq_true] at this
  constructor
  · apply filter_nil_of_all_not
    rw [List.all_eq_true]
    intro e he
    have := this e he
    simp only [Bool.and_eq_true] at this
    exact this.1.2
  · apply filter_nil_of_all_not
    rw [List.all_eq_true]
    intro e he
    have := this e he
    simp only [Bool.and_eq_true] at this
    exact this.2

theorem bootOrResume_no_report {κ α : Type} (col : Collaborators κ α)
    (boot_params : SystemBootParameters) (resume_state : Bool) (h : Host κ (Core α)) :
    (bootOrResume col boot_params resume_state h).2.2.filter Effect.isReportError = [] ∧
    (bootOrResume col boot_params resume_state h).2.2.filter Effect.isStopped = [] := by
  have := bootOrResume_effects col boot_params resume_state h
  rw [List.all_eq_true] at this
  constructor
  · apply filter_nil_of_all_not
    rw [List.all_eq_true]
    intro e he
    have := this e he
    simp only [Bool.and_eq_true] at this
    exact this.1.2
  · apply filter_nil_of_all_not
    rw [List.all_eq_true]
    intro e he
    have := this e he
    simp only [Bool.and_eq_true] at this
    exact this.2

/-- The second half of C17, which the code meets: with a surface and a failed
boot, and collaborators that do not write the activity reference, the entry
point makes exactly one error report and exactly one stopped notification, both
on the activity passed to it. -/
theorem entry_boot_failed_reports {κ α : Type} (ext : Externals κ (Core α))
    (col : Collaborators κ α) (fuel this_thread : Nat) (emulation_activity : Option α)
    (boot_params : SystemBootParameters) (resume_state : Bool) (h : Host κ (Core α))
    (hs : h.sys.m_surface ≠ none)
    (hb : (entryBooted col this_thread emulation_activity boot_params resume_state h).1
      = false)
    (hk : col.Keeps (fun s => s.sys.vibration.m_emulation_activity_object)) :
    ∃ hf tr,
      EmulationThreadEntryPoint ext col fuel this_thread emulation_activity boot_params
        resume_state h = some (hf, tr) ∧
      tr.filter Effect.isReportError = [Effect.reportError emulation_activity] ∧
      tr.filter Effect.isStopped = [Effect.onEmulationStopped emulation_activity] := by
  refine ⟨_, _, entry_boot_failed ext col fuel this_thread emulation_activity boot_params
    resume_state h hs hb, ?_, ?_⟩
  all_goals
    have h1 := ReportError_keeps col _ hk
      (entryBooted col this_thread emulation_activity boot_params resume_state h).2.1
    have h2 := bootOrResume_keeps col _ hk boot_params resume_state
      (ApplySettings col true (entryPrepared this_thread emulation_activity h)).1
    have h3 := ApplySettings_keeps col _ hk (fun _ _ => rfl) true
      (entryPrepared this_thread emulation_activity h)
    have hact : (ReportError col
        (entryBooted col this_thread emulation_activity boot_params resume_state
          h).2.1).1.sys.vibration.m_emulation_activity_object = emulation_activity := by
      simp only [] at h1 h2 h3
      rw [h1]
      unfold entryBooted
      rw [h2, h3]
      rfl
    have hact2 : (col.CommonReportError
        (entryBooted col this_thread emulation_activity boot_params resume_state
          h).2.1).sys.vibration.m_emulation_activity_object = emulation_activity := hact
    have ha := ApplySettings_no_report col true
      (entryPrepared this_thread emulation_activity h)
    have hbt := bootOrResume_no_report col boot_params resume_state
      (ApplySettings col true (entryPrepared this_thread emulation_activity h)).1
  · simp only [List.filter_append, List.filter_cons, Effect.isReportError, ha.1,
      Bool.false_eq_true, if_false, List.nil_append, List.filter_nil, ReportError, hact2,
      if_true, List.append_nil]
    unfold entryBooted
    rw [hbt.1]
    rfl
  · simp only [List.filter_append, List.filter_cons, Effect.isStopped, ha.2,
      Bool.false_eq_true, if_false, List.nil_append, List.filter_nil, ReportError, hact2,
      if_true, List.append_nil]
    unfold entryBooted
    rw [hbt.2]
    rfl

theorem vulkanCol_keeps_threadState : vulkanCol.Keeps (fun s => threadState s) :=
  ⟨fun _ _ => rfl, fun _ => rfl, fun _ _ => rfl, fun _ _ => rfl, fun _ => rfl, fun _ _ => rfl,
    fun _ _ => rfl, fun _ => rfl, fun _ _ _ => rfl, fun _ => rfl, fun _ => rfl, fun _ => rfl⟩

theorem vulkanCol_keeps_thread_id : vulkanCol.Keeps (fun s => s.sys.m_emulation_thread_id) :=
  ⟨fun _ _ => rfl, fun _ => rfl, fun _ _ => rfl, fun _ _ => rfl, fun _ => rfl, fun _ _ => rfl,
    fun _ _ => rfl, fun _ => rfl, fun _ _ _ => rfl, fun _ => rfl, fun _ => rfl, fun _ => rfl⟩

/-- Counterexample to C18 as stated: a start request with a surface held, no
thread identity stored and the OpenGL renderer in effect, whose boot fails (the
settings store asks for Vulkan). After the entry point has returned, the
thread identity is that of the thread that ran it and the renderer in effect
is Vulkan. -/
theorem C18_counterexample :
    (entryBooted vulkanCol 1 (some 9) demoBoot false
        ((demoCore (some 3) false SystemState.Shutdown true false).withActivity none)).1
      = false ∧
    ((demoCore (some 3) false SystemState.Shutdown true false).withActivity
        none).sys.m_emulation_thread_id = none ∧
    ((demoCore (some 3) false SystemState.Shutdown true false).withActivity
        none).sys.g_settings.gpu_renderer = GPURenderer.HardwareOpenGL ∧
    (EmulationThreadEntryPoint idleExt vulkanCol 7 1 (some 9) demoBoot false
        ((demoCore (some 3) false SystemState.Shutdown true false).withActivity none)).map
      (fun r => (r.1.sys.m_emulation_thread_id, r.1.sys.g_settings.gpu_renderer))
      = some (some 1, GPURenderer.HardwareVulkan) := by
  refine ⟨rfl, rfl, rfl, rfl⟩

/-- C18 as amended. After `EmulationThreadEntryPoint` has returned because the
boot or resume call returned false, with collaborators that do not write the
thread state or the thread identity: `running`, the stop request and the
command queue are as before the start request, and the emulation-activity
reference is none. The thread identity is the identity of the thread that ran
the entry point, and the settings are the ones that `ApplySettings(true)`, the
boot call and the error report have left: the entry point restores neither. -/
theorem C18_boot_failure_state {κ α : Type} (ext : Externals κ (Core α))
    (col : Collaborators κ α) (fuel this_thread : Nat) (emulation_activity : Option α)
    (boot_params : SystemBootParameters) (resume_state : Bool) (h : Host κ (Core α))
    (hs : h.sys.m_surface ≠ none)
    (hb : (entryBooted col this_thread emulation_activity boot_params resume_state h).1
      = false)
    (hk : col.Keeps (fun s => threadState s))
    (hid : col.Keeps (fun s => s.sys.m_emulation_thread_id)) :
    ∃ hf tr,
      EmulationThreadEntryPoint ext col fuel this_thread emulation_activity boot_params
        resume_state h = some (hf, tr) ∧
      hf.m_emulation_thread_running = h.m_emulation_thread_running ∧
      hf.m_emulation_thread_stop_request = h.m_emulation_thread_stop_request ∧
      hf.m_callback_queue = h.m_callback_queue ∧
      hf.sys.vibration.m_emulation_activity_object = none ∧
      hf.sys.m_emulation_thread_id = some this_thread ∧
      hf.sys.g_settings
        = (ReportError col
            (entryBooted col this_thread emulation_activity boot_params resume_state
              h).2.1).1.sys.g_settings := by
  have key : ∀ {β : Type} (part : Host κ (Core α) → β), col.Keeps part →
      (∀ (s : Host κ (Core α)) (g : Settings),
        part { s with sys := { s.sys with g_settings := g } } = part s) →
      part (ReportError col
        (entryBooted col this_thread emulation_activity boot_params resume_state h).2.1).1
        = part (entryPrepared this_thread emulation_activity h) := by
    intro β part hp hg
    rw [ReportError_keeps col part hp]
    unfold entryBooted
    rw [bootOrResume_keeps col part hp, ApplySettings_keeps col part hp hg]
  have hts := key (fun s => threadState s) hk (fun _ _ => rfl)
  have htid := key (fun s => s.sys.m_emulation_thread_id) hid (fun _ _ => rfl)
  simp only [threadState, entryPrepared, Prod.mk.injEq] at hts
  refine ⟨_, _, entry_boot_failed ext col fuel this_thread emulation_activity boot_params
    resume_state h hs hb, hts.1, hts.2.1, hts.2.2, rfl, htid, rfl⟩

/-- Witness of C18 as amended: the failing boot of the counterexample. -/
theorem C18_boot_failure_state_witness :
    ∃ hf tr,
      EmulationThreadEntryPoint idleExt vulkanCol 7 1 (some 9) demoBoot false
        ((demoCore (some 3) false SystemState.Shutdown true false).withActivity none)
        = some (hf, tr) ∧
      hf.m_emulation_thread_running
        = ((demoCore (some 3) false SystemState.Shutdown true false).withActivity
            none).m_emulation_thread_running ∧
      hf.m_emulation_thread_stop_request
        = ((demoCore (some 3) false SystemState.Shutdown true false).withActivity
            none).m_emulation_thread_stop_request ∧
      hf.m_callback_queue
        = ((demoCore (some 3) false SystemState.Shutdown true false).withActivity
            none).m_callback_queue ∧
      hf.sys.vibration.m_emulation_activity_object = none ∧
      hf.sys.m_emulation_thread_id = some 1 ∧
      hf.sys.g_settings
        = (ReportError vulkanCol
            (entryBooted vulkanCol 1 (some 9) demoBoot false
              ((demoCore (some 3) false SystemState.Shutdown true false).withActivity
                none)).2.1).1.sys.g_settings :=
  C18_boot_failure_state idleExt vulkanCol 7 1 (some 9) demoBoot false
    ((demoCore (some 3) false SystemState.Shutdown true false).withActivity none)
    (by decide) rfl vulkanCol_keeps_threadState vulkanCol_keeps_thread_id

/-- Counterexample to C19 as stated: vibration is disabled in the settings
(`m_vibration_enabled` false) while the last value sent to the activity is
true. `OnSystemPaused(true)` does not call `SetVibration` and no host call is
made, where `SetVibration(false)` under its debounce rule would have made the
host call `setVibration(false)`. -/
theorem C19_counterexample :
    OnSystemPaused demoCol 1000 500 true (demoCore none false SystemState.Paused false true)
      = (demoCore none false SystemState.Paused false true,
          [Effect.CommonOnSystemPaused true]) ∧
    (demoCore none false SystemState.Paused false true).sys.vibration.host_calls = [] ∧
    (SetVibration 1000 500 false
        (demoCore none false SystemState.Paused false true).sys.vibration).host_calls
      = [HostCall.setVibration 7 false] := by
  refine ⟨rfl, rfl, ?_⟩
  simp [SetVibration, demoCore, demoVibration]

/-- C19 as amended. `OnSystemPaused(true)` first runs the base-class
notification. When `m_vibration_enabled` is set, it then calls
`SetVibration(false)`, exactly once, and the vibration members and the host
calls after it are those `SetVibration(false)` produces under its debounce
rule. When `m_vibration_enabled` is not set, it does not call `SetVibration`
and the vibration members and host calls stay as the base-class notification
left them. -/
theorem C19_pause_disables_vibration {κ α : Type} (col : Collaborators κ α) (tps now : Nat)
    (h : Host κ (Core α)) :
    ((col.CommonOnSystemPaused true h).m_vibration_enabled = true →
      (OnSystemPaused col tps now true h).2
          = [Effect.CommonOnSystemPaused true, Effect.SetVibration false] ∧
        (OnSystemPaused col tps now true h).1.sys.vibration
          = SetVibration tps now false (col.CommonOnSystemPaused true h).sys.vibration) ∧
    ((col.CommonOnSystemPaused true h).m_vibration_enabled = false →
      (OnSystemPaused col tps now true h).2 = [Effect.CommonOnSystemPaused true] ∧
        (OnSystemPaused col tps now true h).1 = col.CommonOnSystemPaused true h) := by
  constructor
  · intro hv
    rw [OnSystemPaused_enabled col tps now true h hv]
    exact ⟨rfl, rfl⟩
  · intro hv
    rw [OnSystemPaused_disabled col tps now true h hv]
    exact ⟨rfl, rfl⟩

/-- Witness of C19 as amended: vibration enabled, the last value true. -/
theorem C19_pause_disables_vibration_witness :
    (OnSystemPaused demoCol 1000 500 true
        (demoCore none false SystemState.Paused true true)).2
      = [Effect.CommonOnSystemPaused true, Effect.SetVibration false] ∧
    (OnSystemPaused demoCol 1000 500 true
        (demoCore none false SystemState.Paused true true)).1.sys.vibration
      = SetVibration 1000 500 false
          (demoCol.CommonOnSystemPaused true
            (demoCore none false SystemState.Paused true true)).sys.vibration :=
  (C19_pause_disables_vibration demoCol 1000 500
    (demoCore none false SystemState.Paused true true)).1 rfl

theorem PauseSystem_already {κ α : Type} (col : Collaborators κ α) (tps now : Nat)
    (paused : Bool) (h : Host κ (Core α))
    (hst : (paused = true ∧ h.sys.system = SystemState.Paused) ∨
      (paused = false ∧ h.sys.system = SystemState.Running)) :
    PauseSystem col tps now paused h = (h, []) := by
  unfold PauseSystem
  rcases hst with ⟨hp, hs⟩ | ⟨hp, hs⟩ <;> subst hp <;> rw [hs]

/-- C20 (pause idempotence). Take the modelled `PauseSystem`, a running
emulation thread and an empty queue, and let `PauseEmulationThread(true)` be
issued with the system already paused, or `PauseEmulationThread(false)` with
the system already running. The call returns with the function queued; the
next drain calls it, and nothing else; the function has no effect of its own
(no base-class notification, no `SetVibration`, no host call); and the host
after the drain is the host from before the call with
`m_callbacks_outstanding` false: the system state, `running`, the stop
request, the vibration members and the host calls made are the same as if the
call had not been made, the drain of the untouched host leaving it as it
is. -/
theorem C20_pause_idempotent {α : Type} (col : Collaborators Closure α) (tps now fuel : Nat)
    (ext : Externals Closure (Core α)) (paused : Bool) (h : Host Closure (Core α))
    (hrun : h.m_emulation_thread_running = true) (hq : h.m_callback_queue = [])
    (hst : (paused = true ∧ h.sys.system = SystemState.Paused) ∨
      (paused = false ∧ h.sys.system = SystemState.Running)) :
    PauseEmulationThread (closureExt col tps now ext) fuel paused h
      = some ({ h with m_callback_queue := [Closure.PauseSystem paused],
                       m_callbacks_outstanding := true }, [Event.notify_one]) ∧
    runEvents (closureExt col tps now ext) 1
        { h with m_callback_queue := [Closure.PauseSystem paused],
                 m_callbacks_outstanding := true }
      = some ({ h with m_callbacks_outstanding := false },
          [Event.callback (Closure.PauseSystem paused)]) ∧
    (PauseSystem col tps now paused
        { h with m_callback_queue := [], m_callbacks_outstanding := true }).2 = [] ∧
    runEvents (closureExt col tps now ext) 1 h = some (h, []) := by
  have hp : PauseSystem col tps now paused
      { h with m_callback_queue := [], m_callbacks_outstanding := true }
      = ({ h with m_callback_queue := [], m_callbacks_outstanding := true }, []) :=
    PauseSystem_already col tps now paused _ hst
  have hbody : (closureExt col tps now ext).call (Closure.PauseSystem paused)
      { h with m_callback_queue := [], m_callbacks_outstanding := true }
      = { h with m_callback_queue := [], m_callbacks_outstanding := true } := by
    show (PauseSystem col tps now paused _).1 = _
    rw [hp]
  refine ⟨?_, ?_, ?_, ?_⟩
  · unfold PauseEmulationThread RunOnEmulationThread IsEmulationThreadRunning
    simp [hrun, hq]
  · unfold runEvents
    simp only [List.isEmpty_cons, Bool.not_false, if_true]
    rw [runCallbacks_last (closureExt col tps now ext) 0 _ (Closure.PauseSystem paused) []
      rfl (by rw [hbody])]
    simp only [Option.map_some']
    rw [hbody]
    cases h
    simp_all
  · rw [hp]
  · unfold runEvents
    simp [hq]

/-- Witness of C20: a pause request for a paused system. -/
theorem C20_pause_idempotent_witness :
    PauseEmulationThread (closureExt demoCol 1000 500 idleExt) 0 true
        (demoCore (some 3) true SystemState.Paused true true)
      = some ({ demoCore (some 3) true SystemState.Paused true true with
                  m_callback_queue := [Closure.PauseSystem true],
                  m_callbacks_outstanding := true }, [Event.notify_one]) ∧
    runEvents (closureExt demoCol 1000 500 idleExt) 1
        { demoCore (some 3) true SystemState.Paused true true with
          m_callback_queue := [Closure.PauseSystem true],
          m_callbacks_outstanding := true }
      = some ({ demoCore (some 3) true SystemState.Paused true true with
                  m_callbacks_outstanding := false },
          [Event.callback (Closure.PauseSystem true)]) ∧
    (PauseSystem demoCol 1000 500 true
        { demoCore (some 3) true SystemState.Paused true true with
          m_callback_queue := [], m_callbacks_outstanding := true }).2 = [] ∧
    runEvents (closureExt demoCol 1000 500 idleExt) 1
        (demoCore (some 3) true SystemState.Paused true true)
      = some (demoCore (some 3) true SystemState.Paused true true, []) :=
  C20_pause_idempotent demoCol 1000 500 0 idleExt true
    (demoCore (some 3) true SystemState.Paused true true) rfl rfl (Or.inl ⟨rfl, rfl⟩)

theorem mutexInv_step (ext : Externals κ σ) (f : κ) (a : Action κ) (w : World κ σ)
    (hinv : MutexInv w) : MutexInv (step ext f a w) := by
  obtain ⟨host, mutex, caller, loop, finished, pushed⟩ := w
  unfold MutexInv at hinv ⊢
  cases a with
  | caller =>
    cases caller with
    | lock =>
      cases mutex with
      | none => cases loop <;> simp_all [step, stepCaller, LoopPc.holds]
      | some t => exact hinv
    | test =>
      cases ho : host.m_callbacks_outstanding <;> rcases mutex with _ | _ | _ <;> cases loop <;>
        simp_all [step, stepCaller, LoopPc.holds]
    | relock =>
      cases mutex with
      | none => cases loop <;> simp_all [step, stepCaller, LoopPc.holds]
      | some t => exact hinv
    | returned => exact hinv
  | loop =>
    cases loop with
    | lock =>
      cases mutex with
      | none => cases caller <;> simp_all [step, stepLoop, LoopPc.holds]
      | some t => exact hinv
    | queueTest =>
      cases hq : host.m_callback_queue <;> rcases mutex with _ | _ | _ <;> cases caller <;>
        simp_all [step, stepLoop, LoopPc.holds]
    | callback c =>
      rcases mutex with _ | _ | _ <;> cases caller <;> simp_all [step, stepLoop, LoopPc.holds]
    | relock =>
      cases mutex with
      | none => cases caller <;> simp_all [step, stepLoop, LoopPc.holds]
      | some t => exact hinv
    | whileTest =>
      cases hq : host.m_callback_queue <;> rcases mutex with _ | _ | _ <;> cases caller <;>
        simp_all [step, stepLoop, LoopPc.holds]
    | stopTest =>
      cases hs : host.m_emulation_thread_stop_request <;>
        cases hp : ext.IsPaused host.sys <;> rcases mutex with _ | _ | _ <;> cases caller <;>
        simp_all [step, stepLoop, LoopPc.holds]
    | waiting =>
      cases mutex with
      | none => cases caller <;> simp_all [step, stepLoop, LoopPc.holds]
      | some t => exact hinv
    | frame =>
      rcases mutex with _ | _ | _ <;> cases caller <;> simp_all [step, stepLoop, LoopPc.holds]
    | returned => exact hinv
  | push c => cases mutex <;> exact hinv
  | inline c => exact hinv
  | stop => cases mutex <;> exact hinv

theorem mutexInv_run (ext : Externals κ σ) (f : κ) :
    ∀ (acts : List (Action κ)) (w : World κ σ), MutexInv w → MutexInv (run ext f acts w) := by
  intro acts
  induction acts with
  | nil => intro w h; exact h
  | cons a acts ih => intro w h; exact ih _ (mutexInv_step ext f a w h)

theorem pendingInv_run (ext : Externals κ σ) (hpol : PoliteExt ext) (f : κ) :
    ∀ (acts : List (Action κ)) (w : World κ σ), PendingInv w → PendingInv (run ext f acts w) := by
  intro acts
  induction acts with
  | nil => intro w h; exact h
  | cons a acts ih => intro w h; exact ih _ (pendingInv_step ext hpol f a w h)

theorem stepLoop_clears (ext : Externals κ σ) (hpol : PoliteExt ext) (w : World κ σ)
    (hout : w.host.m_callbacks_outstanding = true)
    (hstep : (stepLoop ext w).host.m_callbacks_outstanding = false) :
    w.loop = LoopPc.whileTest ∧ w.host.m_callback_queue = [] := by
  obtain ⟨host, mutex, caller, loop, finished, pushed⟩ := w
  have hout2 : host.m_callbacks_outstanding = true := hout
  cases loop with
  | lock => cases mutex <;> simp [stepLoop, hout2] at hstep
  | queueTest => cases hq : host.m_callback_queue <;> simp [stepLoop, hq, hout2] at hstep
  | callback c =>
    have := (hpol.1 c host).2 hout2
    simp [stepLoop, this] at hstep
  | relock => cases mutex <;> simp [stepLoop, hout2] at hstep
  | whileTest =>
    cases hq : host.m_callback_queue with
    | nil => exact ⟨rfl, rfl⟩
    | cons c rest => simp [stepLoop, hq, hout2] at hstep
  | stopTest =>
    exfalso
    revert hstep
    simp only [stepLoop]
    split
    · simp [hout2]
    · split <;> simp [hout2]
  | waiting => cases mutex <;> simp [stepLoop, hout2] at hstep
  | frame =>
    have := (hpol.2 host).2 hout2
    simp [stepLoop, this] at hstep
  | returned => simp [stepLoop, hout2] at hstep

/-- C22 (pending-flag invariant). Start from a host on which the pending flag
is set unless the queue is empty (as on a new interface), the emulation thread
at the top of its loop and `m_mutex` free, the queued functions and the frame
work reaching the queue and the flag only through `RunOnEmulationThread` and
`RunLater`. After every schedule of steps of a blocking caller, of the
emulation loop and of other threads (pushing, calling inline, requesting a
stop): a queue that is not empty has `m_callbacks_outstanding` true, in
particular whenever `m_mutex` is free. Every enqueue appends and sets the flag
within one critical section: `RunLater`, the non-blocking
`RunOnEmulationThread` on a running host, the push of another thread and the
push of the blocking caller (lines 334-337). And when a step of the loop
turns the flag from true to false, the loop is at the test of line 437, the
queue is empty, and the loop holds `m_mutex`. -/
theorem C22_pending_flag_invariant (ext : Externals κ σ) (hpol : PoliteExt ext) (f : κ)
    (h0 : Host κ σ) (hstart : h0.m_callbacks_outstanding = false → h0.m_callback_queue = [])
    (acts : List (Action κ)) :
    ((run ext f acts (World.start h0)).host.m_callback_queue ≠ [] →
      (run ext f acts (World.start h0)).host.m_callbacks_outstanding = true) ∧
    ((run ext f acts (World.start h0)).mutex = none →
      (run ext f acts (World.start h0)).host.m_callback_queue ≠ [] →
        (run ext f acts (World.start h0)).host.m_callbacks_outstanding = true) ∧
    (∀ (c : κ) (h : Host κ σ),
      (RunLater c h).m_callback_queue = h.m_callback_queue ++ [c] ∧
      (RunLater c h).m_callbacks_outstanding = true) ∧
    (∀ (c : κ) (h : Host κ σ), h.m_emulation_thread_running = true →
      ∃ r, RunOnEmulationThread ext 0 c false h = some r ∧
        r.1.m_callback_queue = h.m_callback_queue ++ [c] ∧
        r.1.m_callbacks_outstanding = true) ∧
    (∀ (c : κ) (w : World κ σ), w.mutex = none →
      (step ext f (Action.push c) w).host.m_callback_queue = w.host.m_callback_queue ++ [c] ∧
      (step ext f (Action.push c) w).host.m_callbacks_outstanding = true) ∧
    (∀ w : World κ σ, w.mutex = none → w.caller = CallerPc.lock →
      (stepCaller f w).host.m_callback_queue = w.host.m_callback_queue ++ [f] ∧
      (stepCaller f w).host.m_callbacks_outstanding = true ∧
      (stepCaller f w).mutex = some Thread.caller) ∧
    ((run ext f acts (World.start h0)).host.m_callbacks_outstanding = true →
      (stepLoop ext (run ext f acts (World.start h0))).host.m_callbacks_outstanding = false →
        (run ext f acts (World.start h0)).loop = LoopPc.whileTest ∧
        (run ext f acts (World.start h0)).host.m_callback_queue = [] ∧
        (run ext f acts (World.start h0)).mutex = some Thread.loop) := by
  have hp0 : PendingInv (World.start h0) := fun hout => ⟨hstart hout, rfl⟩
  have hm0 : MutexInv (World.start h0) := by
    unfold MutexInv World.start
    simp [LoopPc.holds]
  have hp := pendingInv_run ext hpol f acts _ hp0
  have hm := mutexInv_run ext f acts _ hm0
  have hflag : (run ext f acts (World.start h0)).host.m_callback_queue ≠ [] →
      (run ext f acts (World.start h0)).host.m_callbacks_outstanding = true := by
    intro hne
    cases hout : (run ext f acts (World.start h0)).host.m_callbacks_outstanding with
    | true => rfl
    | false => exact absurd (hp hout).1 hne
  refine ⟨hflag, fun _ => hflag, fun c h => ⟨rfl, rfl⟩, ?_, ?_, ?_, ?_⟩
  · intro c h hrun
    refine ⟨({ h with m_callback_queue := h.m_callback_queue ++ [c],
                       m_callbacks_outstanding := true }, [Event.notify_one]), ?_, rfl, rfl⟩
    unfold RunOnEmulationThread IsEmulationThreadRunning
    rw [hrun]
    rfl
  · intro c w hfree
    obtain ⟨host, mutex, caller, loop, finished, pushed⟩ := w
    have hfree2 : mutex = none := hfree
    subst hfree2
    exact ⟨rfl, rfl⟩
  · intro w hfree hlock
    obtain ⟨host, mutex, caller, loop, finished, pushed⟩ := w
    have hfree2 : mutex = none := hfree
    have hlock2 : caller = CallerPc.lock := hlock
    subst hfree2
    subst hlock2
    exact ⟨rfl, rfl, rfl⟩
  · intro hout hstep
    obtain ⟨h1, h2⟩ := stepLoop_clears ext hpol _ hout hstep
    refine ⟨h1, h2, ?_⟩
    apply hm.1.mpr
    rw [h1]
    rfl

/-- Witness of C22: after the example schedule from a host with one queued
function the queue has been drained, and the invariant holds of the state
reached after its first four steps, in which the queue holds the function of
the caller. -/
theorem C22_pending_flag_invariant_witness :
    (run demoExt (Cmd.bump 2) (demoSchedule.take 4)
        (World.start (demoHost [Cmd.bump 1] true true false 5))).host.m_callback_queue
      = [Cmd.bump 2] ∧
    (run demoExt (Cmd.bump 2) (demoSchedule.take 4)
        (World.start (demoHost [Cmd.bump 1] true true false 5))).host.m_callbacks_outstanding
      = true :=
  ⟨rfl,
    (C22_pending_flag_invariant demoExt demoExt_polite (Cmd.bump 2)
      (demoHost [Cmd.bump 1] true true false 5) (fun h => by cases h)
      (demoSchedule.take 4)).1 (by decide)⟩

theorem OnSystemPaused_system {κ α : Type} (col : Collaborators κ α)
    (hs : ∀ b h, (col.CommonOnSystemPaused b h).sys.system = h.sys.system)
    (tps now : Nat) (paused : Bool) (h : Host κ (Core α)) :
    (OnSystemPaused col tps now paused h).1.sys.system = h.sys.system := by
  cases hv : (col.CommonOnSystemPaused paused h).m_vibration_enabled
  · rw [OnSystemPaused_disabled col tps now paused h hv]
    exact hs paused h
  · rw [OnSystemPaused_enabled col tps now paused h hv]
    exact hs paused h

theorem OnSystemPaused_display {κ α : Type} (col : Collaborators κ α)
    (hs : ∀ b h, (col.CommonOnSystemPaused b h).sys.m_display = h.sys.m_display)
    (tps now : Nat) (paused : Bool) (h : Host κ (Core α)) :
    (OnSystemPaused col tps now paused h).1.sys.m_display = h.sys.m_display := by
  cases hv : (col.CommonOnSystemPaused paused h).m_vibration_enabled
  · rw [OnSystemPaused_disabled col tps now paused h hv]
    exact hs paused h
  · rw [OnSystemPaused_enabled col tps now paused h hv]
    exact hs paused h

theorem PauseSystem_pause {κ α : Type} (col : Collaborators κ α) (tps now : Nat)
    (h : Host κ (Core α)) (hr : h.sys.system = SystemState.Running) :
    PauseSystem col tps now true h
      = OnSystemPaused col tps now true
          { h with sys := { h.sys with system := SystemState.Paused } } := by
  unfold PauseSystem
  rw [hr]

theorem PauseSystem_resume {κ α : Type} (col : Collaborators κ α) (tps now : Nat)
    (h : Host κ (Core α)) (hp : h.sys.system = SystemState.Paused) :
    PauseSystem col tps now false h
      = OnSystemPaused col tps now false
          { h with sys := { h.sys with system := SystemState.Running } } := by
  unfold PauseSystem
  rw [hp]

theorem PauseSystem_no_pause_effect {κ α : Type} (col : Collaborators κ α) (tps now : Nat)
    (paused : Bool) (h : Host κ (Core α)) :
    (PauseSystem col tps now paused h).2.filter Effect.isPauseSystem = [] := by
  apply filter_nil_of_all_not
  have := PauseSystem_effects col tps now paused h
  rw [List.all_eq_true] at this ⊢
  intro e he
  have := this e he
  simp only [Bool.and_eq_true] at this
  exact this.2

/-- C26. Let `SurfaceChanged` receive a handle that is not none and differs
from the held one, a display being present. Whenever the state of the system
is Paused it calls `PauseSystem(false)`, once, and the system is running on
return (the base-class pause notification not writing the system state): the
test of line 627 reads the state alone. So it is for a pause the user has
asked for: after `PauseSystem(true)` on a running system (what
`PauseEmulationThread(true)` queues), the same call of `SurfaceChanged` leaves
the system running. -/
theorem C26_new_surface_clears_pause {κ α : Type} (col : Collaborators κ α)
    (hsys : ∀ b h, (col.CommonOnSystemPaused b h).sys.system = h.sys.system)
    (hdis : ∀ b h, (col.CommonOnSystemPaused b h).sys.m_display = h.sys.m_display)
    (hsur : ∀ b h, (col.CommonOnSystemPaused b h).sys.m_surface = h.sys.m_surface)
    (tps now : Nat) (n : Nat) (format width height : Int) :
    (∀ h : Host κ (Core α), h.sys.m_display = true → h.sys.m_surface ≠ some n →
      h.sys.system = SystemState.Paused →
        (SurfaceChanged col tps now (some n) format width height h).1.sys.system
          = SystemState.Running ∧
        (SurfaceChanged col tps now (some n) format width height h).2.filter
            Effect.isPauseSystem
          = [Effect.PauseSystem false]) ∧
    (∀ (h0 : Host κ (Core α)) (tps0 now0 : Nat), h0.sys.m_display = true →
      h0.sys.m_surface ≠ some n → h0.sys.system = SystemState.Running →
        (PauseSystem col tps0 now0 true h0).1.sys.system = SystemState.Paused ∧
        (SurfaceChanged col tps now (some n) format width height
            (PauseSystem col tps0 now0 true h0).1).1.sys.system
          = SystemState.Running) := by
  have main : ∀ h : Host κ (Core α), h.sys.m_display = true → h.sys.m_surface ≠ some n →
      h.sys.system = SystemState.Paused →
        (SurfaceChanged col tps now (some n) format width height h).1.sys.system
          = SystemState.Running ∧
        (SurfaceChanged col tps now (some n) format width height h).2.filter
            Effect.isPauseSystem
          = [Effect.PauseSystem false] := by
    intro h hd hne hp
    have hsc : SurfaceChanged col tps now (some n) format width height h
        = ((PauseSystem col tps now false
              { h with sys := { h.sys with m_surface := some n } }).1,
            Effect.ChangeRenderWindow
              { type := WindowInfoType.Android, window_handle := some n,
                surface_width := width, surface_height := height } ::
            Effect.PauseSystem false ::
            (PauseSystem col tps now false
              { h with sys := { h.sys with m_surface := some n } }).2) := by
      unfold SurfaceChanged
      rw [if_neg hne]
      simp [hd, hp]
    rw [hsc]
    constructor
    · show (PauseSystem col tps now false
          { h with sys := { h.sys with m_surface := some n } }).1.sys.system = _
      have hp2 : ({ h with sys := { h.sys with m_surface := some n } } :
          Host κ (Core α)).sys.system = SystemState.Paused := hp
      rw [PauseSystem_resume col tps now _ hp2, OnSystemPaused_system col hsys]
    · show List.filter Effect.isPauseSystem (_ :: _ :: _) = _
      rw [List.filter_cons, List.filter_cons, PauseSystem_no_pause_effect]
      rfl
  refine ⟨main, ?_⟩
  intro h0 tps0 now0 hd hne hr
  have hpaused : (PauseSystem col tps0 now0 true h0).1.sys.system = SystemState.Paused := by
    rw [PauseSystem_pause col tps0 now0 h0 hr, OnSystemPaused_system col hsys]
  refine ⟨hpaused, (main _ ?_ ?_ hpaused).1⟩
  · rw [PauseSystem_pause col tps0 now0 h0 hr, OnSystemPaused_display col hdis]
    exact hd
  · rw [PauseSystem_surface col hsur]
    exact hne

/-- Witness of C26: the user pauses a running system that holds surface 1, and
the arrival of surface 2 resumes it. -/
theorem C26_new_surface_clears_pause_witness :
    (PauseSystem demoCol 1000 400 true
        (demoCore (some 1) true SystemState.Running true false)).1.sys.system
      = SystemState.Paused ∧
    (SurfaceChanged demoCol 1000 500 (some 2) 1 640 480
        (PauseSystem demoCol 1000 400 true
          (demoCore (some 1) true SystemState.Running true false)).1).1.sys.system
      = SystemState.Running :=
  (C26_new_surface_clears_pause demoCol (fun _ _ => rfl) (fun _ _ => rfl) (fun _ _ => rfl)
    1000 500 2 1 640 480).2 (demoCore (some 1) true SystemState.Running true false) 1000 400
    rfl (by decide) rfl

/-- C25. `StopEmulationThreadLoop()` called while `m_emulation_thread_running`
reads false (no emulation thread, or one that has not yet stored true at line
415) returns at line 314: the host is as before, so a stop request that was
false stays false, and no `notify_one` is made. A loop that starts afterwards
runs as if the call had not been made; with no stop request and nothing
queued, its first pass through the stop check of line 441 does not return: it
goes on to the frame work when the system is not paused and into
`m_sleep_cv.wait` when it is. -/
theorem C25_stop_while_not_running (ext : Externals κ σ) (h : Host κ σ)
    (hrun : h.m_emulation_thread_running = false) :
    StopEmulationThreadLoop h = (h, ([] : List (Event κ))) ∧
    (h.m_emulation_thread_stop_request = false →
      (StopEmulationThreadLoop h).1.m_emulation_thread_stop_request = false) ∧
    (∀ fuel, EmulationThreadLoop ext fuel (StopEmulationThreadLoop h).1
      = EmulationThreadLoop ext fuel h) ∧
    (h.m_emulation_thread_stop_request = false → h.m_callback_queue = [] →
      ∀ n,
        (ext.IsPaused h.sys = false →
          eventLoop ext (n + 1)
              { (StopEmulationThreadLoop h).1 with m_emulation_thread_running := true }
            = some (LoopExit.runFrame, { h with m_emulation_thread_running := true }, [])) ∧
        (ext.IsPaused h.sys = true →
          eventLoop ext (n + 1)
              { (StopEmulationThreadLoop h).1 with m_emulation_thread_running := true }
            = (eventLoop ext n (ext.others { h with m_emulation_thread_running := true })).map
                (fun r => (r.1, r.2.1, Event.cv_wait :: r.2.2)))) := by
  have hstop : StopEmulationThreadLoop h = (h, ([] : List (Event κ))) := by
    unfold StopEmulationThreadLoop IsEmulationThreadRunning
    rw [hrun]
    rfl
  refine ⟨hstop, ?_, ?_, ?_⟩
  · intro hs
    rw [hstop]
    exact hs
  · intro fuel
    rw [hstop]
  · intro hs hq n
    rw [hstop]
    have hd : runEvents ext n { h with m_emulation_thread_running := true }
        = some ({ h with m_emulation_thread_running := true }, []) := by
      unfold runEvents
      simp [hq]
    constructor
    · intro hp
      exact eventLoop_break ext n _ _ [] hd hs hp
    · intro hp
      rw [eventLoop_wait ext n _ _ [] hd hs hp]
      rfl

/-- Witness of C25: a stop request on an idle host with a queued function. -/
theorem C25_stop_while_not_running_witness :
    StopEmulationThreadLoop (demoHost [Cmd.bump 1] true false false 5)
      = (demoHost [Cmd.bump 1] true false false 5, []) :=
  (C25_stop_while_not_running demoExt (demoHost [Cmd.bump 1] true false false 5) rfl).1

/-- C27. `RunLater(f)` puts `f` at the back of the queue and sets
`m_callbacks_outstanding`, whatever the host, the running flag included; every
other member and the rest of the state are as before, so `f` has not been
called, and the function makes no `notify_one` (it has no events at all).
When the emulation thread is not running, where `RunOnEmulationThread` would
have called `f` itself, `f` stays in the queue; the drain of an emulation loop
that starts later calls the entries queued before it and then `f`. -/
theorem C27_run_later (ext : Externals κ σ) (w : κ → Nat) (hw : AppendsWithin ext w)
    (f : κ) (h : Host κ σ) :
    RunLater f h
      = { h with m_callback_queue := h.m_callback_queue ++ [f],
                 m_callbacks_outstanding := true } ∧
    (RunLater f h).m_callback_queue = h.m_callback_queue ++ [f] ∧
    (RunLater f h).m_callbacks_outstanding = true ∧
    (RunLater f h).sys = h.sys ∧
    (RunLater f h).m_emulation_thread_running = h.m_emulation_thread_running ∧
    (RunLater f h).m_emulation_thread_stop_request = h.m_emulation_thread_stop_request ∧
    (h.m_emulation_thread_running = false →
      ∀ fuel b, RunOnEmulationThread ext fuel f b h
        = some (ext.call f h, [Event.callback f])) ∧
    (∀ n, budget w (h.m_callback_queue ++ [f]) ≤ n →
      ∃ h2 extra,
        runEvents ext n { RunLater f h with m_emulation_thread_running := true }
          = some (h2, ((h.m_callback_queue ++ [f]) ++ extra).map Event.callback) ∧
        h2.m_callback_queue = [] ∧ h2.m_callbacks_outstanding = false) := by
  refine ⟨rfl, rfl, rfl, rfl, rfl, rfl, ?_, ?_⟩
  · intro hrun fuel b
    unfold RunOnEmulationThread IsEmulationThreadRunning
    rw [hrun]
    rfl
  · intro n hn
    obtain ⟨h2, extra, hrun, hq, _, hout, _⟩ :=
      runEvents_spec ext w hw n { RunLater f h with m_emulation_thread_running := true } hn
    refine ⟨h2, extra, hrun, hq, hout ?_⟩
    show h.m_callback_queue ++ [f] ≠ []
    simp

/-- Witness of C27: `RunLater` on an idle host with one queued function. -/
theorem C27_run_later_witness :
    (RunLater (Cmd.bump 2) (demoHost [Cmd.bump 1] true false false 5)).m_callback_queue
      = [Cmd.bump 1, Cmd.bump 2] ∧
    (RunLater (Cmd.bump 2) (demoHost [Cmd.bump 1] true false false 5)).sys = 5 :=
  ⟨(C27_run_later demoExt Cmd.appends demoExt_appends (Cmd.bump 2)
      (demoHost [Cmd.bump 1] true false false 5)).2.1,
    rfl⟩

/-- C28. With `m_emulation_thread_running` reading false, each of
`SetControllerButtonState`, `SetControllerAxisState`,
`HandleControllerButtonEvent` and `HandleControllerAxisEvent` returns at its
first line: the host is as before (nothing queued, the pending flag and the
rest of the state untouched) and no function has been called, where
`RunOnEmulationThread` on the same host would have called the function itself.
With the flag reading true each of them queues its function. -/
theorem C28_input_dropped_when_idle (ext : Externals κ σ) (closure : InputClosure → κ)
    (h : Host κ σ) (hrun : h.m_emulation_thread_running = false) :
    (∀ index button_code pressed,
      SetControllerButtonState ext closure index button_code pressed h = some (h, [])) ∧
    (∀ index button_code value,
      SetControllerAxisState ext closure index button_code value h = some (h, [])) ∧
    (∀ controller_index button_index pressed,
      HandleControllerButtonEvent ext closure controller_index button_index pressed h
        = some (h, [])) ∧
    (∀ controller_index axis_index value,
      HandleControllerAxisEvent ext closure controller_index axis_index value h
        = some (h, [])) ∧
    (∀ c fuel b, RunOnEmulationThread ext fuel (closure c) b h
      = some (ext.call (closure c) h, [Event.callback (closure c)])) ∧
    (∀ index button_code pressed,
      SetControllerButtonState ext closure index button_code pressed
          { h with m_emulation_thread_running := true }
        = some ({ h with m_emulation_thread_running := true,
                         m_callback_queue := h.m_callback_queue ++
                           [closure (InputClosure.SetButtonState index button_code pressed)],
                         m_callbacks_outstanding := true }, [Event.notify_one])) := by
  refine ⟨?_, ?_, ?_, ?_, ?_, ?_⟩
  · intro index button_code pressed
    unfold SetControllerButtonState IsEmulationThreadRunning
    rw [hrun]
    rfl
  · intro index button_code value
    unfold SetControllerAxisState IsEmulationThreadRunning
    rw [hrun]
    rfl
  · intro controller_index button_index pressed
    unfold HandleControllerButtonEvent IsEmulationThreadRunning
    rw [hrun]
    rfl
  · intro controller_index axis_index value
    unfold HandleControllerAxisEvent IsEmulationThreadRunning
    rw [hrun]
    rfl
  · intro c fuel b
    unfold RunOnEmulationThread IsEmulationThreadRunning
    rw [hrun]
    rfl
  · intro index button_code pressed
    rfl

/-- Witness of C28: a button press on an idle host. -/
theorem C28_input_dropped_when_idle_witness :
    SetControllerButtonState demoExt (fun _ => Cmd.bump 1) 0 3 true
        (demoHost [] false false false 5)
      = some (demoHost [] false false false 5, []) :=
  (C28_input_dropped_when_idle demoExt (fun _ => Cmd.bump 1)
    (demoHost [] false false false 5) rfl).1 0 3 true

/-- C21 as stated fails when `UpdateImGuiFontTexture` fails after the device
and the ImGui context have been created: `AcquireHostDisplay` returns false
having called `ReportError` at line 527 and only then `ReleaseHostDisplay` at
line 528, so the four teardown calls follow the report. -/
theorem C21_counterexample :
    (AcquireHostDisplay fontTextureFails 640 480
        (demoCore (some 3) false SystemState.Shutdown false false).sys).1 = false ∧
    (AcquireHostDisplay fontTextureFails 640 480
        (demoCore (some 3) false SystemState.Shutdown false false).sys).2.2
      = [DisplayCall.make_unique DisplayClass.OpenGLHostDisplay,
         DisplayCall.CreateRenderDevice
           { type := WindowInfoType.Android, window_handle := some 3,
             surface_width := 640, surface_height := 480 } true,
         DisplayCall.InitializeRenderDevice true,
         DisplayCall.CreateImGuiContext true,
         DisplayCall.SetDisplayAlignment,
         DisplayCall.UpdateImGuiFontTexture false,
         DisplayCall.ReportError "Failed to create host display resources",
         DisplayCall.ReleaseHostDisplayResources,
         DisplayCall.DestroyImGuiContext,
         DisplayCall.DestroyRenderDevice,
         DisplayCall.reset] ∧
    teardownBeforeReport
      (AcquireHostDisplay fontTextureFails 640 480
        (demoCore (some 3) false SystemState.Shutdown false false).sys).2.2 = false := by
  refine ⟨rfl, rfl, ?_⟩
  decide

/-- C21 as amended. `AcquireHostDisplay` returns false exactly when one of the
five calls that can fail has failed, and then `m_display` holds no display on
return and what had been created (the display object, the render device, the
ImGui context, the host display resources) is torn down in the reverse order
of its creation. When `CreateRenderDevice`, `InitializeRenderDevice` or
`CreateImGuiContext` has failed, the teardown is `DestroyRenderDevice` and the
reset of `m_display`, and `AcquireHostDisplay` calls `ReportError` not at all.
When these three have succeeded and `UpdateImGuiFontTexture` or
`CreateHostDisplayResources` has failed, `ReportError` is called once and
first, and the teardown of `ReleaseHostDisplay` follows it:
`ReleaseHostDisplayResources`, `DestroyImGuiContext`, `DestroyRenderDevice`,
the reset. When it returns true nothing is torn down or reported and
`m_display` holds the display. -/
theorem C21_acquire_failure_teardown {α : Type} (res : DisplayResults)
    (surface_width surface_height : Int) (s : Core α) :
    ((AcquireHostDisplay res surface_width surface_height s).1 = false ↔
      (res.CreateRenderDevice && res.InitializeRenderDevice && res.CreateImGuiContext &&
        res.UpdateImGuiFontTexture && res.CreateHostDisplayResources) = false) ∧
    ((AcquireHostDisplay res surface_width surface_height s).1 = false →
      (AcquireHostDisplay res surface_width surface_height s).2.1
        = { s with m_display := false } ∧
      (((AcquireHostDisplay res surface_width surface_height s).2.2.filterMap
          DisplayCall.creates).reverse).Sublist
        ((AcquireHostDisplay res surface_width surface_height s).2.2.filterMap
          DisplayCall.destroys)) ∧
    ((res.CreateRenderDevice && res.InitializeRenderDevice && res.CreateImGuiContext) = false →
      (AcquireHostDisplay res surface_width surface_height s).2.2.filter
          (fun c => c.isReportError || c.destroys.isSome)
        = [DisplayCall.DestroyRenderDevice, DisplayCall.reset]) ∧
    ((res.CreateRenderDevice && res.InitializeRenderDevice && res.CreateImGuiContext) = true →
      (res.UpdateImGuiFontTexture && res.CreateHostDisplayResources) = false →
        (AcquireHostDisplay res surface_width surface_height s).2.2.filter
            (fun c => c.isReportError || c.destroys.isSome)
          = [DisplayCall.ReportError "Failed to create host display resources",
             DisplayCall.ReleaseHostDisplayResources, DisplayCall.DestroyImGuiContext,
             DisplayCall.DestroyRenderDevice, DisplayCall.reset]) ∧
    ((AcquireHostDisplay res surface_width surface_height s).1 = true →
      (AcquireHostDisplay res surface_width surface_height s).2.1
        = { s with m_display := true } ∧
      (AcquireHostDisplay res surface_width surface_height s).2.2.filter
          (fun c => c.isReportError || c.destroys.isSome) = []) := by
  obtain ⟨a, b, c, d, e⟩ := res
  cases a <;> cases b <;> cases c <;> cases d <;> cases e <;>
    simp [AcquireHostDisplay, createRenderDevice, createResources, ReleaseHostDisplay,
      DisplayCall.creates, DisplayCall.destroys, DisplayCall.isReportError]

/-- Witness of C21 as amended: the font texture fails, the error is reported
and then the display is released. -/
theorem C21_acquire_failure_teardown_witness :
    (AcquireHostDisplay fontTextureFails 640 480
        (demoCore (some 3) false SystemState.Shutdown false false).sys).2.2.filter
        (fun c => c.isReportError || c.destroys.isSome)
      = [DisplayCall.ReportError "Failed to create host display resources",
         DisplayCall.ReleaseHostDisplayResources, DisplayCall.DestroyImGuiContext,
         DisplayCall.DestroyRenderDevice, DisplayCall.reset] :=
  (C21_acquire_failure_teardown fontTextureFails 640 480
    (demoCore (some 3) false SystemState.Shutdown false false).sys).2.2.2.1 rfl rfl

theorem demoConversions_endsWith (s t : String) :
    demoConversions.EndsWith s t = true ↔ ∃ pre : String, s = pre ++ t := by
  show t.toList.isSuffixOf s.toList = true ↔ _
  rw [List.isSuffixOf_iff_suffix]
  constructor
  · rintro ⟨l, hl⟩
    refine ⟨⟨l⟩, ?_⟩
    apply String.ext
    rw [String.data_append]
    exact hl.symm
  · rintro ⟨pre, rfl⟩
    exact ⟨pre.toList, (String.data_append pre t).symm⟩

/-- C24. `LoadAndConvertSettings` reads the token of `GPU`/`MSAA` (`"1"` when
the key has no value). The sample count it stores is the number
`StringUtil::FromChars<u32>` parses the token to when that is at least 1, and
1 when the token parses to 0 or does not parse; it is never less than 1. Per-
sample shading is stored true exactly when the token ends with `"-ssaa"`,
`StringUtil::EndsWith` being the suffix test. -/
theorem C24_msaa_token (cv : Conversions)
    (hends : ∀ s : String, cv.EndsWith s "-ssaa" = true ↔ ∃ pre : String, s = pre ++ "-ssaa")
    (si : SettingsInterface) :
    (∀ n, cv.FromChars (si.GPU_MSAA.getD "1") = some n → 1 ≤ n →
      (LoadAndConvertSettings cv si).gpu_multisamples = n) ∧
    (cv.FromChars (si.GPU_MSAA.getD "1") = some 0 →
      (LoadAndConvertSettings cv si).gpu_multisamples = 1) ∧
    (cv.FromChars (si.GPU_MSAA.getD "1") = none →
      (LoadAndConvertSettings cv si).gpu_multisamples = 1) ∧
    1 ≤ (LoadAndConvertSettings cv si).gpu_multisamples ∧
    ((LoadAndConvertSettings cv si).gpu_per_sample_shading = true ↔
      ∃ pre : String, si.GPU_MSAA.getD "1" = pre ++ "-ssaa") := by
  refine ⟨?_, ?_, ?_, ?_, ?_⟩
  · intro n hn h1
    show max ((cv.FromChars (si.GPU_MSAA.getD "1")).getD 1) 1 = n
    rw [hn]
    exact max_eq_left h1
  · intro hn
    show max ((cv.FromChars (si.GPU_MSAA.getD "1")).getD 1) 1 = 1
    rw [hn]
    rfl
  · intro hn
    show max ((cv.FromChars (si.GPU_MSAA.getD "1")).getD 1) 1 = 1
    rw [hn]
    rfl
  · exact le_max_right _ _
  · exact hends _

/-- Witness of C24: the token `4-ssaa` gives four samples with per-sample
shading, the token `0` one sample without. -/
theorem C24_msaa_token_witness :
    (LoadAndConvertSettings demoConversions (demoStore "4-ssaa")).gpu_multisamples = 4 ∧
    ((LoadAndConvertSettings demoConversions (demoStore "4-ssaa")).gpu_per_sample_shading = true ↔
      ∃ pre : String, "4-ssaa" = pre ++ "-ssaa") ∧
    (LoadAndConvertSettings demoConversions (demoStore "0")).gpu_multisamples = 1 :=
  ⟨(C24_msaa_token demoConversions (fun s => demoConversions_endsWith s "-ssaa")
      (demoStore "4-ssaa")).1 4 (by decide) (by decide),
    (C24_msaa_token demoConversions (fun s => demoConversions_endsWith s "-ssaa")
      (demoStore "4-ssaa")).2.2.2.2,
    by decide⟩

theorem growMemory_spec (position n : Nat) (bs : GrowableMemoryByteStream)
    (hn : position + n < 2 ^ 32) :
    position + n ≤ (growMemory position n bs).memory_size ∧
    bs.memory_size ≤ (growMemory position n bs).memory_size ∧
    (growMemory position n bs).memory = bs.memory ∧
    (growMemory position n bs).size = bs.size ∧
    (position + n ≤ bs.memory_size → growMemory position n bs = bs) ∧
    (bs.memory_size < position + n →
      (growMemory position n bs).memory_size
        = max (bs.memory_size * 2 % 2 ^ 32) (position + n)) := by
  have hmod : (position + n) % 2 ^ 32 = position + n := Nat.mod_eq_of_lt hn
  unfold growMemory
  rw [hmod]
  by_cases hgt : position + n > bs.memory_size
  · rw [if_pos hgt]
    refine ⟨le_max_right _ _, ?_, rfl, rfl, fun h => absurd hgt (not_lt.mpr h), fun _ => rfl⟩
    exact le_trans (le_of_lt hgt) (le_max_right _ _)
  · rw [if_neg hgt]
    exact ⟨not_lt.mp hgt, le_refl _, rfl, rfl, fun _ => rfl, fun h => absurd h hgt⟩

theorem readLoop_stop (stop : Read) (rest : List Read) (position : Nat)
    (bs : GrowableMemoryByteStream) (hstop : stop.bytes_read ≤ 0) :
    readLoop (stop :: rest) position bs = some (position, bs) := by
  unfold readLoop
  rw [if_pos hstop]

theorem readLoop_chunk (r : Read) (rest : List Read) (position : Nat)
    (bs bs2 : GrowableMemoryByteStream) (hr : 0 < r.bytes_read)
    (hc : GetByteArrayRegion r.temp r.bytes_read.toNat position
      (growMemory position (r.bytes_read.toNat % 2 ^ 32) bs) = some bs2) :
    readLoop (r :: rest) position bs
      = readLoop rest ((position + r.bytes_read.toNat % 2 ^ 32) % 2 ^ 32) bs2 := by
  conv => lhs; unfold readLoop
  rw [if_neg (not_le.mpr hr), hc]

theorem range_map_copy (temp memory : Nat → Nat) (position n : Nat) :
    (List.range (position + n)).map
        (fun i => if position ≤ i ∧ i < position + n then temp (i - position) else memory i)
      = (List.range position).map memory ++ (List.range n).map temp := by
  rw [List.range_add, List.map_append, List.map_map]
  congr 1
  · apply List.map_congr_left
    intro i hi
    have hlt : i < position := List.mem_range.mp hi
    have : ¬ (position ≤ i ∧ i < position + n) := fun h => absurd h.1 (not_le.mpr hlt)
    simp only [this, if_false]
  · apply List.map_congr_left
    intro i hi
    have hlt : i < n := List.mem_range.mp hi
    have : position ≤ position + i ∧ position + i < position + n :=
      ⟨Nat.le_add_right _ _, Nat.add_lt_add_left hlt _⟩
    simp only [Function.comp, this, and_self, if_true, Nat.add_sub_cancel_left]

/-- The loop over reads that deliver bytes and then one that does not: it is
left with the position advanced by the bytes delivered, the buffer holding
them after what it held before. -/
theorem readLoop_spec (stop : Read) (rest : List Read) (hstop : stop.bytes_read ≤ 0) :
    ∀ (chunks : List Read) (position : Nat) (bs : GrowableMemoryByteStream),
      (∀ r ∈ chunks, 0 < r.bytes_read) →
      position + (chunks.map (fun r => r.bytes_read.toNat)).sum < 2 ^ 32 →
      ∃ bs2, readLoop (chunks ++ stop :: rest) position bs
          = some (position + (chunks.map (fun r => r.bytes_read.toNat)).sum, bs2) ∧
        (List.range (position + (chunks.map (fun r => r.bytes_read.toNat)).sum)).map bs2.memory
          = (List.range position).map bs.memory ++ (chunks.map Read.chunk).flatten ∧
        (position ≤ bs.memory_size →
          position + (chunks.map (fun r => r.bytes_read.toNat)).sum ≤ bs2.memory_size) ∧
        bs2.size = bs.size := by
  intro chunks
  induction chunks with
  | nil =>
    intro position bs _ _
    refine ⟨bs, ?_, ?_, ?_, rfl⟩
    · rw [List.nil_append, readLoop_stop stop rest position bs hstop]
      rfl
    · simp
    · intro h
      simpa using h
  | cons r cs ih =>
    intro position bs hpos hsum
    have hr : 0 < r.bytes_read := hpos r (List.mem_cons_self _ _)
    have hcs : ∀ q ∈ cs, 0 < q.bytes_read := fun q hq => hpos q (List.mem_cons_of_mem _ hq)
    rw [List.map_cons, List.sum_cons] at hsum ⊢
    have hn : position + r.bytes_read.toNat < 2 ^ 32 := by omega
    have hn1 : r.bytes_read.toNat % 2 ^ 32 = r.bytes_read.toNat :=
      Nat.mod_eq_of_lt (by omega)
    have hn2 : (position + r.bytes_read.toNat) % 2 ^ 32 = position + r.bytes_read.toNat :=
      Nat.mod_eq_of_lt hn
    obtain ⟨hcap, _, hmem, hsize, _, _⟩ := growMemory_spec position r.bytes_read.toNat bs hn
    have hc : GetByteArrayRegion r.temp r.bytes_read.toNat position
        (growMemory position (r.bytes_read.toNat % 2 ^ 32) bs)
        = some { growMemory position r.bytes_read.toNat bs with
            memory := fun i =>
              if position ≤ i ∧ i < position + r.bytes_read.toNat then r.temp (i - position)
              else (growMemory position r.bytes_read.toNat bs).memory i } := by
      rw [hn1]
      unfold GetByteArrayRegion
      rw [if_pos hcap]
    obtain ⟨bs2, hrun, hcont, hfit, hsz⟩ := ih (position + r.bytes_read.toNat) _ hcs
      (by omega : position + r.bytes_read.toNat + (cs.map (fun r => r.bytes_read.toNat)).sum
        < 2 ^ 32)
    refine ⟨bs2, ?_, ?_, ?_, ?_⟩
    · rw [List.cons_append, readLoop_chunk r _ position bs _ hr hc, hn1, hn2, hrun,
        Nat.add_assoc]
    · rw [← Nat.add_assoc, hcont, List.map_cons, List.flatten_cons, ← List.append_assoc]
      congr 1
      show (List.range (position + r.bytes_read.toNat)).map
          (fun i => if position ≤ i ∧ i < position + r.bytes_read.toNat then
            r.temp (i - position)
            else (growMemory position r.bytes_read.toNat bs).memory i) = _
      rw [range_map_copy, hmem]
      rfl
    · intro _
      rw [← Nat.add_assoc]
      exact hfit hcap
    · rw [hsz]
      exact hsize

/-- C29 as stated fails on its growth rule once the capacity has reached
`2 ^ 31`. Three reads of `2 ^ 30` bytes sum to less than `2 ^ 32`. After the
first two the position and the capacity are `2 ^ 31`. For the third, line 113
computes `GetMemorySize() * 2` in 32 bits, which is 0, and the buffer is
resized to `3 * 2 ^ 30`, the sum of position and bytes read, where the larger
of twice the capacity and that sum would be `2 ^ 32`. -/
theorem C29_counterexample :
    bigRead.bytes_read.toNat + bigRead.bytes_read.toNat + bigRead.bytes_read.toNat < 2 ^ 32 ∧
    (readLoop [bigRead, bigRead, endRead] 0
        { memory := fun _ => 0, memory_size := 0, size := 0 }).map
        (fun r => (r.1, r.2.memory_size))
      = some (2 ^ 31, 2 ^ 31) ∧
    (growMemory (2 ^ 31) (2 ^ 30)
        { memory := fun _ => 0, memory_size := 2 ^ 31, size := 0 }).memory_size
      = 3 * 2 ^ 30 ∧
    max (2 * 2 ^ 31) (2 ^ 31 + 2 ^ 30) = 2 ^ 32 ∧
    (ReadInputStreamToMemory [bigRead, bigRead, bigRead, endRead]).map
        (fun bs => (bs.size, bs.memory_size))
      = some (3 * 2 ^ 30, 3 * 2 ^ 30) := by
  refine ⟨by decide, by decide, by decide, by decide, by decide⟩

/-- C29 as amended. Let the calls of `read` return positive counts whose sum
is below `2 ^ 32` and then a count that is not positive. Then
`ReadInputStreamToMemory` returns a stream whose size is that sum and whose
bytes are the chunks delivered, in order; no copy has written past the buffer,
and the stream fits the buffer. For every chunk (position and count summing
to less than `2 ^ 32`) the capacity after lines 111-115 is at least position
plus count, so the copy of line 117 stays inside the buffer; the buffer is
left alone when it is large enough, and is otherwise resized to the larger of
twice the capacity taken modulo `2 ^ 32` and position plus count, which is
the larger of twice the capacity and position plus count while the capacity
is below `2 ^ 31`. -/
theorem C29_read_stream_to_memory (chunks : List Read) (stop : Read) (rest : List Read)
    (hpos : ∀ r ∈ chunks, 0 < r.bytes_read) (hstop : stop.bytes_read ≤ 0)
    (hsum : (chunks.map (fun r => r.bytes_read.toNat)).sum < 2 ^ 32) :
    (∃ bs, ReadInputStreamToMemory (chunks ++ stop :: rest) = some bs ∧
      bs.size = (chunks.map (fun r => r.bytes_read.toNat)).sum ∧
      bs.contents = (chunks.map Read.chunk).flatten ∧
      bs.size ≤ bs.memory_size) ∧
    (∀ (temp : Nat → Nat) (position n : Nat) (bs : GrowableMemoryByteStream),
      position + n < 2 ^ 32 →
        position + n ≤ (growMemory position n bs).memory_size ∧
        (∃ bs2, GetByteArrayRegion temp n position (growMemory position n bs) = some bs2) ∧
        (position + n ≤ bs.memory_size → growMemory position n bs = bs) ∧
        (bs.memory_size < position + n →
          (growMemory position n bs).memory_size
            = max (bs.memory_size * 2 % 2 ^ 32) (position + n)) ∧
        (bs.memory_size < position + n → bs.memory_size < 2 ^ 31 →
          (growMemory position n bs).memory_size
            = max (2 * bs.memory_size) (position + n))) := by
  constructor
  · obtain ⟨bs2, hrun, hcont, hfit, _⟩ :=
      readLoop_spec stop rest hstop chunks 0 { memory := fun _ => 0, memory_size := 0, size := 0 }
        hpos (by rw [Nat.zero_add]; exact hsum)
    rw [Nat.zero_add] at hrun hcont hfit
    refine ⟨bs2.Resize (chunks.map (fun r : Read => r.bytes_read.toNat)).sum, ?_, rfl, ?_, ?_⟩
    · unfold ReadInputStreamToMemory
      rw [hrun]
      rfl
    · show (List.range (chunks.map (fun r : Read => r.bytes_read.toNat)).sum).map bs2.memory = _
      rw [hcont]
      rfl
    · exact le_max_right _ _
  · intro temp position n bs hn
    obtain ⟨hcap, _, _, _, hsame, hgrow⟩ := growMemory_spec position n bs hn
    refine ⟨hcap, ?_, hsame, hgrow, ?_⟩
    · unfold GetByteArrayRegion
      rw [if_pos hcap]
      exact ⟨_, rfl⟩
    · intro hlt hsmall
      rw [hgrow hlt, Nat.mod_eq_of_lt (by omega), Nat.mul_comm]

/-- Witness of C29 as amended: a read of three bytes, a read of two, the end
of the stream. -/
theorem C29_read_stream_to_memory_witness :
    (ReadInputStreamToMemory ([countRead 3 10, countRead 2 20] ++ endRead :: [])).map
        (fun bs => (bs.size, bs.contents))
      = some (5, [10, 11, 12, 20, 21]) ∧
    ∃ bs, ReadInputStreamToMemory ([countRead 3 10, countRead 2 20] ++ endRead :: []) = some bs ∧
      bs.size = ([countRead 3 10, countRead 2 20].map (fun r => r.bytes_read.toNat)).sum ∧
      bs.contents = ([countRead 3 10, countRead 2 20].map Read.chunk).flatten ∧
      bs.size ≤ bs.memory_size :=
  ⟨by decide,
    (C29_read_stream_to_memory [countRead 3 10, countRead 2 20] endRead []
      (by
        intro r hr
        simp only [List.mem_cons, List.mem_singleton, List.not_mem_nil, or_false] at hr
        rcases hr with rfl | rfl <;> decide)
      (by decide) (by decide)).1⟩

end AndroidHostInterface
